import Mathlib

/-!
# Connection workflow of the blog backend

A shallow embedding of `controllers/connectionController.js` together with the two
Mongoose schemas it works on (`models/ConnectionRequest.js`, `models/Connection.js`).

* A collection is the list of its documents in insertion order; `findOne` returns the
  first document that satisfies the filter.
* Every handler is a function from the store, the authenticated user, the request
  parameters and the clock reading of the call to the new store and the JSON response.
* The `try`/`catch` of a handler is the `Except` result of the store writes: a write that
  the store refuses yields the 500 response of the `catch` block, and the writes that
  were done before it stay in the store.
-/

namespace BlogBackend

/-! ## Data model -/

/-- A MongoDB `ObjectId`. -/
abbrev ObjectId := Nat

/-- A JavaScript `Date`, in milliseconds. -/
abbrev Date := Nat

/-- The `status` enum of `connectionRequestSchema`. -/
inductive RequestStatus where
  | pending
  | accepted
  | rejected
  | cancelled
  deriving DecidableEq, Repr

/-- The `status` enum of `connectionSchema`. -/
inductive ConnectionStatus where
  | pending
  | accepted
  | blocked
  deriving DecidableEq, Repr

/-- A document of the `ConnectionRequest` model; `createdAt` and `updatedAt` come from
the schema option `timestamps: true`. -/
structure ConnectionRequest where
  _id : ObjectId
  senderId : ObjectId
  receiverId : ObjectId
  status : RequestStatus
  message : String
  sentAt : Date
  respondedAt : Option Date
  createdAt : Date
  updatedAt : Date
  deriving DecidableEq, Repr

/-- A document of the `Connection` model; `createdAt` and `updatedAt` come from the
schema option `timestamps: true`. -/
structure Connection where
  _id : ObjectId
  userId : ObjectId
  connectedUserId : ObjectId
  status : ConnectionStatus
  connectedAt : Date
  createdAt : Date
  updatedAt : Date
  deriving DecidableEq, Repr

/-- The two collections the connection controller reads and writes. -/
structure Store where
  requests : List ConnectionRequest
  connections : List Connection
  deriving DecidableEq, Repr

/-- A write the store refuses. -/
inductive StoreError where
  | duplicateKey
  | validation
  | cast
  | unavailable
  deriving DecidableEq, Repr

/-- The JSON body and HTTP status code a handler answers with
(`res.status(code).json({ success, message, data, error })`). -/
structure Response where
  code : Nat
  success : Bool
  message : String
  data : Option ConnectionRequest
  error : Option StoreError
  deriving DecidableEq, Repr

/-- The answer of `getConnectionStatus`
(`res.status(code).json({ success, status })`). -/
structure StatusResponse where
  code : Nat
  success : Bool
  status : String
  deriving DecidableEq, Repr

/-! ## Store primitives -/

/-- The identifier a newly constructed document receives: an `ObjectId` different from
all the identifiers in `used`. -/
def newObjectId (used : List ObjectId) : ObjectId :=
  used.foldr max 0 + 1

/-- The call `ConnectionRequest.findById(id)`. -/
def findById (requests : List ConnectionRequest) (id : ObjectId) : Option ConnectionRequest :=
  requests.find? (fun r => r._id == id)

/-- The write `updateOne({ _id: doc._id }, ...)`: the first document with the identifier of
`doc` is replaced by `doc`. -/
def updateOne : List ConnectionRequest → ConnectionRequest → List ConnectionRequest
  | [], _ => []
  | r :: rs, doc => if r._id == doc._id then doc :: rs else r :: updateOne rs doc

/-- The call `doc.save()` on a request that was loaded as `loaded` and now reads `doc`:
nothing is written when no path was modified, otherwise the timestamps plugin sets
`updatedAt` and the document is written back. Returns the collection and the document
as it stands after the save. -/
def saveRequest (requests : List ConnectionRequest) (loaded doc : ConnectionRequest)
    (now : Date) : List ConnectionRequest × ConnectionRequest :=
  if doc = loaded then (requests, doc)
  else (updateOne requests { doc with updatedAt := now }, { doc with updatedAt := now })

/-- The call `doc.save()` on a new request: the insert is refused when the `_id` is
already taken; the timestamps plugin sets `createdAt` and `updatedAt`. -/
def insertRequest (requests : List ConnectionRequest) (doc : ConnectionRequest)
    (now : Date) : Except StoreError (List ConnectionRequest × ConnectionRequest) :=
  if requests.any (fun r => r._id == doc._id) then .error .duplicateKey
  else .ok (requests ++ [{ doc with createdAt := now, updatedAt := now }],
            { doc with createdAt := now, updatedAt := now })

/-- The call `doc.save()` on a new connection: the insert is refused when the `_id` is
already taken or when the unique index on `(userId, connectedUserId)` already holds the
pair. -/
def insertConnection (connections : List Connection) (doc : Connection) :
    Except StoreError (List Connection) :=
  if connections.any (fun c => c._id == doc._id) then .error .duplicateKey
  else if connections.any
      (fun c => c.userId == doc.userId && c.connectedUserId == doc.connectedUserId) then
    .error .duplicateKey
  else .ok (connections ++ [doc])

/-- The call `new ConnectionRequest({ senderId, receiverId, message })`: the schema
defaults fill `status`, `message` (when absent), `sentAt` and `respondedAt`. -/
def newConnectionRequest (used : List ObjectId) (senderId receiverId : ObjectId)
    (message : Option String) (now : Date) : ConnectionRequest :=
  { _id := newObjectId used
    senderId := senderId
    receiverId := receiverId
    status := .pending
    message := message.getD ""
    sentAt := now
    respondedAt := none
    createdAt := now
    updatedAt := now }

/-- The call `new Connection({ userId, connectedUserId, status: 'accepted' })`. -/
def newConnection (used : List ObjectId) (userId connectedUserId : ObjectId)
    (now : Date) : Connection :=
  { _id := newObjectId used
    userId := userId
    connectedUserId := connectedUserId
    status := .accepted
    connectedAt := now
    createdAt := now
    updatedAt := now }

/-- The response of a `catch` block. -/
def serverError (message : String) (e : StoreError) : Response :=
  { code := 500, success := false, message := message, data := none, error := some e }

/-- A failure answered before any write. -/
def failure (code : Nat) (message : String) : Response :=
  { code := code, success := false, message := message, data := none, error := none }

/-! ## Handlers -/

/-- The handler `sendConnectionRequest` for `req.user._id = senderId` and
`req.body = { receiverId, message }`. -/
def sendConnectionRequest (s : Store) (senderId receiverId : ObjectId)
    (message : Option String) (now : Date) : Store × Response :=
  match s.connections.find? (fun c =>
      (c.userId == senderId && c.connectedUserId == receiverId) ||
      (c.userId == receiverId && c.connectedUserId == senderId)) with
  | some _ => (s, failure 400 "Already connected with this user")
  | none =>
    match s.requests.find? (fun r =>
        r.senderId == senderId && r.receiverId == receiverId && r.status == .pending) with
    | some _ => (s, failure 400 "Connection request already sent")
    | none =>
      let connectionRequest :=
        newConnectionRequest (s.requests.map (·._id)) senderId receiverId message now
      match insertRequest s.requests connectionRequest now with
      | .error e => (s, serverError "Failed to send connection request" e)
      | .ok (requests, saved) =>
        ({ s with requests := requests },
         { code := 201, success := true, message := "Connection request sent successfully",
           data := some saved, error := none })

/-- The handler `acceptConnectionRequest` for `req.user._id = userId` and
`req.body = { requestId }`. -/
def acceptConnectionRequest (s : Store) (requestId userId : ObjectId) (now : Date) :
    Store × Response :=
  match findById s.requests requestId with
  | none => (s, failure 404 "Connection request not found")
  | some request =>
    if request.receiverId != userId then
      (s, failure 403 "Unauthorized to accept this request")
    else
      let (requests, saved) := saveRequest s.requests request
        { request with status := .accepted, respondedAt := some now } now
      let connection1 :=
        newConnection (s.connections.map (·._id)) request.senderId userId now
      let connection2 :=
        newConnection (connection1._id :: s.connections.map (·._id)) userId request.senderId now
      match insertConnection s.connections connection1 with
      | .error e =>
        ({ s with requests := requests }, serverError "Failed to accept connection request" e)
      | .ok connections1 =>
        match insertConnection connections1 connection2 with
        | .error e =>
          ({ requests := requests, connections := connections1 },
           serverError "Failed to accept connection request" e)
        | .ok connections2 =>
          ({ requests := requests, connections := connections2 },
           { code := 200, success := true, message := "Connection request accepted",
             data := some saved, error := none })

/-- The handler `rejectConnectionRequest` for `req.user._id = userId` and
`req.body = { requestId }`. -/
def rejectConnectionRequest (s : Store) (requestId userId : ObjectId) (now : Date) :
    Store × Response :=
  match findById s.requests requestId with
  | none => (s, failure 404 "Connection request not found")
  | some request =>
    if request.receiverId != userId then
      (s, failure 403 "Unauthorized to reject this request")
    else
      let (requests, saved) := saveRequest s.requests request
        { request with status := .rejected, respondedAt := some now } now
      ({ s with requests := requests },
       { code := 200, success := true, message := "Connection request rejected",
         data := some saved, error := none })

/-- The handler `getConnectionStatus` for `req.user._id = currentUserId` and
`req.params = { userId }`. -/
def getConnectionStatus (s : Store) (currentUserId userId : ObjectId) : StatusResponse :=
  match s.connections.find? (fun c =>
      c.userId == currentUserId && c.connectedUserId == userId) with
  | some _ => { code := 200, success := true, status := "connected" }
  | none =>
    match s.requests.find? (fun r =>
        (r.senderId == currentUserId && r.receiverId == userId && r.status == .pending) ||
        (r.senderId == userId && r.receiverId == currentUserId && r.status == .pending)) with
    | some request =>
      { code := 200, success := true,
        status := if request.senderId == currentUserId then "pending_sent"
                  else "pending_received" }
    | none => { code := 200, success := true, status := "not_connected" }

/-! ## State predicates -/

/-- A Connection row with `owner` as `userId` and `peer` as `connectedUserId` exists. -/
def hasConnection (s : Store) (owner peer : ObjectId) : Prop :=
  ∃ c ∈ s.connections, c.userId = owner ∧ c.connectedUserId = peer

instance (s : Store) (owner peer : ObjectId) : Decidable (hasConnection s owner peer) := by
  unfold hasConnection
  infer_instance

/-- A pending ConnectionRequest from `sender` to `receiver` exists. -/
def hasPending (s : Store) (sender receiver : ObjectId) : Prop :=
  ∃ r ∈ s.requests, r.senderId = sender ∧ r.receiverId = receiver ∧ r.status = .pending

instance (s : Store) (sender receiver : ObjectId) : Decidable (hasPending s sender receiver) := by
  unfold hasPending
  infer_instance

/-- No two ConnectionRequest documents share an `_id` (the `_id` index of the collection). -/
def uniqueRequestIds (s : Store) : Prop :=
  (s.requests.map (·._id)).Nodup

instance (s : Store) : Decidable (uniqueRequestIds s) := by
  unfold uniqueRequestIds
  infer_instance

/-! ## Removing a connection, the operations as a machine -/

/-- The handler `removeConnection` for `req.user._id = userId` and
`req.body = { connectedUserId }`: `deleteMany` drops every row of either direction. -/
def removeConnection (s : Store) (userId connectedUserId : ObjectId) : Store × Response :=
  ({ s with connections := s.connections.filter (fun c =>
       !((c.userId == userId && c.connectedUserId == connectedUserId) ||
         (c.userId == connectedUserId && c.connectedUserId == userId))) },
   { code := 200, success := true, message := "Connection removed successfully",
     data := none, error := none })

/-- A call of one of the four handlers that write to the store. -/
inductive Op where
  | send (senderId receiverId : ObjectId) (message : Option String) (now : Date)
  | accept (requestId userId : ObjectId) (now : Date)
  | reject (requestId userId : ObjectId) (now : Date)
  | remove (userId connectedUserId : ObjectId)
  deriving DecidableEq, Repr

/-- The store after one call. -/
def step (s : Store) : Op → Store
  | .send senderId receiverId message now =>
    (sendConnectionRequest s senderId receiverId message now).1
  | .accept requestId userId now => (acceptConnectionRequest s requestId userId now).1
  | .reject requestId userId now => (rejectConnectionRequest s requestId userId now).1
  | .remove userId connectedUserId => (removeConnection s userId connectedUserId).1

/-- The store after a sequence of calls, first call first. -/
def run (s : Store) (ops : List Op) : Store :=
  ops.foldl step s

/-- The store with no request and no connection. -/
def emptyStore : Store :=
  { requests := [], connections := [] }

/-! ## Listing the pending requests -/

/-- The `preferences` subdocument of `userSchema`. -/
structure Preferences where
  emailNotifications : Bool
  pushNotifications : Bool
  weeklyDigest : Bool
  mentorshipRequests : Bool
  blogComments : Bool
  profileVisibility : String
  showEmail : Bool
  showPhone : Bool
  deriving DecidableEq, Repr

/-- A document of the `User` model; `password` is the bcrypt hash. -/
structure User where
  _id : ObjectId
  userType : String
  name : String
  email : String
  password : String
  phone : String
  location : String
  bio : String
  website : String
  github : String
  linkedin : String
  preferences : Preferences
  department : Option String
  year : Option String
  interests : List String
  profession : Option String
  createdAt : Date
  updatedAt : Date
  deriving DecidableEq, Repr

/-- A user as `populate(path, 'name email profession department userType bio')` embeds
it: the `_id` and the selected paths. -/
structure PublicProfile where
  _id : ObjectId
  name : String
  email : String
  profession : Option String
  department : Option String
  userType : String
  bio : String
  deriving DecidableEq, Repr

/-- The projection `select('name email profession department userType bio')`. -/
def selectPublic (u : User) : PublicProfile :=
  { _id := u._id
    name := u.name
    email := u.email
    profession := u.profession
    department := u.department
    userType := u.userType
    bio := u.bio }

/-- A ConnectionRequest whose `senderId` has been populated: the referenced user, or
null when no user has that `_id`. -/
structure PopulatedRequest where
  _id : ObjectId
  senderId : Option PublicProfile
  receiverId : ObjectId
  status : RequestStatus
  message : String
  sentAt : Date
  respondedAt : Option Date
  createdAt : Date
  updatedAt : Date
  deriving DecidableEq, Repr

/-- The call `.populate('senderId', 'name email profession department userType bio')` on
one request. -/
def populateSender (users : List User) (r : ConnectionRequest) : PopulatedRequest :=
  { _id := r._id
    senderId := (users.find? (fun u => u._id == r.senderId)).map selectPublic
    receiverId := r.receiverId
    status := r.status
    message := r.message
    sentAt := r.sentAt
    respondedAt := r.respondedAt
    createdAt := r.createdAt
    updatedAt := r.updatedAt }

/-- The cursor option `.sort({ sentAt: -1 })`. -/
def sortBySentAtDesc (requests : List ConnectionRequest) : List ConnectionRequest :=
  requests.insertionSort (fun x y => x.sentAt ≥ y.sentAt)

/-- The answer of `getPendingRequests`
(`res.status(code).json({ success, data, count })`). -/
structure PendingResponse where
  code : Nat
  success : Bool
  data : List PopulatedRequest
  count : Nat
  deriving DecidableEq, Repr

/-- The handler `getPendingRequests` for `req.user._id = userId`, reading the users from
the `User` collection. -/
def getPendingRequests (s : Store) (users : List User) (userId : ObjectId) :
    PendingResponse :=
  let requests :=
    (sortBySentAtDesc (s.requests.filter (fun r =>
      r.receiverId == userId && r.status == .pending))).map (populateSender users)
  { code := 200, success := true, data := requests, count := requests.length }

/-! ## The status decision as the specification words it -/

/-- The reference decision of the status between `a` and `b`: `connected` if a Connection
row (owner = a, peer = b) exists; otherwise `pending_sent` if a pending request from a to
b exists; otherwise `pending_received` if a pending request from b to a exists; otherwise
`not_connected`. -/
def statusDecision (s : Store) (a b : ObjectId) : String :=
  if hasConnection s a b then "connected"
  else if hasPending s a b then "pending_sent"
  else if hasPending s b a then "pending_received"
  else "not_connected"

/-! ## Request values that may be absent -/

/-- JavaScript truthiness of an optional string (a body field or query parameter):
present and not empty. -/
def truthy (v : Option String) : Bool :=
  match v with
  | some x => x != ""
  | none => false

/-- The handler `sendConnectionRequest` for a body whose `receiverId` may be missing.
With `receiverId` undefined the two `findOne` filters hold an undefined value;
`undefinedMatchesAll` says how the store reads such a filter path: dropped from the
filter (`true`) or compared with null, which no stored identifier equals (`false`). When
both checks find nothing, `save()` fails the `required` validator of `receiverId` and the
`catch` block answers. -/
def sendConnectionRequestBody (undefinedMatchesAll : Bool) (s : Store) (senderId : ObjectId)
    (receiverId : Option ObjectId) (message : Option String) (now : Date) :
    Store × Response :=
  match receiverId with
  | some receiverId => sendConnectionRequest s senderId receiverId message now
  | none =>
    match s.connections.find? (fun c =>
        (c.userId == senderId && undefinedMatchesAll) ||
        (undefinedMatchesAll && c.connectedUserId == senderId)) with
    | some _ => (s, failure 400 "Already connected with this user")
    | none =>
      match s.requests.find? (fun r =>
          r.senderId == senderId && undefinedMatchesAll && r.status == .pending) with
      | some _ => (s, failure 400 "Connection request already sent")
      | none => (s, serverError "Failed to send connection request" .validation)

/-! ## Listing connections and available users -/

/-- A Connection whose `connectedUserId` has been populated without a field selection:
the whole referenced user document, or null when no user has that `_id`. -/
structure PopulatedConnection where
  _id : ObjectId
  userId : ObjectId
  connectedUserId : Option User
  status : ConnectionStatus
  connectedAt : Date
  createdAt : Date
  updatedAt : Date
  deriving DecidableEq, Repr

/-- The call `.populate('connectedUserId')` on one connection. -/
def populatePeer (users : List User) (c : Connection) : PopulatedConnection :=
  { _id := c._id
    userId := c.userId
    connectedUserId := users.find? (fun u => u._id == c.connectedUserId)
    status := c.status
    connectedAt := c.connectedAt
    createdAt := c.createdAt
    updatedAt := c.updatedAt }

/-- The cursor option `.sort({ connectedAt: -1 })`. -/
def sortByConnectedAtDesc (connections : List Connection) : List Connection :=
  connections.insertionSort (fun x y => x.connectedAt ≥ y.connectedAt)

/-- The method `String.prototype.includes`: `search` is looked for at every position of
`text`. -/
def includes (text search : String) : Bool :=
  text.data.tails.any (fun rest => search.data.isPrefixOf rest)

/-- The callback of `connections.filter` in `getConnections`; `none` is the `TypeError`
of reading a property of a null peer. -/
def matchesFilters (toLowerCase : String → String) (search userType : Option String)
    (conn : PopulatedConnection) : Option Bool :=
  match conn.connectedUserId with
  | none => if truthy search || truthy userType then none else some true
  | some user =>
    let matchesSearch := !truthy search ||
      includes (toLowerCase user.name) (toLowerCase (search.getD "")) ||
      (truthy user.profession &&
        includes (toLowerCase (user.profession.getD "")) (toLowerCase (search.getD "")))
    let matchesType := !truthy userType || user.userType == userType.getD ""
    some (matchesSearch && matchesType)

/-- The method `Array.prototype.filter` with a callback that may throw. -/
def filterThrowing (f : PopulatedConnection → Option Bool) :
    List PopulatedConnection → Option (List PopulatedConnection)
  | [] => some []
  | c :: cs =>
    match f c with
    | none => none
    | some keep =>
      match filterThrowing f cs with
      | none => none
      | some rest => some (if keep then c :: rest else rest)

/-- The answer of `getConnections`
(`res.status(code).json({ success, data, count })` or the 500 answer). -/
structure ConnectionsResponse where
  code : Nat
  success : Bool
  message : Option String
  data : List PopulatedConnection
  count : Nat
  deriving DecidableEq, Repr

/-- The handler `getConnections` for `req.user._id = userId` and
`req.query = { search, userType }`; `toLowerCase` is `String.prototype.toLowerCase`. -/
def getConnections (toLowerCase : String → String) (s : Store) (users : List User)
    (userId : ObjectId) (search userType : Option String) : ConnectionsResponse :=
  let connections :=
    (sortByConnectedAtDesc (s.connections.filter (fun c => c.userId == userId))).map
      (populatePeer users)
  match filterThrowing (matchesFilters toLowerCase search userType) connections with
  | none =>
    { code := 500, success := false, message := some "Failed to fetch connections",
      data := [], count := 0 }
  | some filteredConnections =>
    { code := 200, success := true, message := none,
      data := filteredConnections, count := filteredConnections.length }

/-- The list `excludeIds` of `getAvailableUsers`: the requester, the peers of the
requester's connections and the other party of every pending request sent by or to the
requester. -/
def excludeIds (s : Store) (userId : ObjectId) : List ObjectId :=
  let connectedIds :=
    (s.connections.filter (fun c => c.userId == userId)).map (·.connectedUserId)
  let pendingRequests := s.requests.filter (fun r =>
    (r.senderId == userId && r.status == .pending) ||
    (r.receiverId == userId && r.status == .pending))
  let pendingIds := pendingRequests.map (fun r =>
    if r.senderId == userId then r.receiverId else r.senderId)
  [userId] ++ connectedIds ++ pendingIds

/-- The answer of `getAvailableUsers`. -/
structure UsersResponse where
  code : Nat
  success : Bool
  message : Option String
  data : List PublicProfile
  count : Nat
  deriving DecidableEq, Repr

/-- The handler `getAvailableUsers` for `req.user._id = userId` and
`req.query = { search, userType }`. `regex pattern` is the case-insensitive matcher the
store builds for `{ $regex: pattern, $options: 'i' }`, or `none` when the pattern is not
a valid regular expression and the query fails. -/
def getAvailableUsers (regex : String → Option (String → Bool)) (s : Store)
    (users : List User) (userId : ObjectId) (search userType : Option String) :
    UsersResponse :=
  let excludeIds := excludeIds s userId
  let typeMatches := fun (u : User) =>
    if truthy userType then u.userType == userType.getD "" else true
  let respond := fun (searchMatches : User → Bool) =>
    let found := (users.filter (fun u =>
      !excludeIds.contains u._id && typeMatches u && searchMatches u)).take 20
    ({ code := 200, success := true, message := none,
       data := found.map selectPublic, count := (found.map selectPublic).length } :
      UsersResponse)
  if truthy search then
    match regex (search.getD "") with
    | none =>
      { code := 500, success := false, message := some "Failed to fetch available users",
        data := [], count := 0 }
    | some test =>
      respond (fun u => test u.name ||
        (match u.profession with
         | some profession => test profession
         | none => false))
  else respond (fun _ => true)

/-! ## The authentication gate -/

/-- What `authMiddleware` reads of the HTTP request: `req.headers.authorization` and
`req.cookies.token` (absent when there is no cookie object or no such cookie). -/
structure AuthRequest where
  authorization : Option String
  cookieToken : Option String
  deriving DecidableEq, Repr

/-- The errors `jwt.verify` throws, by `error.name`. -/
inductive JwtError where
  | jsonWebTokenError
  | tokenExpiredError
  | other
  deriving DecidableEq, Repr

/-- The decoded token payload, as far as the middleware reads it. -/
structure JwtPayload where
  id : Option String
  userId : Option String
  deriving DecidableEq, Repr

/-- A user document loaded with `.select('-password')`. -/
structure AuthUser where
  _id : ObjectId
  userType : String
  name : String
  email : String
  phone : String
  location : String
  bio : String
  website : String
  github : String
  linkedin : String
  preferences : Preferences
  department : Option String
  year : Option String
  interests : List String
  profession : Option String
  createdAt : Date
  updatedAt : Date
  deriving DecidableEq, Repr

/-- The projection `.select('-password')`. -/
def withoutPassword (u : User) : AuthUser :=
  { _id := u._id
    userType := u.userType
    name := u.name
    email := u.email
    phone := u.phone
    location := u.location
    bio := u.bio
    website := u.website
    github := u.github
    linkedin := u.linkedin
    preferences := u.preferences
    department := u.department
    year := u.year
    interests := u.interests
    profession := u.profession
    createdAt := u.createdAt
    updatedAt := u.updatedAt }

/-- What the middleware does with a request: it answers itself, or it sets `req.user`
and calls `next()`. -/
inductive AuthOutcome where
  | respond (code : Nat) (success : Bool) (message : String)
  | next (user : AuthUser)
  deriving DecidableEq, Repr

/-- The token the middleware settles on: the text after `Bearer ` of the authorization
header when that is not empty, otherwise the `token` cookie when that is not empty. -/
def extractToken (req : AuthRequest) : Option String :=
  let token : Option String :=
    match req.authorization with
    | some header => if header.startsWith "Bearer " then some (header.drop 7) else none
    | none => none
  let token := if !truthy token && truthy req.cookieToken then req.cookieToken else token
  if !truthy token then none else token

/-- The function `authMiddleware`. `verify` is `jwt.verify(·, process.env.JWT_SECRET)`
and `castObjectId` is the cast of `findById`, which fails on a value that is no
ObjectId. -/
def authMiddleware (verify : String → Except JwtError JwtPayload)
    (castObjectId : String → Option ObjectId) (users : List User) (req : AuthRequest) :
    AuthOutcome :=
  match extractToken req with
  | none => .respond 401 false "Access denied. No token provided."
  | some token =>
    match verify token with
    | .error .jsonWebTokenError => .respond 401 false "Invalid token"
    | .error .tokenExpiredError => .respond 401 false "Token expired. Please log in again."
    | .error .other => .respond 401 false "Token verification failed"
    | .ok decoded =>
      match (if truthy decoded.id then decoded.id else decoded.userId) with
      | none => .respond 401 false "Token is valid but user not found"
      | some raw =>
        match castObjectId raw with
        | none => .respond 401 false "Token verification failed"
        | some id =>
          match users.find? (fun u => u._id == id) with
          | none => .respond 401 false "Token is valid but user not found"
          | some user => .next (withoutPassword user)

/-- The router of `connectionRoutes.js`: `router.use(authMiddleware)` runs before every
route, and `controller` (the handler of the matched route) runs only through `next()`. -/
def connectionRoutes {β : Type} (verify : String → Except JwtError JwtPayload)
    (castObjectId : String → Option ObjectId) (users : List User) (req : AuthRequest)
    (controller : AuthUser → β) : AuthOutcome ⊕ β :=
  match authMiddleware verify castObjectId users req with
  | .next user => .inr (controller user)
  | outcome => .inl outcome

/-! ## Liking a blog -/

/-- A reply of a comment (`commentSchema.replies`). -/
structure Reply where
  content : String
  author : ObjectId
  createdAt : Date
  deriving DecidableEq, Repr

/-- A document of `commentSchema`. -/
structure Comment where
  _id : ObjectId
  content : String
  author : ObjectId
  createdAt : Date
  replies : List Reply
  deriving DecidableEq, Repr

/-- A document of the `Blog` model. -/
structure Blog where
  _id : ObjectId
  title : String
  content : String
  category : String
  tags : List String
  visibility : String
  isDraft : Bool
  coverImage : Option String
  author : ObjectId
  likes : List ObjectId
  views : Nat
  comments : List Comment
  createdAt : Date
  updatedAt : Date
  deriving DecidableEq, Repr

/-- The answer of `likeBlog`. -/
structure LikeResponse where
  code : Nat
  success : Bool
  message : Option String
  isLiked : Option Bool
  likesCount : Option Nat
  deriving DecidableEq, Repr

/-- The write of `blog.save()`: the first document with the `_id` of `doc` is replaced. -/
def updateBlog : List Blog → Blog → List Blog
  | [], _ => []
  | b :: bs, doc => if b._id == doc._id then doc :: bs else b :: updateBlog bs doc

/-- The handler `likeBlog` for `req.user._id = userId` and `req.params.id = id`. -/
def likeBlog (blogs : List Blog) (id userId : ObjectId) (now : Date) :
    List Blog × LikeResponse :=
  match blogs.find? (fun b => b._id == id) with
  | none =>
    (blogs, { code := 404, success := false, message := some "Blog not found",
              isLiked := none, likesCount := none })
  | some blog =>
    let isLiked := blog.likes.any (fun like => like == userId)
    let likes :=
      if isLiked then blog.likes.filter (fun like => like != userId)
      else blog.likes ++ [userId]
    (updateBlog blogs { blog with likes := likes, updatedAt := now },
     { code := 200, success := true, message := none,
       isLiked := some (!isLiked), likesCount := some likes.length })

/-! ## Registering for an event -/

/-- An entry of `eventSchema.registeredUsers`. -/
structure Registration where
  userId : ObjectId
  registeredAt : Date
  deriving DecidableEq, Repr

/-- A document of the `Event` model; `maxAttendees` is null or a count. -/
structure Event where
  _id : ObjectId
  title : String
  description : String
  category : String
  organizer : ObjectId
  date : Date
  endDate : Option Date
  time : String
  location : String
  poster : Option String
  tags : List String
  maxAttendees : Option Nat
  attendees : List ObjectId
  registeredUsers : List Registration
  status : String
  visibility : String
  createdAt : Date
  updatedAt : Date
  deriving DecidableEq, Repr

/-- The organizer as `populate('organizer', 'name email profession')` embeds it. -/
structure OrganizerProfile where
  _id : ObjectId
  name : String
  email : String
  profession : Option String
  deriving DecidableEq, Repr

/-- An attendee as `populate('attendees', 'name email')` embeds it. -/
structure AttendeeProfile where
  _id : ObjectId
  name : String
  email : String
  deriving DecidableEq, Repr

/-- The event of the success answer: the saved document with `organizer` and `attendees`
populated (an attendee that is no user is dropped). -/
structure PopulatedEvent where
  event : Event
  organizer : Option OrganizerProfile
  attendees : List AttendeeProfile
  deriving DecidableEq, Repr

/-- The answer of `registerEvent`. -/
structure EventResponse where
  code : Nat
  success : Bool
  message : String
  event : Option PopulatedEvent
  deriving DecidableEq, Repr

/-- The write of `event.save()`: the first document with the `_id` of `doc` is replaced. -/
def updateEvent : List Event → Event → List Event
  | [], _ => []
  | e :: es, doc => if e._id == doc._id then doc :: es else e :: updateEvent es doc

/-- The two `populate` calls of `registerEvent`. -/
def populateEvent (users : List User) (event : Event) : PopulatedEvent :=
  { event := event
    organizer := (users.find? (fun u => u._id == event.organizer)).map
      (fun u => { _id := u._id, name := u.name, email := u.email, profession := u.profession })
    attendees := event.attendees.filterMap (fun a =>
      (users.find? (fun u => u._id == a)).map
        (fun u => { _id := u._id, name := u.name, email := u.email })) }

/-- The handler `registerEvent` for `req.user._id = userId` and `req.params.id = id`. -/
def registerEvent (events : List Event) (users : List User) (id userId : ObjectId)
    (now : Date) : List Event × EventResponse :=
  match events.find? (fun e => e._id == id) with
  | none =>
    (events, { code := 404, success := false, message := "Event not found", event := none })
  | some event =>
    let alreadyRegistered := event.registeredUsers.any (fun reg => reg.userId == userId)
    if alreadyRegistered then
      (events, { code := 400, success := false,
                 message := "Already registered for this event", event := none })
    else if (match event.maxAttendees with
        | some maxAttendees =>
          maxAttendees != 0 && decide (event.registeredUsers.length ≥ maxAttendees)
        | none => false) then
      (events, { code := 400, success := false, message := "Event is full", event := none })
    else
      let saved : Event :=
        { event with
          registeredUsers := event.registeredUsers ++ [{ userId := userId, registeredAt := now }]
          attendees := event.attendees ++ [userId]
          updatedAt := now }
      (updateEvent events saved,
       { code := 200, success := true, message := "Registered successfully",
         event := some (populateEvent users saved) })

/-! ## The connection filter as the specification words it -/

/-- The text `search` is a case-insensitive substring of `text`: lower-cased, the
characters of `search` stand in one piece somewhere in the lower-cased `text`, that is
`lower text = before ++ lower search ++ after` for some `before` and `after`. -/
def caseInsensitiveSubstring (toLowerCase : String → String) (search text : String) : Prop :=
  ∃ before after : List Char,
    before ++ (toLowerCase search).data ++ after = (toLowerCase text).data

instance (toLowerCase : String → String) (search text : String) :
    Decidable (caseInsensitiveSubstring toLowerCase search text) :=
  inferInstanceAs (Decidable ((toLowerCase search).data <:+: (toLowerCase text).data))

/-- The reference filter of `getConnections` on a peer: `search` is absent or empty or a
case-insensitive substring of the peer's name or of its profession, when it has one (a
non-empty string); and `userType` is absent or empty or equals the peer's `userType`. -/
def satisfiesFilters (toLowerCase : String → String) (search userType : Option String)
    (peer : User) : Bool :=
  (match search with
    | none => true
    | some q =>
      q == "" || decide (caseInsensitiveSubstring toLowerCase q peer.name) ||
      (match peer.profession with
        | some p => p != "" && decide (caseInsensitiveSubstring toLowerCase q p)
        | none => false)) &&
  (match userType with
    | none => true
    | some t => t == "" || peer.userType == t)

/-! ## Example data -/

/-- A student account with the schema defaults, for concrete scenarios. -/
def exampleUser (id : ObjectId) (name password : String) : User :=
  { _id := id
    userType := "student"
    name := name
    email := name ++ "@example.org"
    password := password
    phone := ""
    location := ""
    bio := ""
    website := ""
    github := ""
    linkedin := ""
    preferences :=
      { emailNotifications := true
        pushNotifications := false
        weeklyDigest := true
        mentorshipRequests := true
        blogComments := true
        profileVisibility := "public"
        showEmail := false
        showPhone := false }
    department := some "CS"
    year := some "1"
    interests := []
    profession := none
    createdAt := 0
    updatedAt := 0 }

/-- A professional account with the schema defaults, for concrete scenarios. -/
def exampleProfessional (id : ObjectId) (name profession password : String) : User :=
  { exampleUser id name password with
    userType := "professional"
    department := none
    year := none
    profession := some profession }

/-- A lower-casing of the letters A to Z, as an instance of `toLowerCase` for concrete
scenarios. -/
def asciiLowerCase (text : String) : String :=
  ⟨text.data.map (fun c => if 'A' ≤ c ∧ c ≤ 'Z' then Char.ofNat (c.toNat + 32) else c)⟩

/-- Four accounts: two students and two professionals. -/
def exampleUsers : List User :=
  [exampleUser 1 "Ann" "h1", exampleUser 2 "Joanna" "h2",
   exampleProfessional 3 "Bob" "Data ANALYST" "h3",
   exampleProfessional 4 "Carl" "Chef" "h4"]

/-- The store after user 1 has sent requests to users 2, 3 and 4 and each has accepted. -/
def exampleNetwork : Store :=
  run emptyStore
    [.send 1 2 none 1, .accept 1 2 2, .send 1 3 none 3, .accept 2 3 4,
     .send 1 4 none 5, .accept 3 4 6]

/-- A blog liked by users 3 and 4, for concrete scenarios. -/
def exampleBlog : Blog :=
  { _id := 1
    title := "t"
    content := "c"
    category := "Other"
    tags := []
    visibility := "public"
    isDraft := false
    coverImage := none
    author := 9
    likes := [3, 4]
    views := 0
    comments := []
    createdAt := 0
    updatedAt := 0 }

/-- An event for two attendees with user 3 registered, for concrete scenarios. -/
def exampleEvent : Event :=
  { _id := 1
    title := "t"
    description := "d"
    category := "Other"
    organizer := 9
    date := 100
    endDate := none
    time := "10:00"
    location := "hall"
    poster := none
    tags := []
    maxAttendees := some 2
    attendees := [3]
    registeredUsers := [{ userId := 3, registeredAt := 1 }]
    status := "upcoming"
    visibility := "public"
    createdAt := 0
    updatedAt := 0 }

/-! ## Request identifiers as they arrive in the body -/

/-- A cast as `findById` applies it to a string: the 24-digit hexadecimal strings are
ObjectIds, every other string makes the cast fail. -/
def parseObjectId (raw : String) : Option ObjectId :=
  if raw.data.length = 24 ∧ raw.data.all (fun c => c.isDigit || ('a' ≤ c && c ≤ 'f') ||
      ('A' ≤ c && c ≤ 'F')) then
    some (raw.data.foldl (fun acc c =>
      16 * acc + (if c.isDigit then c.toNat - 48
        else if 'a' ≤ c && c ≤ 'f' then c.toNat - 87 else c.toNat - 55)) 0)
  else none

/-- The handler `acceptConnectionRequest` for a body whose `requestId` is any string or
is missing. `findById(undefined)` finds nothing; on a string that is no ObjectId the cast
of `findById` throws and the `catch` block answers. `castObjectId` is that cast. -/
def acceptConnectionRequestBody (castObjectId : String → Option ObjectId) (s : Store)
    (requestId : Option String) (userId : ObjectId) (now : Date) : Store × Response :=
  match requestId with
  | none => (s, failure 404 "Connection request not found")
  | some raw =>
    match castObjectId raw with
    | none => (s, serverError "Failed to accept connection request" .cast)
    | some requestId => acceptConnectionRequest s requestId userId now

/-- The handler `rejectConnectionRequest` for a body whose `requestId` is any string or
is missing; see `acceptConnectionRequestBody`. -/
def rejectConnectionRequestBody (castObjectId : String → Option ObjectId) (s : Store)
    (requestId : Option String) (userId : ObjectId) (now : Date) : Store × Response :=
  match requestId with
  | none => (s, failure 404 "Connection request not found")
  | some raw =>
    match castObjectId raw with
    | none => (s, serverError "Failed to reject connection request" .cast)
    | some requestId => rejectConnectionRequest s requestId userId now

/-! ## Accepting against a store whose writes may fail -/

/-- The call `doc.save()` on a new connection against a store that may fail: `fault` is
the failure the store answers this write with (`none` when the store is up, in which case
the insert succeeds or is refused by an index as in `insertConnection`). -/
def insertConnectionFaulty (fault : Option StoreError) (connections : List Connection)
    (doc : Connection) : Except StoreError (List Connection) :=
  match fault with
  | some e => .error e
  | none => insertConnection connections doc

/-- The handler `acceptConnectionRequest` against a store whose two Connection inserts
may fail with `fault1` and `fault2`; with no fault it is `acceptConnectionRequest`. -/
def acceptConnectionRequestFaulty (fault1 fault2 : Option StoreError) (s : Store)
    (requestId userId : ObjectId) (now : Date) : Store × Response :=
  match findById s.requests requestId with
  | none => (s, failure 404 "Connection request not found")
  | some request =>
    if request.receiverId != userId then
      (s, failure 403 "Unauthorized to accept this request")
    else
      let (requests, saved) := saveRequest s.requests request
        { request with status := .accepted, respondedAt := some now } now
      let connection1 :=
        newConnection (s.connections.map (·._id)) request.senderId userId now
      let connection2 :=
        newConnection (connection1._id :: s.connections.map (·._id)) userId request.senderId now
      match insertConnectionFaulty fault1 s.connections connection1 with
      | .error e =>
        ({ s with requests := requests }, serverError "Failed to accept connection request" e)
      | .ok connections1 =>
        match insertConnectionFaulty fault2 connections1 connection2 with
        | .error e =>
          ({ requests := requests, connections := connections1 },
           serverError "Failed to accept connection request" e)
        | .ok connections2 =>
          ({ requests := requests, connections := connections2 },
           { code := 200, success := true, message := "Connection request accepted",
             data := some saved, error := none })

/-! ## The status when the store chooses among matching requests -/

/-- A `findOne` without a sort on the ConnectionRequest collection, as a function of the
filter and the stored documents: which of several matching documents it returns is the
choice of the store. -/
abbrev FindOne := (ConnectionRequest → Bool) → List ConnectionRequest → Option ConnectionRequest

/-- The contract of `findOne`: the document returned is stored and matches the filter,
and null is returned only when no stored document matches. -/
def admissibleFindOne (findOne : FindOne) : Prop :=
  ∀ p l, (∀ r, findOne p l = some r → r ∈ l ∧ p r = true) ∧
    (findOne p l = none → ∀ r ∈ l, p r = false)

/-- The `findOne` that returns the most recently inserted matching document. -/
def findLastInserted : FindOne :=
  fun p l => l.reverse.find? p

/-- The handler `getConnectionStatus` with the `findOne` on the requests left to the
store: `getConnectionStatus` is the instance for the first inserted match. -/
def getConnectionStatusWith (findOne : FindOne) (s : Store) (currentUserId userId : ObjectId) :
    StatusResponse :=
  match s.connections.find? (fun c =>
      c.userId == currentUserId && c.connectedUserId == userId) with
  | some _ => { code := 200, success := true, status := "connected" }
  | none =>
    match findOne (fun r =>
        (r.senderId == currentUserId && r.receiverId == userId && r.status == .pending) ||
        (r.senderId == userId && r.receiverId == currentUserId && r.status == .pending))
        s.requests with
    | some request =>
      { code := 200, success := true,
        status := if request.senderId == currentUserId then "pending_sent"
                  else "pending_received" }
    | none => { code := 200, success := true, status := "not_connected" }

end BlogBackend

namespace BlogBackend

/-! ## Auxiliary facts about the store primitives -/

theorem le_foldr_max_of_mem (used : List ObjectId) (x : ObjectId) (h : x ∈ used) :
    x ≤ used.foldr max 0 := by
  induction used with
  | nil => simp at h
  | cons y ys ih =>
    simp only [List.foldr_cons]
    rcases List.mem_cons.mp h with rfl | h'
    · exact le_max_left _ _
    · exact le_trans (ih h') (le_max_right _ _)

theorem newObjectId_not_mem (used : List ObjectId) : newObjectId used ∉ used := by
  intro h
  have hle := le_foldr_max_of_mem used _ h
  exact Nat.not_succ_le_self _ hle

theorem insertRequest_fresh (requests : List ConnectionRequest) (a b : ObjectId)
    (m : Option String) (now : Date) :
    insertRequest requests (newConnectionRequest (requests.map (·._id)) a b m now) now =
      .ok (requests ++ [newConnectionRequest (requests.map (·._id)) a b m now],
           newConnectionRequest (requests.map (·._id)) a b m now) := by
  have hfresh : (requests.any fun r =>
      r._id == (newConnectionRequest (requests.map (·._id)) a b m now)._id) = false := by
    rw [List.any_eq_false]
    intro r hr
    have hne : r._id ≠ newObjectId (requests.map (·._id)) := by
      intro heq
      exact newObjectId_not_mem (requests.map (·._id)) (heq ▸ List.mem_map_of_mem _ hr)
    simpa [newConnectionRequest] using hne
  unfold insertRequest
  rw [hfresh]
  rfl

/-- The store is the one `sendConnectionRequest` leaves in the success branch. -/
theorem sendConnectionRequest_of_clear (s : Store) (a b : ObjectId) (m : Option String)
    (now : Date)
    (hc : s.connections.find? (fun c =>
      (c.userId == a && c.connectedUserId == b) ||
      (c.userId == b && c.connectedUserId == a)) = none)
    (hr : s.requests.find? (fun r =>
      r.senderId == a && r.receiverId == b && r.status == .pending) = none) :
    sendConnectionRequest s a b m now =
      ({ s with requests :=
          s.requests ++ [newConnectionRequest (s.requests.map (·._id)) a b m now] },
       { code := 201, success := true, message := "Connection request sent successfully",
         data := some (newConnectionRequest (s.requests.map (·._id)) a b m now),
         error := none }) := by
  unfold sendConnectionRequest
  simp only [hc, hr, insertRequest_fresh]

end BlogBackend

namespace BlogBackend

theorem find_connection_none_iff (s : Store) (a b : ObjectId) :
    s.connections.find? (fun c =>
      (c.userId == a && c.connectedUserId == b) ||
      (c.userId == b && c.connectedUserId == a)) = none ↔
    ¬ hasConnection s a b ∧ ¬ hasConnection s b a := by
  unfold hasConnection
  rw [List.find?_eq_none]
  constructor
  · intro h
    refine ⟨?_, ?_⟩
    · rintro ⟨c, hc, h1, h2⟩
      exact h c hc (by simp [h1, h2])
    · rintro ⟨c, hc, h1, h2⟩
      exact h c hc (by simp [h1, h2])
  · rintro ⟨h1, h2⟩ c hc hm
    simp only [Bool.or_eq_true, Bool.and_eq_true, beq_iff_eq] at hm
    rcases hm with ⟨e1, e2⟩ | ⟨e1, e2⟩
    · exact h1 ⟨c, hc, e1, e2⟩
    · exact h2 ⟨c, hc, e1, e2⟩

theorem find_pending_none_iff (s : Store) (a b : ObjectId) :
    s.requests.find? (fun r =>
      r.senderId == a && r.receiverId == b && r.status == .pending) = none ↔
    ¬ hasPending s a b := by
  unfold hasPending
  rw [List.find?_eq_none]
  constructor
  · rintro h ⟨r, hr, h1, h2, h3⟩
    exact h r hr (by simp [h1, h2, h3])
  · rintro h r hr hm
    simp only [Bool.and_eq_true, beq_iff_eq] at hm
    exact h ⟨r, hr, hm.1.1, hm.1.2, hm.2⟩

/-- A successful `sendConnectionRequest` went through both checks. -/
theorem sendConnectionRequest_success (s : Store) (a b : ObjectId) (m : Option String)
    (now : Date) (h : (sendConnectionRequest s a b m now).2.success = true) :
    (¬ hasConnection s a b ∧ ¬ hasConnection s b a) ∧ ¬ hasPending s a b := by
  rw [← find_connection_none_iff, ← find_pending_none_iff]
  unfold sendConnectionRequest at h
  cases hc : s.connections.find? (fun c =>
      (c.userId == a && c.connectedUserId == b) ||
      (c.userId == b && c.connectedUserId == a)) with
  | some c => simp [hc, failure] at h
  | none =>
    cases hr : s.requests.find? (fun r =>
        r.senderId == a && r.receiverId == b && r.status == .pending) with
    | some r => simp [hc, hr, failure] at h
    | none => exact ⟨rfl, rfl⟩

end BlogBackend

namespace BlogBackend

/-! ## Sending a connection request -/

/-- C1: whenever a Connection row exists with (owner = A, peer = B) or with
(owner = B, peer = A), `sendConnectionRequest` from A to B answers 400 with
`success = false` and the message "Already connected with this user", and the store
(both the ConnectionRequest and the Connection collection) is returned unchanged. -/
theorem sendConnectionRequest_already_connected (s : Store) (A B : ObjectId)
    (message : Option String) (now : Date)
    (h : hasConnection s A B ∨ hasConnection s B A) :
    sendConnectionRequest s A B message now =
      (s, { code := 400, success := false, message := "Already connected with this user",
            data := none, error := none }) := by
  unfold sendConnectionRequest
  cases hc : s.connections.find? (fun c =>
      (c.userId == A && c.connectedUserId == B) ||
      (c.userId == B && c.connectedUserId == A)) with
  | some c => rfl
  | none =>
    have hn := (find_connection_none_iff s A B).mp hc
    rcases h with h | h
    · exact absurd h hn.1
    · exact absurd h hn.2

theorem sendConnectionRequest_already_connected_witness :
    (hasConnection
        { requests := [],
          connections := [{ _id := 1, userId := 2, connectedUserId := 1, status := .accepted,
                            connectedAt := 3, createdAt := 3, updatedAt := 3 }] } 1 2 ∨
      hasConnection
        { requests := [],
          connections := [{ _id := 1, userId := 2, connectedUserId := 1, status := .accepted,
                            connectedAt := 3, createdAt := 3, updatedAt := 3 }] } 2 1) ∧
    sendConnectionRequest
        { requests := [],
          connections := [{ _id := 1, userId := 2, connectedUserId := 1, status := .accepted,
                            connectedAt := 3, createdAt := 3, updatedAt := 3 }] }
        1 2 (some "hello") 7 =
      ({ requests := [],
         connections := [{ _id := 1, userId := 2, connectedUserId := 1, status := .accepted,
                           connectedAt := 3, createdAt := 3, updatedAt := 3 }] },
       { code := 400, success := false, message := "Already connected with this user",
         data := none, error := none }) :=
  ⟨by decide, sendConnectionRequest_already_connected _ 1 2 (some "hello") 7 (by decide)⟩

/-- C2: when `sendConnectionRequest` from A to B succeeds, an immediately following
`sendConnectionRequest` from A to B (with any message, at any time) answers 400 with
`success = false` and the message "Connection request already sent", and leaves the
store as the first call left it, so no second ConnectionRequest row is created. -/
theorem sendConnectionRequest_twice_duplicate (s : Store) (A B : ObjectId)
    (message message2 : Option String) (now now2 : Date)
    (h : (sendConnectionRequest s A B message now).2.success = true) :
    sendConnectionRequest (sendConnectionRequest s A B message now).1 A B message2 now2 =
      ((sendConnectionRequest s A B message now).1,
       { code := 400, success := false, message := "Connection request already sent",
         data := none, error := none }) := by
  obtain ⟨hconn, hpend⟩ := sendConnectionRequest_success s A B message now h
  have hc := (find_connection_none_iff s A B).mpr hconn
  have hr := (find_pending_none_iff s A B).mpr hpend
  rw [sendConnectionRequest_of_clear s A B message now hc hr]
  unfold sendConnectionRequest
  simp only [hc]
  have hfound : ((s.requests ++
      [newConnectionRequest (s.requests.map (·._id)) A B message now]).find? (fun r =>
        r.senderId == A && r.receiverId == B && r.status == .pending)).isSome = true := by
    rw [List.find?_isSome]
    exact ⟨_, List.mem_append_right _ (List.mem_singleton.mpr rfl),
      by simp [newConnectionRequest]⟩
  cases hf : (s.requests ++
      [newConnectionRequest (s.requests.map (·._id)) A B message now]).find? (fun r =>
        r.senderId == A && r.receiverId == B && r.status == .pending) with
  | some r => rfl
  | none => rw [hf] at hfound; exact absurd hfound (by simp)

theorem sendConnectionRequest_twice_duplicate_witness :
    (sendConnectionRequest { requests := [], connections := [] } 1 2 none 5).2.success = true ∧
    sendConnectionRequest
        (sendConnectionRequest { requests := [], connections := [] } 1 2 none 5).1
        1 2 (some "again") 6 =
      ((sendConnectionRequest { requests := [], connections := [] } 1 2 none 5).1,
       { code := 400, success := false, message := "Connection request already sent",
         data := none, error := none }) :=
  ⟨by decide, sendConnectionRequest_twice_duplicate _ 1 2 none (some "again") 5 6 (by decide)⟩

end BlogBackend

namespace BlogBackend

/-- C3: in a store with no Connection row between A and B in either direction and no
pending request from A to B, `sendConnectionRequest` from A to B answers 201 with
`success = true`; the new store is the old one with exactly one ConnectionRequest
appended, which has a fresh `_id`, sender A, receiver B, the given message (the schema
default "" when none is given), status `pending`, `sentAt` the time of the call and
`respondedAt` null; the returned data is that request, the old requests are untouched and
the Connection collection is unchanged. -/
theorem sendConnectionRequest_creates_pending (s : Store) (A B : ObjectId)
    (message : Option String) (now : Date)
    (hAB : ¬ hasConnection s A B) (hBA : ¬ hasConnection s B A)
    (hpend : ¬ hasPending s A B) :
    ∃ r : ConnectionRequest,
      sendConnectionRequest s A B message now =
        ({ requests := s.requests ++ [r], connections := s.connections },
         { code := 201, success := true, message := "Connection request sent successfully",
           data := some r, error := none }) ∧
      r.senderId = A ∧ r.receiverId = B ∧ r.message = message.getD "" ∧
      r.status = .pending ∧ r.respondedAt = none ∧ r.sentAt = now ∧
      r._id ∉ s.requests.map (·._id) := by
  refine ⟨newConnectionRequest (s.requests.map (·._id)) A B message now, ?_,
    rfl, rfl, rfl, rfl, rfl, rfl, ?_⟩
  · exact sendConnectionRequest_of_clear s A B message now
      ((find_connection_none_iff s A B).mpr ⟨hAB, hBA⟩)
      ((find_pending_none_iff s A B).mpr hpend)
  · exact newObjectId_not_mem _

theorem sendConnectionRequest_creates_pending_witness :
    ∃ r : ConnectionRequest,
      sendConnectionRequest
          { requests := [{ _id := 4, senderId := 1, receiverId := 2, status := .rejected,
                           message := "", sentAt := 1, respondedAt := some 2,
                           createdAt := 1, updatedAt := 2 }],
            connections := [] } 1 2 (some "hi") 9 =
        ({ requests :=
             [{ _id := 4, senderId := 1, receiverId := 2, status := .rejected,
                message := "", sentAt := 1, respondedAt := some 2,
                createdAt := 1, updatedAt := 2 }] ++ [r],
           connections := [] },
         { code := 201, success := true, message := "Connection request sent successfully",
           data := some r, error := none }) ∧
      r.senderId = 1 ∧ r.receiverId = 2 ∧ r.message = (some "hi").getD "" ∧
      r.status = .pending ∧ r.respondedAt = none ∧ r.sentAt = 9 ∧
      r._id ∉ [{ _id := 4, senderId := 1, receiverId := 2, status := .rejected,
                 message := "", sentAt := 1, respondedAt := some 2,
                 createdAt := 1, updatedAt := 2 : ConnectionRequest }].map (·._id) :=
  sendConnectionRequest_creates_pending
    { requests := [{ _id := 4, senderId := 1, receiverId := 2, status := .rejected,
                     message := "", sentAt := 1, respondedAt := some 2,
                     createdAt := 1, updatedAt := 2 }],
      connections := [] } 1 2 (some "hi") 9 (by decide) (by decide) (by decide)

/-- C4: the duplicate check is directional. In a store where a pending request from B
to A exists, no pending request from A to B exists and no Connection row links A and B,
`sendConnectionRequest` from A to B answers 201 with `success = true`, and afterwards a
pending request from A to B exists next to the pending request from B to A. -/
theorem sendConnectionRequest_directional (s : Store) (A B : ObjectId)
    (message : Option String) (now : Date)
    (hrev : hasPending s B A) (hpend : ¬ hasPending s A B)
    (hAB : ¬ hasConnection s A B) (hBA : ¬ hasConnection s B A) :
    (sendConnectionRequest s A B message now).2.code = 201 ∧
    (sendConnectionRequest s A B message now).2.success = true ∧
    hasPending (sendConnectionRequest s A B message now).1 A B ∧
    hasPending (sendConnectionRequest s A B message now).1 B A := by
  rw [sendConnectionRequest_of_clear s A B message now
      ((find_connection_none_iff s A B).mpr ⟨hAB, hBA⟩)
      ((find_pending_none_iff s A B).mpr hpend)]
  refine ⟨rfl, rfl, ?_, ?_⟩
  · exact ⟨_, List.mem_append_right _ (List.mem_singleton.mpr rfl), rfl, rfl, rfl⟩
  · obtain ⟨r, hr, h⟩ := hrev
    exact ⟨r, List.mem_append_left _ hr, h⟩

theorem sendConnectionRequest_directional_witness :
    hasPending
      { requests := [{ _id := 1, senderId := 2, receiverId := 1, status := .pending,
                       message := "", sentAt := 1, respondedAt := none,
                       createdAt := 1, updatedAt := 1 }],
        connections := [] } 2 1 ∧
    (sendConnectionRequest
      { requests := [{ _id := 1, senderId := 2, receiverId := 1, status := .pending,
                       message := "", sentAt := 1, respondedAt := none,
                       createdAt := 1, updatedAt := 1 }],
        connections := [] } 1 2 none 3).2.code = 201 :=
  ⟨by decide,
   (sendConnectionRequest_directional
      { requests := [{ _id := 1, senderId := 2, receiverId := 1, status := .pending,
                       message := "", sentAt := 1, respondedAt := none,
                       createdAt := 1, updatedAt := 1 }],
        connections := [] } 1 2 none 3 (by decide) (by decide) (by decide) (by decide)).1⟩

end BlogBackend

namespace BlogBackend

/-! ## Reading the status between two users -/

theorem getConnectionStatus_connected (s : Store) (a b : ObjectId)
    (h : hasConnection s a b) :
    getConnectionStatus s a b = { code := 200, success := true, status := "connected" } := by
  unfold getConnectionStatus
  cases hc : s.connections.find? (fun c => c.userId == a && c.connectedUserId == b) with
  | some c => rfl
  | none =>
    obtain ⟨c, hmem, h1, h2⟩ := h
    exact absurd (List.find?_eq_none.mp hc c hmem) (by simp [h1, h2])

theorem find_owned_none (s : Store) (a b : ObjectId) (h : ¬ hasConnection s a b) :
    s.connections.find? (fun c => c.userId == a && c.connectedUserId == b) = none := by
  rw [List.find?_eq_none]
  intro c hc hm
  simp only [Bool.and_eq_true, beq_iff_eq] at hm
  exact h ⟨c, hc, hm.1, hm.2⟩

theorem getConnectionStatus_pending_sent (s : Store) (a b : ObjectId)
    (hconn : ¬ hasConnection s a b) (hsent : hasPending s a b) (hrecv : ¬ hasPending s b a) :
    getConnectionStatus s a b = { code := 200, success := true, status := "pending_sent" } := by
  unfold getConnectionStatus
  rw [find_owned_none s a b hconn]
  cases hf : s.requests.find? (fun r =>
      (r.senderId == a && r.receiverId == b && r.status == .pending) ||
      (r.senderId == b && r.receiverId == a && r.status == .pending)) with
  | none =>
    obtain ⟨r, hmem, h1, h2, h3⟩ := hsent
    exact absurd (List.find?_eq_none.mp hf r hmem) (by simp [h1, h2, h3])
  | some r =>
    have hp := List.find?_some hf
    have hmem := List.mem_of_find?_eq_some hf
    simp only [Bool.or_eq_true, Bool.and_eq_true, beq_iff_eq] at hp
    rcases hp with ⟨⟨e1, _⟩, _⟩ | ⟨⟨e1, e2⟩, e3⟩
    · simp [e1]
    · exact absurd ⟨r, hmem, e1, e2, e3⟩ hrecv

theorem getConnectionStatus_pending_received (s : Store) (a b : ObjectId)
    (hconn : ¬ hasConnection s a b) (hsent : ¬ hasPending s a b) (hrecv : hasPending s b a) :
    getConnectionStatus s a b =
      { code := 200, success := true, status := "pending_received" } := by
  have hne : b ≠ a := by
    rintro rfl
    exact hsent hrecv
  unfold getConnectionStatus
  rw [find_owned_none s a b hconn]
  cases hf : s.requests.find? (fun r =>
      (r.senderId == a && r.receiverId == b && r.status == .pending) ||
      (r.senderId == b && r.receiverId == a && r.status == .pending)) with
  | none =>
    obtain ⟨r, hmem, h1, h2, h3⟩ := hrecv
    exact absurd (List.find?_eq_none.mp hf r hmem) (by simp [h1, h2, h3])
  | some r =>
    have hp := List.find?_some hf
    have hmem := List.mem_of_find?_eq_some hf
    simp only [Bool.or_eq_true, Bool.and_eq_true, beq_iff_eq] at hp
    rcases hp with ⟨⟨e1, e2⟩, e3⟩ | ⟨⟨e1, _⟩, _⟩
    · exact absurd ⟨r, hmem, e1, e2, e3⟩ hsent
    · simp [e1, hne]

theorem getConnectionStatus_not_connected (s : Store) (a b : ObjectId)
    (hconn : ¬ hasConnection s a b) (hsent : ¬ hasPending s a b) (hrecv : ¬ hasPending s b a) :
    getConnectionStatus s a b =
      { code := 200, success := true, status := "not_connected" } := by
  unfold getConnectionStatus
  rw [find_owned_none s a b hconn]
  cases hf : s.requests.find? (fun r =>
      (r.senderId == a && r.receiverId == b && r.status == .pending) ||
      (r.senderId == b && r.receiverId == a && r.status == .pending)) with
  | none => rfl
  | some r =>
    have hp := List.find?_some hf
    have hmem := List.mem_of_find?_eq_some hf
    simp only [Bool.or_eq_true, Bool.and_eq_true, beq_iff_eq] at hp
    rcases hp with ⟨⟨e1, e2⟩, e3⟩ | ⟨⟨e1, e2⟩, e3⟩
    · exact absurd ⟨r, hmem, e1, e2, e3⟩ hsent
    · exact absurd ⟨r, hmem, e1, e2, e3⟩ hrecv

end BlogBackend

namespace BlogBackend

/-- C5, as stated, fails on the code at two inputs. With a pending request from 2 to 1
already stored, `sendConnectionRequest` from 1 to 2 succeeds, yet `getConnectionStatus`
finds the older request first and answers `pending_received` for (1, 2) and
`pending_sent` for (2, 1). On the empty store `sendConnectionRequest` from 1 to 1
succeeds and `getConnectionStatus` for (1, 1) answers `pending_sent`, not
`pending_received`. -/
theorem getConnectionStatus_after_send_counterexample :
    ((sendConnectionRequest
        { requests := [{ _id := 1, senderId := 2, receiverId := 1, status := .pending,
                         message := "", sentAt := 1, respondedAt := none,
                         createdAt := 1, updatedAt := 1 }],
          connections := [] } 1 2 none 3).2.success = true ∧
      (getConnectionStatus (sendConnectionRequest
        { requests := [{ _id := 1, senderId := 2, receiverId := 1, status := .pending,
                         message := "", sentAt := 1, respondedAt := none,
                         createdAt := 1, updatedAt := 1 }],
          connections := [] } 1 2 none 3).1 1 2).status = "pending_received" ∧
      (getConnectionStatus (sendConnectionRequest
        { requests := [{ _id := 1, senderId := 2, receiverId := 1, status := .pending,
                         message := "", sentAt := 1, respondedAt := none,
                         createdAt := 1, updatedAt := 1 }],
          connections := [] } 1 2 none 3).1 2 1).status = "pending_sent" ∧
      ("pending_received" : String) ≠ "pending_sent") ∧
    ((sendConnectionRequest { requests := [], connections := [] } 1 1 none 3).2.success = true ∧
      (getConnectionStatus
        (sendConnectionRequest { requests := [], connections := [] } 1 1 none 3).1 1 1).status
        = "pending_sent" ∧
      (getConnectionStatus
        (sendConnectionRequest { requests := [], connections := [] } 1 1 none 3).1 1 1).status
        ≠ "pending_received") := by
  decide

/-- C5, amended: for distinct identities A and B and a store with no pending request
from B to A, after `sendConnectionRequest` from A to B succeeds, `getConnectionStatus`
answers `pending_sent` for (A, B) and `pending_received` for (B, A). -/
theorem getConnectionStatus_after_send (s : Store) (A B : ObjectId)
    (message : Option String) (now : Date)
    (hne : A ≠ B) (hrev : ¬ hasPending s B A)
    (h : (sendConnectionRequest s A B message now).2.success = true) :
    getConnectionStatus (sendConnectionRequest s A B message now).1 A B =
      { code := 200, success := true, status := "pending_sent" } ∧
    getConnectionStatus (sendConnectionRequest s A B message now).1 B A =
      { code := 200, success := true, status := "pending_received" } := by
  obtain ⟨⟨hAB, hBA⟩, hpend⟩ := sendConnectionRequest_success s A B message now h
  rw [sendConnectionRequest_of_clear s A B message now
      ((find_connection_none_iff s A B).mpr ⟨hAB, hBA⟩)
      ((find_pending_none_iff s A B).mpr hpend)]
  have hsent : hasPending
      { s with requests :=
          s.requests ++ [newConnectionRequest (s.requests.map (·._id)) A B message now] }
      A B :=
    ⟨_, List.mem_append_right _ (List.mem_singleton.mpr rfl), rfl, rfl, rfl⟩
  have hrev2 : ¬ hasPending
      { s with requests :=
          s.requests ++ [newConnectionRequest (s.requests.map (·._id)) A B message now] }
      B A := by
    rintro ⟨r, hr, h1, h2, h3⟩
    rcases List.mem_append.mp hr with hr | hr
    · exact hrev ⟨r, hr, h1, h2, h3⟩
    · rw [List.mem_singleton] at hr
      subst hr
      exact hne h1
  exact ⟨getConnectionStatus_pending_sent _ A B hAB hsent hrev2,
         getConnectionStatus_pending_received _ B A hBA hrev2 hsent⟩

theorem getConnectionStatus_after_send_witness :
    (1 : ObjectId) ≠ 2 ∧
    getConnectionStatus
        (sendConnectionRequest { requests := [], connections := [] } 1 2 none 3).1 1 2 =
      { code := 200, success := true, status := "pending_sent" } ∧
    getConnectionStatus
        (sendConnectionRequest { requests := [], connections := [] } 1 2 none 3).1 2 1 =
      { code := 200, success := true, status := "pending_received" } :=
  ⟨by decide,
   getConnectionStatus_after_send { requests := [], connections := [] } 1 2 none 3
     (by decide) (by decide) (by decide)⟩

end BlogBackend

namespace BlogBackend

/-! ## Accepting and rejecting a request -/

theorem find_id_of_mem (requests : List ConnectionRequest) (r : ConnectionRequest)
    (hmem : r ∈ requests) (huniq : (requests.map (·._id)).Nodup) :
    requests.find? (fun x => x._id == r._id) = some r := by
  induction requests with
  | nil => simp at hmem
  | cons x xs ih =>
    rw [List.map_cons, List.nodup_cons] at huniq
    rcases List.mem_cons.mp hmem with rfl | h
    · simp
    · have hx : x._id ≠ r._id := by
        intro heq
        exact huniq.1 (heq ▸ List.mem_map_of_mem _ h)
      rw [List.find?_cons_of_neg _ (by simpa using hx)]
      exact ih h huniq.2

theorem findById_of_mem (s : Store) (r : ConnectionRequest)
    (hmem : r ∈ s.requests) (huniq : uniqueRequestIds s) :
    findById s.requests r._id = some r :=
  find_id_of_mem s.requests r hmem huniq

theorem findById_none (s : Store) (requestId : ObjectId)
    (h : ∀ r ∈ s.requests, r._id ≠ requestId) :
    findById s.requests requestId = none := by
  unfold findById
  rw [List.find?_eq_none]
  intro r hr
  simpa using h r hr

/-- C6: for a stored ConnectionRequest `r` and an actor other than `r.receiverId`, both
`acceptConnectionRequest` and `rejectConnectionRequest` on `r._id` answer 403 with
`success = false`, and the store, hence `r` and the Connection collection, is returned
unchanged. -/
theorem accept_reject_forbidden (s : Store) (r : ConnectionRequest) (actor : ObjectId)
    (now : Date) (hmem : r ∈ s.requests) (huniq : uniqueRequestIds s)
    (hne : actor ≠ r.receiverId) :
    acceptConnectionRequest s r._id actor now =
      (s, { code := 403, success := false, message := "Unauthorized to accept this request",
            data := none, error := none }) ∧
    rejectConnectionRequest s r._id actor now =
      (s, { code := 403, success := false, message := "Unauthorized to reject this request",
            data := none, error := none }) := by
  have hfind := findById_of_mem s r hmem huniq
  have hcmp : (r.receiverId != actor) = true := by
    simpa using fun h => hne h.symm
  constructor
  · unfold acceptConnectionRequest
    simp only [hfind, hcmp, if_true]
    rfl
  · unfold rejectConnectionRequest
    simp only [hfind, hcmp, if_true]
    rfl

theorem accept_reject_forbidden_witness :
    acceptConnectionRequest
        { requests := [{ _id := 1, senderId := 1, receiverId := 2, status := .pending,
                         message := "", sentAt := 1, respondedAt := none,
                         createdAt := 1, updatedAt := 1 }],
          connections := [] } 1 3 4 =
      ({ requests := [{ _id := 1, senderId := 1, receiverId := 2, status := .pending,
                        message := "", sentAt := 1, respondedAt := none,
                        createdAt := 1, updatedAt := 1 }],
         connections := [] },
       { code := 403, success := false, message := "Unauthorized to accept this request",
         data := none, error := none }) ∧
    rejectConnectionRequest
        { requests := [{ _id := 1, senderId := 1, receiverId := 2, status := .pending,
                         message := "", sentAt := 1, respondedAt := none,
                         createdAt := 1, updatedAt := 1 }],
          connections := [] } 1 3 4 =
      ({ requests := [{ _id := 1, senderId := 1, receiverId := 2, status := .pending,
                        message := "", sentAt := 1, respondedAt := none,
                        createdAt := 1, updatedAt := 1 }],
         connections := [] },
       { code := 403, success := false, message := "Unauthorized to reject this request",
         data := none, error := none }) :=
  accept_reject_forbidden
    { requests := [{ _id := 1, senderId := 1, receiverId := 2, status := .pending,
                     message := "", sentAt := 1, respondedAt := none,
                     createdAt := 1, updatedAt := 1 }],
      connections := [] }
    { _id := 1, senderId := 1, receiverId := 2, status := .pending,
      message := "", sentAt := 1, respondedAt := none, createdAt := 1, updatedAt := 1 }
    3 4 (by decide) (by decide) (by decide)

/-- When no stored ConnectionRequest has the ObjectId `requestId`, both handlers answer
404 and return the store unchanged. -/
theorem accept_reject_not_found (s : Store) (requestId actor : ObjectId) (now : Date)
    (h : ∀ r ∈ s.requests, r._id ≠ requestId) :
    acceptConnectionRequest s requestId actor now =
      (s, { code := 404, success := false, message := "Connection request not found",
            data := none, error := none }) ∧
    rejectConnectionRequest s requestId actor now =
      (s, { code := 404, success := false, message := "Connection request not found",
            data := none, error := none }) := by
  have hfind := findById_none s requestId h
  constructor
  · unfold acceptConnectionRequest
    simp only [hfind]
    rfl
  · unfold rejectConnectionRequest
    simp only [hfind]
    rfl

end BlogBackend

namespace BlogBackend

theorem insertConnection_ok (connections out : List Connection) (doc : Connection)
    (h : insertConnection connections doc = .ok out) :
    out = connections ++ [doc] ∧
    ∀ c ∈ connections, ¬ (c.userId = doc.userId ∧ c.connectedUserId = doc.connectedUserId) := by
  unfold insertConnection at h
  split at h
  · exact absurd h (by simp)
  · split at h
    · exact absurd h (by simp)
    · rename_i _ hpair
      refine ⟨by simpa using h.symm, ?_⟩
      intro c hc hp
      apply hpair
      rw [List.any_eq_true]
      exact ⟨c, hc, by simp [hp.1, hp.2]⟩

theorem find_updateOne (requests : List ConnectionRequest) (doc : ConnectionRequest)
    (h : ∃ x ∈ requests, x._id = doc._id) :
    (updateOne requests doc).find? (fun x => x._id == doc._id) = some doc := by
  induction requests with
  | nil => simp at h
  | cons x xs ih =>
    unfold updateOne
    by_cases hx : x._id = doc._id
    · simp [hx]
    · have hx' : (x._id == doc._id) = false := by simpa using hx
      simp only [hx', Bool.false_eq_true, if_false]
      rw [List.find?_cons_of_neg _ (by simpa using hx)]
      apply ih
      obtain ⟨y, hy, hyid⟩ := h
      rcases List.mem_cons.mp hy with rfl | hy'
      · exact absurd hyid hx
      · exact ⟨y, hy', hyid⟩

/-- The request as `acceptConnectionRequest` writes it. -/
theorem findById_saveRequest (requests : List ConnectionRequest)
    (loaded doc : ConnectionRequest) (now : Date)
    (hfind : findById requests loaded._id = some loaded) (hid : doc._id = loaded._id) :
    findById (saveRequest requests loaded doc now).1 loaded._id =
      some (saveRequest requests loaded doc now).2 := by
  unfold saveRequest
  by_cases hsame : doc = loaded
  · simp only [hsame, if_true]
    exact hfind
  · simp only [hsame, if_false]
    unfold findById
    have hmem : loaded ∈ requests := List.mem_of_find?_eq_some hfind
    have := find_updateOne requests { doc with updatedAt := now } ⟨loaded, hmem, hid.symm⟩
    simpa [hid] using this

/-- What a successful `acceptConnectionRequest` has done. -/
theorem acceptConnectionRequest_success (s s' : Store) (request : ConnectionRequest)
    (requestId userId : ObjectId) (now : Date) (resp : Response)
    (hfind : findById s.requests requestId = some request)
    (h : acceptConnectionRequest s requestId userId now = (s', resp))
    (hok : resp.success = true) :
    request.receiverId = userId ∧
    s'.requests = (saveRequest s.requests request
      { request with status := .accepted, respondedAt := some now } now).1 ∧
    resp.data = some (saveRequest s.requests request
      { request with status := .accepted, respondedAt := some now } now).2 ∧
    resp.code = 200 ∧
    s'.connections = s.connections ++
      [newConnection (s.connections.map (·._id)) request.senderId userId now,
       newConnection
         ((newConnection (s.connections.map (·._id)) request.senderId userId now)._id ::
           s.connections.map (·._id)) userId request.senderId now] ∧
    (∀ c ∈ s.connections,
      ¬ (c.userId = request.senderId ∧ c.connectedUserId = userId) ∧
      ¬ (c.userId = userId ∧ c.connectedUserId = request.senderId)) ∧
    request.senderId ≠ userId := by
  unfold acceptConnectionRequest at h
  simp only [hfind] at h
  by_cases hrecv : request.receiverId = userId
  · have hcmp : (request.receiverId != userId) = false := by simpa using hrecv
    simp only [hcmp, Bool.false_eq_true, if_false] at h
    cases h1 : insertConnection s.connections
        (newConnection (s.connections.map (·._id)) request.senderId userId now) with
    | error e =>
      simp only [h1] at h
      rw [Prod.mk.injEq] at h
      rw [← h.2] at hok
      exact absurd hok (by simp [serverError])
    | ok connections1 =>
      simp only [h1] at h
      cases h2 : insertConnection connections1
          (newConnection
            ((newConnection (s.connections.map (·._id)) request.senderId userId now)._id ::
              s.connections.map (·._id)) userId request.senderId now) with
      | error e =>
        simp only [h2] at h
        rw [Prod.mk.injEq] at h
        rw [← h.2] at hok
        exact absurd hok (by simp [serverError])
      | ok connections2 =>
        simp only [h2] at h
        rw [Prod.mk.injEq] at h
        obtain ⟨hs, hresp⟩ := h
        obtain ⟨e1, n1⟩ := insertConnection_ok _ _ _ h1
        obtain ⟨e2, n2⟩ := insertConnection_ok _ _ _ h2
        subst hs hresp e1 e2
        refine ⟨hrecv, rfl, rfl, rfl, by simp, ?_, ?_⟩
        · intro c hc
          exact ⟨n1 c hc, n2 c (List.mem_append_left _ hc)⟩
        · intro heq
          exact n2 _ (List.mem_append_right _ (List.mem_singleton.mpr rfl))
            ⟨by simp [newConnection, heq], by simp [newConnection, heq]⟩
  · have hcmp : (request.receiverId != userId) = true := by simpa using hrecv
    simp only [hcmp, if_true] at h
    rw [Prod.mk.injEq] at h
    rw [← h.2] at hok
    exact absurd hok (by simp [failure])

end BlogBackend

namespace BlogBackend

theorem saveRequest_snd_fields (requests : List ConnectionRequest)
    (loaded doc : ConnectionRequest) (now : Date) :
    (saveRequest requests loaded doc now).2._id = doc._id ∧
    (saveRequest requests loaded doc now).2.senderId = doc.senderId ∧
    (saveRequest requests loaded doc now).2.receiverId = doc.receiverId ∧
    (saveRequest requests loaded doc now).2.status = doc.status ∧
    (saveRequest requests loaded doc now).2.message = doc.message ∧
    (saveRequest requests loaded doc now).2.sentAt = doc.sentAt ∧
    (saveRequest requests loaded doc now).2.respondedAt = doc.respondedAt ∧
    (saveRequest requests loaded doc now).2.createdAt = doc.createdAt := by
  unfold saveRequest
  split <;> simp

/-- C8: for a stored request `r` from A to B, after `acceptConnectionRequest` on `r._id`
by B succeeds, the stored request with that `_id` (also the returned data) has status
`accepted` and `respondedAt` set to the time of the call, `getConnectionStatus` answers
`connected` for (A, B) and for (B, A), and the Connection rows linking A and B are
exactly two, (owner = A, peer = B) and (owner = B, peer = A). -/
theorem acceptConnectionRequest_connects (s s' : Store) (r : ConnectionRequest)
    (A B : ObjectId) (now : Date) (resp : Response)
    (hmem : r ∈ s.requests) (huniq : uniqueRequestIds s)
    (hA : r.senderId = A) (hB : r.receiverId = B)
    (h : acceptConnectionRequest s r._id B now = (s', resp))
    (hok : resp.success = true) :
    (∃ r', findById s'.requests r._id = some r' ∧ resp.data = some r' ∧
      r'.status = .accepted ∧ r'.respondedAt = some now ∧
      r'.senderId = A ∧ r'.receiverId = B) ∧
    getConnectionStatus s' A B = { code := 200, success := true, status := "connected" } ∧
    getConnectionStatus s' B A = { code := 200, success := true, status := "connected" } ∧
    (s'.connections.filter (fun c =>
        (c.userId == A && c.connectedUserId == B) ||
        (c.userId == B && c.connectedUserId == A))).map
      (fun c => (c.userId, c.connectedUserId)) = [(A, B), (B, A)] := by
  have hfind := findById_of_mem s r hmem huniq
  obtain ⟨_, hreqs, hdata, _, hconns, hnone, hne⟩ :=
    acceptConnectionRequest_success s s' r r._id B now resp hfind h hok
  rw [hA] at hconns hnone hne
  have hf := saveRequest_snd_fields s.requests r
    { r with status := .accepted, respondedAt := some now } now
  refine ⟨⟨_, ?_, hdata, hf.2.2.2.1, hf.2.2.2.2.2.2.1, ?_, ?_⟩, ?_, ?_, ?_⟩
  · rw [hreqs]
    exact findById_saveRequest s.requests r _ now hfind rfl
  · rw [hf.2.1]; exact hA
  · rw [hf.2.2.1]; exact hB
  · apply getConnectionStatus_connected
    refine ⟨newConnection (s.connections.map (·._id)) A B now, ?_, rfl, rfl⟩
    rw [hconns]
    simp
  · apply getConnectionStatus_connected
    refine ⟨newConnection
      ((newConnection (s.connections.map (·._id)) A B now)._id ::
        s.connections.map (·._id)) B A now, ?_, rfl, rfl⟩
    rw [hconns]
    simp
  · rw [hconns, List.filter_append]
    have hold : s.connections.filter (fun c =>
        (c.userId == A && c.connectedUserId == B) ||
        (c.userId == B && c.connectedUserId == A)) = [] := by
      rw [List.filter_eq_nil_iff]
      intro c hc hp
      simp only [Bool.or_eq_true, Bool.and_eq_true, beq_iff_eq] at hp
      rcases hp with hp | hp
      · exact (hnone c hc).1 hp
      · exact (hnone c hc).2 hp
    rw [hold]
    simp [List.filter, newConnection]

end BlogBackend

namespace BlogBackend

theorem acceptConnectionRequest_connects_witness :
    (acceptConnectionRequest
        { requests := [{ _id := 1, senderId := 1, receiverId := 2, status := .pending,
                         message := "", sentAt := 1, respondedAt := none,
                         createdAt := 1, updatedAt := 1 }],
          connections := [] } 1 2 5).2.success = true ∧
    getConnectionStatus
        (acceptConnectionRequest
          { requests := [{ _id := 1, senderId := 1, receiverId := 2, status := .pending,
                           message := "", sentAt := 1, respondedAt := none,
                           createdAt := 1, updatedAt := 1 }],
            connections := [] } 1 2 5).1 1 2 =
      { code := 200, success := true, status := "connected" } :=
  ⟨by decide,
   (acceptConnectionRequest_connects
      { requests := [{ _id := 1, senderId := 1, receiverId := 2, status := .pending,
                       message := "", sentAt := 1, respondedAt := none,
                       createdAt := 1, updatedAt := 1 }],
        connections := [] }
      _
      { _id := 1, senderId := 1, receiverId := 2, status := .pending,
        message := "", sentAt := 1, respondedAt := none, createdAt := 1, updatedAt := 1 }
      1 2 5 _ (by decide) (by decide) rfl rfl rfl (by decide)).2.1⟩

theorem updateOne_eq_map (requests : List ConnectionRequest) (doc : ConnectionRequest)
    (huniq : (requests.map (·._id)).Nodup) :
    updateOne requests doc = requests.map (fun x => if x._id = doc._id then doc else x) := by
  induction requests with
  | nil => rfl
  | cons x xs ih =>
    rw [List.map_cons, List.nodup_cons] at huniq
    unfold updateOne
    by_cases hx : x._id = doc._id
    · have hrest : xs.map (fun y => if y._id = doc._id then doc else y) = xs := by
        conv_rhs => rw [← List.map_id xs]
        apply List.map_congr_left
        intro y hy
        have hy' : y._id ≠ doc._id := by
          intro heq
          exact huniq.1 (by rw [hx, ← heq]; exact List.mem_map_of_mem _ hy)
        simp [hy']
      simp [hx, hrest]
    · have hx' : (x._id == doc._id) = false := by simpa using hx
      simp only [hx', Bool.false_eq_true, if_false, List.map_cons, hx]
      rw [ih huniq.2]

theorem map_replace_self (requests : List ConnectionRequest) (r : ConnectionRequest)
    (hmem : r ∈ requests) (huniq : (requests.map (·._id)).Nodup) :
    requests.map (fun x => if x._id = r._id then r else x) = requests := by
  conv_rhs => rw [← List.map_id requests]
  apply List.map_congr_left
  intro x hx
  by_cases hid : x._id = r._id
  · have := List.inj_on_of_nodup_map huniq hx hmem hid
    simp [this]
  · simp [hid]

/-- What `rejectConnectionRequest` does when the receiver calls it on a stored request. -/
theorem rejectConnectionRequest_by_receiver (s : Store) (r : ConnectionRequest)
    (now : Date) (hmem : r ∈ s.requests) (huniq : uniqueRequestIds s) :
    rejectConnectionRequest s r._id r.receiverId now =
      ({ requests := s.requests.map (fun x =>
           if x._id = r._id then
             (saveRequest s.requests r
               { r with status := .rejected, respondedAt := some now } now).2
           else x),
         connections := s.connections },
       { code := 200, success := true, message := "Connection request rejected",
         data := some (saveRequest s.requests r
           { r with status := .rejected, respondedAt := some now } now).2,
         error := none }) := by
  have hfind := findById_of_mem s r hmem huniq
  unfold rejectConnectionRequest
  simp only [hfind, bne_self_eq_false, Bool.false_eq_true, if_false]
  have hreqs : (saveRequest s.requests r
      { r with status := .rejected, respondedAt := some now } now).1 =
      s.requests.map (fun x =>
        if x._id = r._id then
          (saveRequest s.requests r
            { r with status := .rejected, respondedAt := some now } now).2
        else x) := by
    unfold saveRequest
    by_cases hsame : ({ r with status := .rejected, respondedAt := some now } :
        ConnectionRequest) = r
    · simp only [hsame, if_true]
      exact (map_replace_self s.requests r hmem huniq).symm
    · simp only [hsame, if_false]
      exact updateOne_eq_map s.requests _ huniq
  rw [← hreqs]

end BlogBackend

namespace BlogBackend

/-- C9, as stated, fails on the code: the schema option `timestamps: true` makes the save
refresh `updatedAt`. The receiver 2 rejects at time 5 a pending request whose `updatedAt`
is 1; the call succeeds and the stored request then has `updatedAt = 5`, a field other
than `status` and `respondedAt`. -/
theorem rejectConnectionRequest_frame_counterexample :
    (rejectConnectionRequest
        { requests := [{ _id := 1, senderId := 1, receiverId := 2, status := .pending,
                         message := "", sentAt := 1, respondedAt := none,
                         createdAt := 1, updatedAt := 1 }],
          connections := [] } 1 2 5).2.success = true ∧
    (rejectConnectionRequest
        { requests := [{ _id := 1, senderId := 1, receiverId := 2, status := .pending,
                         message := "", sentAt := 1, respondedAt := none,
                         createdAt := 1, updatedAt := 1 }],
          connections := [] } 1 2 5).1.requests =
      [{ _id := 1, senderId := 1, receiverId := 2, status := .rejected,
         message := "", sentAt := 1, respondedAt := some 5,
         createdAt := 1, updatedAt := 5 }] ∧
    (5 : Date) ≠ 1 := by
  decide

/-- C9, amended: when the receiver B of a stored request `r` calls
`rejectConnectionRequest` on `r._id`, the call answers 200 with `success = true`; the
request becomes `r'` with status `rejected` and `respondedAt` the time of the call;
`r'` differs from `r` in no field other than `status`, `respondedAt` and the
schema-maintained `updatedAt` (which is the old value or the time of the call); every
other request is unchanged and the Connection collection is exactly as it was. -/
theorem rejectConnectionRequest_frame (s s' : Store) (r : ConnectionRequest)
    (B : ObjectId) (now : Date) (resp : Response)
    (hmem : r ∈ s.requests) (huniq : uniqueRequestIds s) (hB : r.receiverId = B)
    (h : rejectConnectionRequest s r._id B now = (s', resp)) :
    resp.code = 200 ∧ resp.success = true ∧
    ∃ r', resp.data = some r' ∧
      r'.status = .rejected ∧ r'.respondedAt = some now ∧
      r'._id = r._id ∧ r'.senderId = r.senderId ∧ r'.receiverId = r.receiverId ∧
      r'.message = r.message ∧ r'.sentAt = r.sentAt ∧ r'.createdAt = r.createdAt ∧
      (r'.updatedAt = r.updatedAt ∨ r'.updatedAt = now) ∧
      s'.requests = s.requests.map (fun x => if x._id = r._id then r' else x) ∧
      s'.connections = s.connections := by
  subst hB
  rw [rejectConnectionRequest_by_receiver s r now hmem huniq, Prod.mk.injEq] at h
  obtain ⟨hs, hresp⟩ := h
  subst hs hresp
  have hf := saveRequest_snd_fields s.requests r
    { r with status := .rejected, respondedAt := some now } now
  refine ⟨rfl, rfl, _, rfl, hf.2.2.2.1, hf.2.2.2.2.2.2.1, hf.1, hf.2.1, hf.2.2.1,
    hf.2.2.2.2.1, hf.2.2.2.2.2.1, hf.2.2.2.2.2.2.2, ?_, rfl, rfl⟩
  unfold saveRequest
  split
  · exact Or.inl rfl
  · exact Or.inr rfl

theorem rejectConnectionRequest_frame_witness :
    (rejectConnectionRequest
        { requests := [{ _id := 1, senderId := 1, receiverId := 2, status := .pending,
                         message := "", sentAt := 1, respondedAt := none,
                         createdAt := 1, updatedAt := 1 }],
          connections := [] } 1 2 5).2.code = 200 :=
  (rejectConnectionRequest_frame
      { requests := [{ _id := 1, senderId := 1, receiverId := 2, status := .pending,
                       message := "", sentAt := 1, respondedAt := none,
                       createdAt := 1, updatedAt := 1 }],
        connections := [] }
      _
      { _id := 1, senderId := 1, receiverId := 2, status := .pending,
        message := "", sentAt := 1, respondedAt := none, createdAt := 1, updatedAt := 1 }
      2 5 _ (by decide) (by decide) rfl rfl).1

/-- C10, as stated, fails on the code at two inputs. With pending requests 1 → 2 and
2 → 1 both stored, the receiver 2 rejects the first one and `getConnectionStatus` for
(1, 2) answers `pending_received`. With a pending request 1 → 2 stored next to the two
Connection rows that the acceptance of a request 2 → 1 created, the receiver 2 rejects the
pending one and `getConnectionStatus` for (1, 2) answers `connected`. -/
theorem getConnectionStatus_after_reject_counterexample :
    ((rejectConnectionRequest
        { requests := [{ _id := 1, senderId := 1, receiverId := 2, status := .pending,
                         message := "", sentAt := 1, respondedAt := none,
                         createdAt := 1, updatedAt := 1 },
                       { _id := 2, senderId := 2, receiverId := 1, status := .pending,
                         message := "", sentAt := 2, respondedAt := none,
                         createdAt := 2, updatedAt := 2 }],
          connections := [] } 1 2 5).2.success = true ∧
      (getConnectionStatus (rejectConnectionRequest
        { requests := [{ _id := 1, senderId := 1, receiverId := 2, status := .pending,
                         message := "", sentAt := 1, respondedAt := none,
                         createdAt := 1, updatedAt := 1 },
                       { _id := 2, senderId := 2, receiverId := 1, status := .pending,
                         message := "", sentAt := 2, respondedAt := none,
                         createdAt := 2, updatedAt := 2 }],
          connections := [] } 1 2 5).1 1 2).status = "pending_received" ∧
      ("pending_received" : String) ≠ "not_connected") ∧
    ((rejectConnectionRequest
        { requests := [{ _id := 1, senderId := 1, receiverId := 2, status := .pending,
                         message := "", sentAt := 1, respondedAt := none,
                         createdAt := 1, updatedAt := 1 },
                       { _id := 2, senderId := 2, receiverId := 1, status := .accepted,
                         message := "", sentAt := 2, respondedAt := some 3,
                         createdAt := 2, updatedAt := 3 }],
          connections := [{ _id := 1, userId := 2, connectedUserId := 1, status := .accepted,
                            connectedAt := 3, createdAt := 3, updatedAt := 3 },
                          { _id := 2, userId := 1, connectedUserId := 2, status := .accepted,
                            connectedAt := 3, createdAt := 3, updatedAt := 3 }] }
        1 2 5).2.success = true ∧
      (getConnectionStatus (rejectConnectionRequest
        { requests := [{ _id := 1, senderId := 1, receiverId := 2, status := .pending,
                         message := "", sentAt := 1, respondedAt := none,
                         createdAt := 1, updatedAt := 1 },
                       { _id := 2, senderId := 2, receiverId := 1, status := .accepted,
                         message := "", sentAt := 2, respondedAt := some 3,
                         createdAt := 2, updatedAt := 3 }],
          connections := [{ _id := 1, userId := 2, connectedUserId := 1, status := .accepted,
                            connectedAt := 3, createdAt := 3, updatedAt := 3 },
                          { _id := 2, userId := 1, connectedUserId := 2, status := .accepted,
                            connectedAt := 3, createdAt := 3, updatedAt := 3 }] }
        1 2 5).1 1 2).status = "connected" ∧
      ("connected" : String) ≠ "not_connected") := by
  decide

end BlogBackend

namespace BlogBackend

/-- C10, amended: for a stored request `r` from A to B, in a store with no Connection
row (owner = A, peer = B) and in which no request other than `r` is pending between A
and B in either direction, after `rejectConnectionRequest` on `r._id` by B (which
answers 200 with `success = true`) `getConnectionStatus` for (A, B) answers
`not_connected`. -/
theorem getConnectionStatus_after_reject (s s' : Store) (r : ConnectionRequest)
    (A B : ObjectId) (now : Date) (resp : Response)
    (hmem : r ∈ s.requests) (huniq : uniqueRequestIds s)
    (hA : r.senderId = A) (hB : r.receiverId = B)
    (hconn : ¬ hasConnection s A B)
    (hother : ∀ x ∈ s.requests, x._id ≠ r._id → x.status = .pending →
      ¬ ((x.senderId = A ∧ x.receiverId = B) ∨ (x.senderId = B ∧ x.receiverId = A)))
    (h : rejectConnectionRequest s r._id B now = (s', resp)) :
    resp.success = true ∧
    getConnectionStatus s' A B =
      { code := 200, success := true, status := "not_connected" } := by
  subst hA hB
  rw [rejectConnectionRequest_by_receiver s r now hmem huniq, Prod.mk.injEq] at h
  obtain ⟨hs, hresp⟩ := h
  subst hs hresp
  have hf := saveRequest_snd_fields s.requests r
    { r with status := .rejected, respondedAt := some now } now
  have hstat : (saveRequest s.requests r
      { r with status := .rejected, respondedAt := some now } now).2.status = .rejected :=
    hf.2.2.2.1
  have hnone : ∀ a b : ObjectId, ((a = r.senderId ∧ b = r.receiverId) ∨ (a = r.receiverId ∧ b = r.senderId)) →
      ¬ hasPending
        { requests := s.requests.map (fun x =>
            if x._id = r._id then
              (saveRequest s.requests r
                { r with status := .rejected, respondedAt := some now } now).2
            else x),
          connections := s.connections } a b := by
    rintro a b hab ⟨y, hy, h1, h2, h3⟩
    obtain ⟨x, hx, hxy⟩ := List.mem_map.mp hy
    by_cases hid : x._id = r._id
    · rw [if_pos hid] at hxy
      rw [← hxy, hstat] at h3
      exact absurd h3 (by decide)
    · rw [if_neg hid] at hxy
      subst hxy
      apply hother x hx hid h3
      rcases hab with ⟨ha, hb⟩ | ⟨ha, hb⟩
      · exact Or.inl ⟨h1.trans ha, h2.trans hb⟩
      · exact Or.inr ⟨h1.trans ha, h2.trans hb⟩
  exact ⟨rfl, getConnectionStatus_not_connected _ r.senderId r.receiverId hconn
    (hnone r.senderId r.receiverId (Or.inl ⟨rfl, rfl⟩))
    (hnone r.receiverId r.senderId (Or.inr ⟨rfl, rfl⟩))⟩

theorem getConnectionStatus_after_reject_witness :
    (rejectConnectionRequest
        { requests := [{ _id := 1, senderId := 1, receiverId := 2, status := .pending,
                         message := "", sentAt := 1, respondedAt := none,
                         createdAt := 1, updatedAt := 1 }],
          connections := [] } 1 2 5).2.success = true ∧
    getConnectionStatus
        (rejectConnectionRequest
          { requests := [{ _id := 1, senderId := 1, receiverId := 2, status := .pending,
                           message := "", sentAt := 1, respondedAt := none,
                           createdAt := 1, updatedAt := 1 }],
            connections := [] } 1 2 5).1 1 2 =
      { code := 200, success := true, status := "not_connected" } :=
  getConnectionStatus_after_reject
    { requests := [{ _id := 1, senderId := 1, receiverId := 2, status := .pending,
                     message := "", sentAt := 1, respondedAt := none,
                     createdAt := 1, updatedAt := 1 }],
      connections := [] }
    _
    { _id := 1, senderId := 1, receiverId := 2, status := .pending,
      message := "", sentAt := 1, respondedAt := none, createdAt := 1, updatedAt := 1 }
    1 2 5 _ (by decide) (by decide) rfl rfl (by decide) (by decide) rfl

end BlogBackend

namespace BlogBackend

/-! ## The shape of the store after one call -/

theorem map_id_updateOne (requests : List ConnectionRequest) (doc : ConnectionRequest) :
    (updateOne requests doc).map (·._id) = requests.map (·._id) := by
  induction requests with
  | nil => rfl
  | cons x xs ih =>
    unfold updateOne
    by_cases hx : x._id = doc._id
    · simp [hx]
    · have hx' : (x._id == doc._id) = false := by simpa using hx
      simp only [hx', Bool.false_eq_true, if_false, List.map_cons, ih]

theorem map_id_saveRequest (requests : List ConnectionRequest)
    (loaded doc : ConnectionRequest) (now : Date) :
    (saveRequest requests loaded doc now).1.map (·._id) = requests.map (·._id) := by
  unfold saveRequest
  split
  · rfl
  · exact map_id_updateOne requests _

/-- The request collection after `saveRequest`, when identifiers are unique and the
document was loaded from the collection. -/
theorem saveRequest_fst_eq_map (requests : List ConnectionRequest)
    (loaded doc : ConnectionRequest) (now : Date)
    (hmem : loaded ∈ requests) (huniq : (requests.map (·._id)).Nodup)
    (hid : doc._id = loaded._id) :
    (saveRequest requests loaded doc now).1 =
      requests.map (fun x =>
        if x._id = loaded._id then (saveRequest requests loaded doc now).2 else x) := by
  unfold saveRequest
  by_cases hsame : doc = loaded
  · simp only [hsame, if_true]
    exact (map_replace_self requests loaded hmem huniq).symm
  · simp only [hsame, if_false]
    have := updateOne_eq_map requests { doc with updatedAt := now } huniq
    simpa [hid] using this

theorem sendConnectionRequest_cases (s : Store) (a b : ObjectId) (m : Option String)
    (now : Date) :
    (sendConnectionRequest s a b m now).1 = s ∨
    (¬ hasPending s a b ∧
      (sendConnectionRequest s a b m now).1 =
        { s with requests :=
            s.requests ++ [newConnectionRequest (s.requests.map (·._id)) a b m now] }) := by
  cases hc : s.connections.find? (fun c =>
      (c.userId == a && c.connectedUserId == b) ||
      (c.userId == b && c.connectedUserId == a)) with
  | some c =>
    left
    unfold sendConnectionRequest
    simp only [hc]
  | none =>
    cases hr : s.requests.find? (fun r =>
        r.senderId == a && r.receiverId == b && r.status == .pending) with
    | some r =>
      left
      unfold sendConnectionRequest
      simp only [hc, hr]
    | none =>
      right
      refine ⟨(find_pending_none_iff s a b).mp hr, ?_⟩
      rw [sendConnectionRequest_of_clear s a b m now hc hr]

theorem insertConnection_cases (connections : List Connection) (doc : Connection)
    (hfresh : doc._id ∉ connections.map (·._id)) :
    ((∃ c ∈ connections, c.userId = doc.userId ∧ c.connectedUserId = doc.connectedUserId) ∧
      insertConnection connections doc = .error .duplicateKey) ∨
    ((∀ c ∈ connections,
        ¬ (c.userId = doc.userId ∧ c.connectedUserId = doc.connectedUserId)) ∧
      insertConnection connections doc = .ok (connections ++ [doc])) := by
  have hid : (connections.any fun c => c._id == doc._id) = false := by
    rw [List.any_eq_false]
    intro c hc
    have hne : c._id ≠ doc._id := by
      intro heq
      exact hfresh (heq ▸ List.mem_map_of_mem _ hc)
    simpa using hne
  unfold insertConnection
  simp only [hid, Bool.false_eq_true, if_false]
  by_cases hp : (connections.any fun c =>
      c.userId == doc.userId && c.connectedUserId == doc.connectedUserId) = true
  · left
    simp only [hp, if_true, and_true]
    rw [List.any_eq_true] at hp
    obtain ⟨c, hc, hcp⟩ := hp
    simp only [Bool.and_eq_true, beq_iff_eq] at hcp
    exact ⟨c, hc, hcp⟩
  · right
    have hp' : (connections.any fun c =>
        c.userId == doc.userId && c.connectedUserId == doc.connectedUserId) = false := by
      simpa using hp
    simp only [hp', Bool.false_eq_true, if_false, and_true]
    intro c hc hcp
    apply hp
    rw [List.any_eq_true]
    exact ⟨c, hc, by simp [hcp.1, hcp.2]⟩

end BlogBackend

namespace BlogBackend

/-- The four ways `acceptConnectionRequest` leaves the store: untouched (404 or 403);
request saved and the first insert refused; request saved, first row inserted and the
second insert refused; request saved and both rows inserted. -/
theorem acceptConnectionRequest_cases (s : Store) (requestId userId : ObjectId)
    (now : Date) :
    (acceptConnectionRequest s requestId userId now).1 = s ∨
    ∃ rq, findById s.requests requestId = some rq ∧ rq.receiverId = userId ∧
      (acceptConnectionRequest s requestId userId now).1.requests =
        (saveRequest s.requests rq
          { rq with status := .accepted, respondedAt := some now } now).1 ∧
      (((acceptConnectionRequest s requestId userId now).1.connections = s.connections ∧
          ∃ c ∈ s.connections, c.userId = rq.senderId ∧ c.connectedUserId = userId) ∨
        ((acceptConnectionRequest s requestId userId now).1.connections =
            s.connections ++
              [newConnection (s.connections.map (·._id)) rq.senderId userId now] ∧
          (∀ c ∈ s.connections,
            ¬ (c.userId = rq.senderId ∧ c.connectedUserId = userId)) ∧
          ∃ c ∈ s.connections ++
              [newConnection (s.connections.map (·._id)) rq.senderId userId now],
            c.userId = userId ∧ c.connectedUserId = rq.senderId) ∨
        ((acceptConnectionRequest s requestId userId now).1.connections =
            s.connections ++
              [newConnection (s.connections.map (·._id)) rq.senderId userId now,
               newConnection
                 ((newConnection (s.connections.map (·._id)) rq.senderId userId now)._id ::
                   s.connections.map (·._id)) userId rq.senderId now] ∧
          (∀ c ∈ s.connections,
            ¬ (c.userId = rq.senderId ∧ c.connectedUserId = userId) ∧
            ¬ (c.userId = userId ∧ c.connectedUserId = rq.senderId)) ∧
          rq.senderId ≠ userId)) := by
  cases hfind : findById s.requests requestId with
  | none =>
    left
    unfold acceptConnectionRequest
    simp only [hfind]
  | some rq =>
    by_cases hrecv : rq.receiverId = userId
    · right
      refine ⟨rq, rfl, hrecv, ?_⟩
      have hcmp : (rq.receiverId != userId) = false := by simpa using hrecv
      have hfresh1 : (newConnection (s.connections.map (·._id)) rq.senderId userId now)._id ∉
          s.connections.map (·._id) := newObjectId_not_mem _
      have hfresh2 : (newConnection
          ((newConnection (s.connections.map (·._id)) rq.senderId userId now)._id ::
            s.connections.map (·._id)) userId rq.senderId now)._id ∉
          (s.connections ++
            [newConnection (s.connections.map (·._id)) rq.senderId userId now]).map
            (·._id) := by
        intro hm
        apply newObjectId_not_mem
          ((newConnection (s.connections.map (·._id)) rq.senderId userId now)._id ::
            s.connections.map (·._id))
        simp only [List.map_append, List.map_cons, List.map_nil, List.mem_append,
          List.mem_singleton] at hm
        rcases hm with hm | hm
        · exact List.mem_cons_of_mem _ hm
        · exact List.mem_cons.mpr (Or.inl hm)
      unfold acceptConnectionRequest
      simp only [hfind, hcmp, Bool.false_eq_true, if_false]
      rcases insertConnection_cases s.connections _ hfresh1 with ⟨hex, h1⟩ | ⟨hno1, h1⟩
      · rw [h1]
        exact ⟨rfl, Or.inl ⟨rfl, hex⟩⟩
      · rw [h1]
        dsimp only
        rcases insertConnection_cases _ _ hfresh2 with ⟨hex, h2⟩ | ⟨hno2, h2⟩
        · rw [h2]
          exact ⟨rfl, Or.inr (Or.inl ⟨rfl, hno1, hex⟩)⟩
        · rw [h2]
          refine ⟨rfl, Or.inr (Or.inr ⟨by simp, ?_, ?_⟩)⟩
          · intro c hc
            exact ⟨hno1 c hc, hno2 c (List.mem_append_left _ hc)⟩
          · intro heq
            exact hno2 _ (List.mem_append_right _ (List.mem_singleton.mpr rfl))
              ⟨by simp [newConnection, heq], by simp [newConnection, heq]⟩
    · left
      have hcmp : (rq.receiverId != userId) = true := by simpa using hrecv
      unfold acceptConnectionRequest
      simp only [hfind, hcmp, if_true]

theorem rejectConnectionRequest_cases (s : Store) (requestId userId : ObjectId)
    (now : Date) :
    (rejectConnectionRequest s requestId userId now).1 = s ∨
    ∃ rq, findById s.requests requestId = some rq ∧ rq.receiverId = userId ∧
      (rejectConnectionRequest s requestId userId now).1 =
        { requests := (saveRequest s.requests rq
            { rq with status := .rejected, respondedAt := some now } now).1,
          connections := s.connections } := by
  cases hfind : findById s.requests requestId with
  | none =>
    left
    unfold rejectConnectionRequest
    simp only [hfind]
  | some rq =>
    by_cases hrecv : rq.receiverId = userId
    · right
      refine ⟨rq, rfl, hrecv, ?_⟩
      have hcmp : (rq.receiverId != userId) = false := by simpa using hrecv
      unfold rejectConnectionRequest
      simp only [hfind, hcmp, Bool.false_eq_true, if_false]
    · left
      have hcmp : (rq.receiverId != userId) = true := by simpa using hrecv
      unfold rejectConnectionRequest
      simp only [hfind, hcmp, if_true]

theorem findById_some (requests : List ConnectionRequest) (requestId : ObjectId)
    (rq : ConnectionRequest) (h : findById requests requestId = some rq) :
    rq ∈ requests ∧ rq._id = requestId := by
  unfold findById at h
  exact ⟨List.mem_of_find?_eq_some h, by simpa using List.find?_some h⟩

end BlogBackend

namespace BlogBackend

/-! ## Invariants of the reachable stores -/

theorem step_requests_ids (s : Store) (op : Op) :
    (step s op).requests.map (·._id) = s.requests.map (·._id) ∨
    ∃ a b m now, op = .send a b m now ∧ ¬ hasPending s a b ∧
      (step s op).requests =
        s.requests ++ [newConnectionRequest (s.requests.map (·._id)) a b m now] ∧
      (step s op).connections = s.connections := by
  cases op with
  | send a b m now =>
    rcases sendConnectionRequest_cases s a b m now with h | ⟨hp, h⟩
    · left; simp only [step, h]
    · right; exact ⟨a, b, m, now, rfl, hp, by simp only [step, h], by simp only [step, h]⟩
  | accept requestId userId now =>
    left
    rcases acceptConnectionRequest_cases s requestId userId now with h | ⟨rq, _, _, h, _⟩
    · simp only [step, h]
    · simp only [step, h]
      exact map_id_saveRequest _ _ _ _
  | reject requestId userId now =>
    left
    rcases rejectConnectionRequest_cases s requestId userId now with h | ⟨rq, _, _, h⟩
    · simp only [step, h]
    · simp only [step, h]
      exact map_id_saveRequest _ _ _ _
  | remove userId connectedUserId =>
    left
    rfl

theorem step_uniqueRequestIds (s : Store) (op : Op) (h : uniqueRequestIds s) :
    uniqueRequestIds (step s op) := by
  unfold uniqueRequestIds at *
  rcases step_requests_ids s op with hids | ⟨a, b, m, now, _, _, hreq, _⟩
  · rw [hids]; exact h
  · rw [hreq, List.map_append, List.map_singleton]
    refine List.Nodup.append h (List.nodup_singleton _) ?_
    intro x hx hx'
    rw [List.mem_singleton] at hx'
    subst hx'
    exact newObjectId_not_mem _ hx

/-- An invariant of every call holds after every sequence of calls. -/
theorem run_invariant (P : Store → Prop) (hstep : ∀ s op, P s → P (step s op))
    (s : Store) (ops : List Op) (h : P s) : P (run s ops) := by
  induction ops generalizing s with
  | nil => exact h
  | cons op ops ih => exact ih (step s op) (hstep s op h)

theorem run_uniqueRequestIds (ops : List Op) : uniqueRequestIds (run emptyStore ops) :=
  run_invariant uniqueRequestIds step_uniqueRequestIds emptyStore ops
    (by unfold uniqueRequestIds emptyStore; exact List.nodup_nil)

end BlogBackend

namespace BlogBackend

/-- How `saveRequest` with a new status treats a stored request `r`, given unique
identifiers: `r` stays, or `r` is the loaded document and is replaced by the saved one. -/
theorem saveRequest_fate (requests : List ConnectionRequest)
    (loaded doc r : ConnectionRequest) (now : Date)
    (hloaded : loaded ∈ requests) (huniq : (requests.map (·._id)).Nodup)
    (hid : doc._id = loaded._id) (hmem : r ∈ requests) :
    (r ≠ loaded ∧ r ∈ (saveRequest requests loaded doc now).1) ∨
    (r = loaded ∧ (saveRequest requests loaded doc now).2 ∈
      (saveRequest requests loaded doc now).1) := by
  rw [saveRequest_fst_eq_map requests loaded doc now hloaded huniq hid]
  by_cases hr : r = loaded
  · right
    refine ⟨hr, List.mem_map.mpr ⟨loaded, hloaded, by simp⟩⟩
  · left
    refine ⟨hr, List.mem_map.mpr ⟨r, hmem, ?_⟩⟩
    have hne : r._id ≠ loaded._id := fun h =>
      hr (List.inj_on_of_nodup_map huniq hmem hloaded h)
    simp [hne]

/-- What one call does to a stored request, given unique identifiers. -/
theorem step_request_fate (s : Store) (op : Op) (r : ConnectionRequest)
    (huniq : uniqueRequestIds s) (hmem : r ∈ s.requests) :
    ∃ r' ∈ (step s op).requests,
      r'._id = r._id ∧ r'.senderId = r.senderId ∧ r'.receiverId = r.receiverId ∧
      (r' = r ∨
        (∃ now, op = .accept r._id r.receiverId now ∧
          r'.status = .accepted ∧ r'.respondedAt = some now) ∨
        (∃ now, op = .reject r._id r.receiverId now ∧
          r'.status = .rejected ∧ r'.respondedAt = some now)) := by
  cases op with
  | send a b m now =>
    refine ⟨r, ?_, rfl, rfl, rfl, Or.inl rfl⟩
    rcases sendConnectionRequest_cases s a b m now with h | ⟨_, h⟩
    · simp only [step, h]; exact hmem
    · simp only [step, h]; exact List.mem_append_left _ hmem
  | remove userId connectedUserId =>
    exact ⟨r, hmem, rfl, rfl, rfl, Or.inl rfl⟩
  | accept requestId userId now =>
    rcases acceptConnectionRequest_cases s requestId userId now with h | ⟨rq, hf, hrecv, h, _⟩
    · refine ⟨r, ?_, rfl, rfl, rfl, Or.inl rfl⟩
      simp only [step, h]; exact hmem
    · obtain ⟨hrq, hrqid⟩ := findById_some _ _ _ hf
      have hflds := saveRequest_snd_fields s.requests rq
        { rq with status := .accepted, respondedAt := some now } now
      rcases saveRequest_fate s.requests rq
          { rq with status := .accepted, respondedAt := some now } r now hrq huniq rfl hmem
        with ⟨_, hin⟩ | ⟨heq, hin⟩
      · refine ⟨r, ?_, rfl, rfl, rfl, Or.inl rfl⟩
        simp only [step, h]; exact hin
      · subst heq
        refine ⟨_, ?_, hflds.1, hflds.2.1, hflds.2.2.1, Or.inr (Or.inl ⟨now, ?_,
          hflds.2.2.2.1, hflds.2.2.2.2.2.2.1⟩)⟩
        · simp only [step, h]; exact hin
        · rw [hrqid, hrecv]
  | reject requestId userId now =>
    rcases rejectConnectionRequest_cases s requestId userId now with h | ⟨rq, hf, hrecv, h⟩
    · refine ⟨r, ?_, rfl, rfl, rfl, Or.inl rfl⟩
      simp only [step, h]; exact hmem
    · obtain ⟨hrq, hrqid⟩ := findById_some _ _ _ hf
      have hflds := saveRequest_snd_fields s.requests rq
        { rq with status := .rejected, respondedAt := some now } now
      rcases saveRequest_fate s.requests rq
          { rq with status := .rejected, respondedAt := some now } r now hrq huniq rfl hmem
        with ⟨_, hin⟩ | ⟨heq, hin⟩
      · refine ⟨r, ?_, rfl, rfl, rfl, Or.inl rfl⟩
        simp only [step, h]; exact hin
      · subst heq
        refine ⟨_, ?_, hflds.1, hflds.2.1, hflds.2.2.1, Or.inr (Or.inr ⟨now, ?_,
          hflds.2.2.2.1, hflds.2.2.2.2.2.2.1⟩)⟩
        · simp only [step, h]; exact hin
        · rw [hrqid, hrecv]

/-- C11, as stated, fails on the code: neither handler looks at the old status. After
`send 1 → 2` and a reject by 2 the request is `rejected`; a later accept by 2 answers
200 and turns it into `accepted`; a later reject turns it back into `rejected`. -/
theorem status_change_counterexample :
    (findById (run emptyStore [.send 1 2 none 1, .reject 1 2 2]).requests 1).map (·.status)
      = some .rejected ∧
    (acceptConnectionRequest (run emptyStore [.send 1 2 none 1, .reject 1 2 2]) 1 2 3).2.code
      = 200 ∧
    (findById (run emptyStore [.send 1 2 none 1, .reject 1 2 2, .accept 1 2 3]).requests
      1).map (·.status) = some .accepted ∧
    (findById (run emptyStore
      [.send 1 2 none 1, .reject 1 2 2, .accept 1 2 3, .reject 1 2 4]).requests
      1).map (·.status) = some .rejected := by
  decide

/-- C11, amended: for every call `op` of `sendConnectionRequest`,
`acceptConnectionRequest`, `rejectConnectionRequest` or `removeConnection` and every
stored request `r`, the request stored under `r._id` after the call, `r'`, has the
sender and receiver of `r` and either is `r` itself, or `op` is an accept of `r._id` by
`r.receiverId` and `r'` has status `accepted`, or `op` is a reject of `r._id` by
`r.receiverId` and `r'` has status `rejected`. A status therefore only ever changes to
`accepted` or `rejected`, whatever the old status was. -/
theorem status_change (s : Store) (op : Op) (r : ConnectionRequest)
    (huniq : uniqueRequestIds s) (hmem : r ∈ s.requests) :
    ∃ r' ∈ (step s op).requests,
      r'._id = r._id ∧ r'.senderId = r.senderId ∧ r'.receiverId = r.receiverId ∧
      (r' = r ∨
        (∃ now, op = .accept r._id r.receiverId now ∧
          r'.status = .accepted ∧ r'.respondedAt = some now) ∨
        (∃ now, op = .reject r._id r.receiverId now ∧
          r'.status = .rejected ∧ r'.respondedAt = some now)) := by
  obtain ⟨r', hin, hid, hsender, hreceiver, hfate⟩ := step_request_fate s op r huniq hmem
  exact ⟨r', hin, hid, hsender, hreceiver, hfate⟩

theorem status_change_witness :
    ∃ r' ∈ (step
        { requests := [{ _id := 1, senderId := 1, receiverId := 2, status := .pending,
                         message := "", sentAt := 1, respondedAt := none,
                         createdAt := 1, updatedAt := 1 }],
          connections := [] } (.accept 1 2 5)).requests,
      r'._id = 1 ∧ r'.senderId = 1 ∧ r'.receiverId = 2 ∧
      (r' = { _id := 1, senderId := 1, receiverId := 2, status := .pending,
              message := "", sentAt := 1, respondedAt := none,
              createdAt := 1, updatedAt := 1 } ∨
        (∃ now, Op.accept 1 2 5 = .accept 1 2 now ∧
          r'.status = .accepted ∧ r'.respondedAt = some now) ∨
        (∃ now, Op.accept 1 2 5 = .reject 1 2 now ∧
          r'.status = .rejected ∧ r'.respondedAt = some now)) :=
  status_change
    { requests := [{ _id := 1, senderId := 1, receiverId := 2, status := .pending,
                     message := "", sentAt := 1, respondedAt := none,
                     createdAt := 1, updatedAt := 1 }],
      connections := [] } (.accept 1 2 5)
    { _id := 1, senderId := 1, receiverId := 2, status := .pending,
      message := "", sentAt := 1, respondedAt := none, createdAt := 1, updatedAt := 1 }
    (by decide) (by decide)

end BlogBackend

namespace BlogBackend

theorem countP_updateOne_le (p : ConnectionRequest → Bool)
    (requests : List ConnectionRequest) (doc : ConnectionRequest) (hdoc : p doc = false) :
    (updateOne requests doc).countP p ≤ requests.countP p := by
  induction requests with
  | nil => exact Nat.le_refl _
  | cons x xs ih =>
    unfold updateOne
    by_cases hx : x._id = doc._id
    · simp only [hx, beq_self_eq_true, if_true, List.countP_cons, hdoc,
        Bool.false_eq_true, if_false, Nat.add_zero]
      omega
    · have hx' : (x._id == doc._id) = false := by simpa using hx
      simp only [hx', Bool.false_eq_true, if_false, List.countP_cons]
      omega

theorem countP_saveRequest_le (p : ConnectionRequest → Bool)
    (requests : List ConnectionRequest) (loaded doc : ConnectionRequest) (now : Date)
    (hdoc : p { doc with updatedAt := now } = false) :
    (saveRequest requests loaded doc now).1.countP p ≤ requests.countP p := by
  unfold saveRequest
  split
  · exact Nat.le_refl _
  · exact countP_updateOne_le p requests _ hdoc

theorem step_pending_count (s : Store) (op : Op)
    (h : ∀ a b, s.requests.countP (fun r =>
      r.senderId == a && r.receiverId == b && r.status == .pending) ≤ 1) :
    ∀ a b, (step s op).requests.countP (fun r =>
      r.senderId == a && r.receiverId == b && r.status == .pending) ≤ 1 := by
  intro a b
  cases op with
  | send a' b' m now =>
    rcases sendConnectionRequest_cases s a' b' m now with hs | ⟨hp, hs⟩
    · simp only [step, hs]; exact h a b
    · simp only [step, hs, List.countP_append, List.countP_cons, List.countP_nil]
      by_cases hab : a' = a ∧ b' = b
      · obtain ⟨rfl, rfl⟩ := hab
        have hzero : s.requests.countP (fun r =>
            r.senderId == a' && r.receiverId == b' && r.status == .pending) = 0 := by
          rw [List.countP_eq_zero]
          intro x hx hpx
          simp only [Bool.and_eq_true, beq_iff_eq] at hpx
          exact hp ⟨x, hx, hpx.1.1, hpx.1.2, hpx.2⟩
        rw [hzero]
        split <;> omega
      · have hnew : ((newConnectionRequest (s.requests.map (·._id)) a' b' m now).senderId == a &&
            (newConnectionRequest (s.requests.map (·._id)) a' b' m now).receiverId == b &&
            (newConnectionRequest (s.requests.map (·._id)) a' b' m now).status ==
              RequestStatus.pending) = false := by
          simp only [newConnectionRequest, Bool.and_eq_false_iff, beq_eq_false_iff_ne, ne_eq]
          by_cases ha : a' = a
          · exact Or.inl (Or.inr fun hb => hab ⟨ha, hb⟩)
          · exact Or.inl (Or.inl ha)
        simp only [hnew, Bool.false_eq_true, if_false, Nat.add_zero, Nat.zero_add]
        exact h a b
  | accept requestId userId now =>
    rcases acceptConnectionRequest_cases s requestId userId now with hs | ⟨rq, _, _, hs, _⟩
    · simp only [step, hs]; exact h a b
    · simp only [step, hs]
      exact le_trans (countP_saveRequest_le _ _ _ _ _ (by simp)) (h a b)
  | reject requestId userId now =>
    rcases rejectConnectionRequest_cases s requestId userId now with hs | ⟨rq, _, _, hs⟩
    · simp only [step, hs]; exact h a b
    · simp only [step, hs]
      exact le_trans (countP_saveRequest_le _ _ _ _ _ (by simp)) (h a b)
  | remove userId connectedUserId => exact h a b

/-- C12: in every store reached from the empty store by a sequence of
`sendConnectionRequest`, `acceptConnectionRequest`, `rejectConnectionRequest` and
`removeConnection` calls, every ordered pair (sender, receiver) has at most one
ConnectionRequest with status `pending`. -/
theorem reachable_at_most_one_pending (ops : List Op) (sender receiver : ObjectId) :
    ((run emptyStore ops).requests.filter (fun r =>
      r.senderId == sender && r.receiverId == receiver && r.status == .pending)).length
      ≤ 1 := by
  rw [← List.countP_eq_length_filter]
  exact run_invariant
    (fun s => ∀ a b, s.requests.countP (fun r =>
      r.senderId == a && r.receiverId == b && r.status == .pending) ≤ 1)
    step_pending_count emptyStore ops (fun _ _ => by simp [emptyStore]) sender receiver

end BlogBackend

namespace BlogBackend

/-- The ways one call changes the Connection collection: not at all; `removeConnection`
filters out both directions of a pair; an accept appends the row (a, u) alone, the
insert of (u, a) having been refused by the unique index; an accept appends both rows. -/
theorem step_connections_cases (s : Store) (op : Op) :
    (step s op).connections = s.connections ∨
    (∃ u v, (step s op).connections = s.connections.filter (fun c =>
        !((c.userId == u && c.connectedUserId == v) ||
          (c.userId == v && c.connectedUserId == u)))) ∨
    (∃ c1 : Connection, (step s op).connections = s.connections ++ [c1] ∧
      (∀ c ∈ s.connections,
        ¬ (c.userId = c1.userId ∧ c.connectedUserId = c1.connectedUserId)) ∧
      ∃ c ∈ s.connections ++ [c1],
        c.userId = c1.connectedUserId ∧ c.connectedUserId = c1.userId) ∨
    (∃ c1 c2 : Connection, (step s op).connections = s.connections ++ [c1, c2] ∧
      c2.userId = c1.connectedUserId ∧ c2.connectedUserId = c1.userId ∧
      c1.userId ≠ c1.connectedUserId ∧
      ∀ c ∈ s.connections,
        ¬ (c.userId = c1.userId ∧ c.connectedUserId = c1.connectedUserId) ∧
        ¬ (c.userId = c2.userId ∧ c.connectedUserId = c2.connectedUserId)) := by
  cases op with
  | send a b m now =>
    left
    rcases sendConnectionRequest_cases s a b m now with h | ⟨_, h⟩ <;> simp only [step, h]
  | reject requestId userId now =>
    left
    rcases rejectConnectionRequest_cases s requestId userId now with h | ⟨_, _, _, h⟩ <;>
      simp only [step, h]
  | remove u v =>
    right; left
    exact ⟨u, v, rfl⟩
  | accept requestId userId now =>
    rcases acceptConnectionRequest_cases s requestId userId now with
      h | ⟨rq, _, _, _, ⟨h, _⟩ | ⟨h, hno, hex⟩ | ⟨h, hno, hne⟩⟩
    · left; simp only [step, h]
    · left; simp only [step, h]
    · right; right; left
      exact ⟨_, h, hno, hex⟩
    · right; right; right
      exact ⟨_, _, h, rfl, rfl, hne, hno⟩

theorem step_symmetric (s : Store) (op : Op)
    (h : ∀ a b, hasConnection s a b → hasConnection s b a) :
    ∀ a b, hasConnection (step s op) a b → hasConnection (step s op) b a := by
  intro a b
  unfold hasConnection at *
  rcases step_connections_cases s op with
    hc | ⟨u, v, hc⟩ | ⟨c1, hc, _, hex⟩ | ⟨c1, c2, hc, h2u, h2c, _, _⟩
  · rw [hc]; exact h a b
  · rw [hc]
    rintro ⟨c, hmem, hu, hv⟩
    rw [List.mem_filter] at hmem
    obtain ⟨d, hd, hdu, hdv⟩ := h a b ⟨c, hmem.1, hu, hv⟩
    refine ⟨d, List.mem_filter.mpr ⟨hd, ?_⟩, hdu, hdv⟩
    have hkeep := hmem.2
    simp only [hu, hv, hdu, hdv, Bool.not_eq_true', Bool.or_eq_false_iff,
      Bool.and_eq_false_iff, beq_eq_false_iff_ne, ne_eq] at hkeep ⊢
    exact ⟨hkeep.2.symm, hkeep.1.symm⟩
  · rw [hc]
    rintro ⟨c, hmem, hu, hv⟩
    rcases List.mem_append.mp hmem with hold | hnew
    · obtain ⟨d, hd, hdu, hdv⟩ := h a b ⟨c, hold, hu, hv⟩
      exact ⟨d, List.mem_append_left _ hd, hdu, hdv⟩
    · rw [List.mem_singleton] at hnew
      subst hnew
      obtain ⟨d, hd, hdu, hdv⟩ := hex
      exact ⟨d, hd, hdu.trans hv, hdv.trans hu⟩
  · rw [hc]
    rintro ⟨c, hmem, hu, hv⟩
    rcases List.mem_append.mp hmem with hold | hnew
    · obtain ⟨d, hd, hdu, hdv⟩ := h a b ⟨c, hold, hu, hv⟩
      exact ⟨d, List.mem_append_left _ hd, hdu, hdv⟩
    · simp only [List.mem_cons, List.mem_singleton, List.not_mem_nil, or_false] at hnew
      rcases hnew with rfl | rfl
      · exact ⟨c2, by simp, h2u.trans hv, h2c.trans hu⟩
      · exact ⟨c1, by simp, by rw [← hv, h2c], by rw [← hu, h2u]⟩

/-- C13: in every store reached from the empty store by a sequence of the four
connection operations, where a Connection insert either succeeds or is refused by the
unique index on (owner, peer), the Connection rows are symmetric: a row
(owner = A, peer = B) exists if and only if a row (owner = B, peer = A) exists. -/
theorem reachable_symmetric (ops : List Op) (A B : ObjectId) :
    hasConnection (run emptyStore ops) A B ↔ hasConnection (run emptyStore ops) B A := by
  have hsym := run_invariant
    (fun s => ∀ a b, hasConnection s a b → hasConnection s b a)
    step_symmetric emptyStore ops
    (by rintro a b ⟨c, hc, _⟩; simp [emptyStore] at hc)
  exact ⟨hsym A B, hsym B A⟩

end BlogBackend

namespace BlogBackend

theorem step_unique_pairs (s : Store) (op : Op)
    (h : (s.connections.map (fun c => (c.userId, c.connectedUserId))).Nodup) :
    ((step s op).connections.map (fun c => (c.userId, c.connectedUserId))).Nodup := by
  rcases step_connections_cases s op with
    hc | ⟨u, v, hc⟩ | ⟨c1, hc, hno, _⟩ | ⟨c1, c2, hc, h2u, h2c, hne, hno⟩
  · rw [hc]; exact h
  · rw [hc]
    exact List.Nodup.sublist (List.Sublist.map _ (List.filter_sublist _)) h
  · rw [hc, List.map_append, List.map_singleton]
    refine List.Nodup.append h (List.nodup_singleton _) ?_
    intro p hp hp'
    rw [List.mem_singleton] at hp'
    subst hp'
    obtain ⟨c, hcm, hceq⟩ := List.mem_map.mp hp
    rw [Prod.mk.injEq] at hceq
    exact hno c hcm hceq
  · rw [hc, List.map_append]
    refine List.Nodup.append h ?_ ?_
    · simp only [List.map_cons, List.map_nil, List.nodup_cons, List.mem_singleton,
        Prod.mk.injEq, List.not_mem_nil, not_false_eq_true, List.nodup_nil, and_true]
      intro heq
      exact hne (heq.1.trans h2u)
    · intro p hp hp'
      obtain ⟨c, hcm, hceq⟩ := List.mem_map.mp hp
      simp only [List.map_cons, List.map_nil, List.mem_cons, List.mem_singleton,
        List.not_mem_nil, or_false] at hp'
      rcases hp' with rfl | rfl
      · rw [Prod.mk.injEq] at hceq
        exact (hno c hcm).1 hceq
      · rw [Prod.mk.injEq] at hceq
        exact (hno c hcm).2 hceq

theorem length_filter_links_le (connections : List Connection) (A B : ObjectId)
    (h : (connections.map (fun c => (c.userId, c.connectedUserId))).Nodup) :
    (connections.filter (fun c =>
      (c.userId == A && c.connectedUserId == B) ||
      (c.userId == B && c.connectedUserId == A))).length ≤ 2 := by
  have hnd : ((connections.filter (fun c =>
      (c.userId == A && c.connectedUserId == B) ||
      (c.userId == B && c.connectedUserId == A))).map
      (fun c => (c.userId, c.connectedUserId))).Nodup :=
    List.Nodup.sublist (List.Sublist.map _ (List.filter_sublist _)) h
  have hsub : (connections.filter (fun c =>
      (c.userId == A && c.connectedUserId == B) ||
      (c.userId == B && c.connectedUserId == A))).map
      (fun c => (c.userId, c.connectedUserId)) ⊆ [(A, B), (B, A)] := by
    intro p hp
    obtain ⟨c, hcm, rfl⟩ := List.mem_map.mp hp
    have hpred := (List.mem_filter.mp hcm).2
    simp only [Bool.or_eq_true, Bool.and_eq_true, beq_iff_eq] at hpred
    rcases hpred with ⟨h1, h2⟩ | ⟨h1, h2⟩ <;> simp [h1, h2]
  have hlen := (List.subperm_of_subset hnd hsub).length_le
  simpa using hlen

/-- C14: in every store reached from the empty store by a sequence of the four
connection operations, no two Connection rows have the same (owner, peer) pair, and so
at most two rows link any A and B; in particular, after two mutually pending requests
1 → 2 and 2 → 1 are accepted one after the other, two rows link 1 and 2, not four. -/
theorem reachable_unique_pairs (ops : List Op) :
    ((run emptyStore ops).connections.map
      (fun c => (c.userId, c.connectedUserId))).Nodup ∧
    (∀ A B, ((run emptyStore ops).connections.filter (fun c =>
      (c.userId == A && c.connectedUserId == B) ||
      (c.userId == B && c.connectedUserId == A))).length ≤ 2) ∧
    ((run emptyStore
        [.send 1 2 none 1, .send 2 1 none 2, .accept 1 2 3, .accept 2 1 4]).connections.map
      (fun c => (c.userId, c.connectedUserId)) = [(1, 2), (2, 1)]) := by
  have hnd := run_invariant
    (fun s => (s.connections.map (fun c => (c.userId, c.connectedUserId))).Nodup)
    step_unique_pairs emptyStore ops (by simp [emptyStore])
  exact ⟨hnd, fun A B => length_filter_links_le _ A B hnd, by decide⟩

end BlogBackend

namespace BlogBackend

/-- A Connection row after one call was there before, or the call was an accept that
left the accepted request between the row's two users in the store. -/
theorem step_connection_origin (s : Store) (op : Op) (huniq : uniqueRequestIds s)
    (c : Connection) (hc : c ∈ (step s op).connections) :
    c ∈ s.connections ∨
    ∃ r ∈ (step s op).requests, r.status = .accepted ∧
      ((r.senderId = c.userId ∧ r.receiverId = c.connectedUserId) ∨
        (r.senderId = c.connectedUserId ∧ r.receiverId = c.userId)) := by
  cases op with
  | send a b m now =>
    left
    rcases sendConnectionRequest_cases s a b m now with h | ⟨_, h⟩ <;>
      simpa only [step, h] using hc
  | reject requestId userId now =>
    left
    rcases rejectConnectionRequest_cases s requestId userId now with h | ⟨_, _, _, h⟩ <;>
      simpa only [step, h] using hc
  | remove u v =>
    left
    exact (List.mem_filter.mp hc).1
  | accept requestId userId now =>
    rcases acceptConnectionRequest_cases s requestId userId now with
      h | ⟨rq, hf, hrecv, hreq, hconn⟩
    · left; simpa only [step, h] using hc
    · obtain ⟨hrq, _⟩ := findById_some _ _ _ hf
      have hflds := saveRequest_snd_fields s.requests rq
        { rq with status := .accepted, respondedAt := some now } now
      have hsaved : (saveRequest s.requests rq
          { rq with status := .accepted, respondedAt := some now } now).2 ∈
          (step s (.accept requestId userId now)).requests := by
        simp only [step, hreq]
        rcases saveRequest_fate s.requests rq
            { rq with status := .accepted, respondedAt := some now } rq now hrq huniq rfl hrq
          with ⟨hne, _⟩ | ⟨_, hin⟩
        · exact absurd rfl hne
        · exact hin
      simp only [step] at hc
      rcases hconn with ⟨h, _⟩ | ⟨h, _, _⟩ | ⟨h, _, _⟩
      · left; rw [h] at hc; exact hc
      · rw [h] at hc
        rcases List.mem_append.mp hc with hold | hnew
        · left; exact hold
        · right
          rw [List.mem_singleton] at hnew
          subst hnew
          exact ⟨_, hsaved, hflds.2.2.2.1, Or.inl ⟨hflds.2.1, hflds.2.2.1.trans hrecv⟩⟩
      · rw [h] at hc
        rcases List.mem_append.mp hc with hold | hnew
        · left; exact hold
        · simp only [List.mem_cons, List.mem_singleton, List.not_mem_nil, or_false] at hnew
          rcases hnew with rfl | rfl
          · right
            exact ⟨_, hsaved, hflds.2.2.2.1, Or.inl ⟨hflds.2.1, hflds.2.2.1.trans hrecv⟩⟩
          · right
            exact ⟨_, hsaved, hflds.2.2.2.1, Or.inr ⟨hflds.2.1, hflds.2.2.1.trans hrecv⟩⟩

end BlogBackend

namespace BlogBackend

theorem step_backed (s : Store) (op : Op)
    (h : uniqueRequestIds s ∧ ∀ c ∈ s.connections, ∃ r ∈ s.requests,
      (r.status = .accepted ∨ r.status = .rejected) ∧
      ((r.senderId = c.userId ∧ r.receiverId = c.connectedUserId) ∨
        (r.senderId = c.connectedUserId ∧ r.receiverId = c.userId))) :
    uniqueRequestIds (step s op) ∧ ∀ c ∈ (step s op).connections,
      ∃ r ∈ (step s op).requests,
        (r.status = .accepted ∨ r.status = .rejected) ∧
        ((r.senderId = c.userId ∧ r.receiverId = c.connectedUserId) ∨
          (r.senderId = c.connectedUserId ∧ r.receiverId = c.userId)) := by
  obtain ⟨huniq, hback⟩ := h
  refine ⟨step_uniqueRequestIds s op huniq, ?_⟩
  intro c hc
  rcases step_connection_origin s op huniq c hc with hold | ⟨r, hr, hacc, hbetween⟩
  · obtain ⟨r, hr, hstatus, hbetween⟩ := hback c hold
    obtain ⟨r', hr', _, hsender, hreceiver, hfate⟩ := step_request_fate s op r huniq hr
    refine ⟨r', hr', ?_, by rw [hsender, hreceiver]; exact hbetween⟩
    rcases hfate with rfl | ⟨_, _, hacc, _⟩ | ⟨_, _, hrej, _⟩
    · exact hstatus
    · exact Or.inl hacc
    · exact Or.inr hrej
  · exact ⟨r, hr, Or.inl hacc, hbetween⟩

/-- C15, as stated, fails on the code: `rejectConnectionRequest` does not look at the
old status and touches no Connection row. After `send 1 → 2`, an accept by 2 and a
reject of the same request by 2, the row (owner = 1, peer = 2) exists while no request
between 1 and 2 has status `accepted`. -/
theorem reachable_backed_counterexample :
    hasConnection (run emptyStore [.send 1 2 none 1, .accept 1 2 2, .reject 1 2 3]) 1 2 ∧
    ¬ ∃ r ∈ (run emptyStore [.send 1 2 none 1, .accept 1 2 2, .reject 1 2 3]).requests,
      r.status = .accepted ∧
      ((r.senderId = 1 ∧ r.receiverId = 2) ∨ (r.senderId = 2 ∧ r.receiverId = 1)) := by
  decide

/-- C15, amended: in every store reached from the empty store by a sequence of the four
connection operations, every Connection row (owner = A, peer = B) is backed by a request
that was responded to: some ConnectionRequest between A and B, in one direction or the
other, has status `accepted` or, when a later reject overwrote the acceptance,
`rejected`. -/
theorem reachable_backed (ops : List Op) (c : Connection)
    (hc : c ∈ (run emptyStore ops).connections) :
    ∃ r ∈ (run emptyStore ops).requests,
      (r.status = .accepted ∨ r.status = .rejected) ∧
      ((r.senderId = c.userId ∧ r.receiverId = c.connectedUserId) ∨
        (r.senderId = c.connectedUserId ∧ r.receiverId = c.userId)) := by
  have hinv := run_invariant
    (fun s => uniqueRequestIds s ∧ ∀ c ∈ s.connections, ∃ r ∈ s.requests,
      (r.status = .accepted ∨ r.status = .rejected) ∧
      ((r.senderId = c.userId ∧ r.receiverId = c.connectedUserId) ∨
        (r.senderId = c.connectedUserId ∧ r.receiverId = c.userId)))
    step_backed emptyStore ops
    ⟨by unfold uniqueRequestIds emptyStore; exact List.nodup_nil,
     by intro c hc; simp [emptyStore] at hc⟩
  exact hinv.2 c hc

theorem reachable_backed_witness :
    hasConnection (run emptyStore [.send 1 2 none 1, .accept 1 2 2]) 1 2 ∧
    ∃ r ∈ (run emptyStore [.send 1 2 none 1, .accept 1 2 2]).requests,
      (r.status = .accepted ∨ r.status = .rejected) ∧
      ((r.senderId = 1 ∧ r.receiverId = 2) ∨ (r.senderId = 2 ∧ r.receiverId = 1)) :=
  ⟨by decide,
   reachable_backed [.send 1 2 none 1, .accept 1 2 2]
     { _id := 1, userId := 1, connectedUserId := 2, status := .accepted,
       connectedAt := 2, createdAt := 2, updatedAt := 2 } (by decide)⟩

end BlogBackend

namespace BlogBackend

/-! ## Removing a connection -/

theorem not_hasConnection_removeConnection (s : Store) (A B a b : ObjectId)
    (h : (a = A ∧ b = B) ∨ (a = B ∧ b = A)) :
    ¬ hasConnection (removeConnection s A B).1 a b := by
  rintro ⟨c, hc, hu, hv⟩
  have hkeep := (List.mem_filter.mp hc).2
  rcases h with ⟨rfl, rfl⟩ | ⟨rfl, rfl⟩ <;> simp [hu, hv] at hkeep

/-- C16: `removeConnection` for A and B answers 200 with `success = true`; the new
Connection collection is the old one, in the old order, with exactly the rows
(owner = A, peer = B) and (owner = B, peer = A) filtered out: a row is in it exactly when
it was there before and is neither of those; the ConnectionRequest collection is
unchanged. -/
theorem removeConnection_frame (s : Store) (A B : ObjectId) :
    (removeConnection s A B).2 =
      { code := 200, success := true, message := "Connection removed successfully",
        data := none, error := none } ∧
    (removeConnection s A B).1.requests = s.requests ∧
    (removeConnection s A B).1.connections =
      s.connections.filter (fun c => decide
        (¬ (c.userId = A ∧ c.connectedUserId = B) ∧
          ¬ (c.userId = B ∧ c.connectedUserId = A))) ∧
    (∀ c, c ∈ (removeConnection s A B).1.connections ↔
      c ∈ s.connections ∧
        ¬ (c.userId = A ∧ c.connectedUserId = B) ∧
        ¬ (c.userId = B ∧ c.connectedUserId = A)) ∧
    ¬ hasConnection (removeConnection s A B).1 A B ∧
    ¬ hasConnection (removeConnection s A B).1 B A := by
  refine ⟨rfl, rfl, ?_, ?_,
    not_hasConnection_removeConnection s A B A B (Or.inl ⟨rfl, rfl⟩),
    not_hasConnection_removeConnection s A B B A (Or.inr ⟨rfl, rfl⟩)⟩
  · unfold removeConnection
    apply List.filter_congr
    intro c _
    rw [Bool.eq_iff_iff]
    simp only [Bool.not_eq_true', Bool.or_eq_false_iff, Bool.and_eq_false_iff,
      beq_eq_false_iff_ne, ne_eq, decide_eq_true_eq]
    tauto
  intro c
  unfold removeConnection
  simp only [List.mem_filter, Bool.not_eq_true', Bool.or_eq_false_iff,
    Bool.and_eq_false_iff, beq_eq_false_iff_ne, ne_eq]
  constructor
  · rintro ⟨hc, h1, h2⟩
    refine ⟨hc, ?_, ?_⟩
    · rintro ⟨e1, e2⟩
      rcases h1 with h | h
      · exact h e1
      · exact h e2
    · rintro ⟨e1, e2⟩
      rcases h2 with h | h
      · exact h e1
      · exact h e2
  · rintro ⟨hc, h1, h2⟩
    refine ⟨hc, ?_, ?_⟩
    · by_cases e1 : c.userId = A
      · exact Or.inr fun e2 => h1 ⟨e1, e2⟩
      · exact Or.inl e1
    · by_cases e1 : c.userId = B
      · exact Or.inr fun e2 => h2 ⟨e1, e2⟩
      · exact Or.inl e1

/-- C17: `removeConnection` is idempotent: a second call for the same A and B returns
the store of the first call unchanged, the two calls together yield what one call yields,
and the second call answers 200 with `success = true` like the first. -/
theorem removeConnection_idempotent (s : Store) (A B : ObjectId) :
    removeConnection (removeConnection s A B).1 A B = removeConnection s A B ∧
    (removeConnection (removeConnection s A B).1 A B).1 = (removeConnection s A B).1 ∧
    (removeConnection (removeConnection s A B).1 A B).2 =
      { code := 200, success := true, message := "Connection removed successfully",
        data := none, error := none } := by
  have hstore : (removeConnection (removeConnection s A B).1 A B).1 =
      (removeConnection s A B).1 := by
    unfold removeConnection
    simp only [List.filter_filter, Bool.and_self]
  refine ⟨?_, hstore, rfl⟩
  exact Prod.ext hstore rfl

/-- C18, as stated, fails on the code: with requests 1 → 2 and 2 → 1 both pending, 2
accepts the first, so 1 and 2 are connected through an accepted request; after
`removeConnection` for 1 and 2 the request 2 → 1 is still pending and
`getConnectionStatus` answers `pending_received` for (1, 2) and `pending_sent` for
(2, 1). -/
theorem getConnectionStatus_after_remove_counterexample :
    (getConnectionStatus
      (run emptyStore [.send 1 2 none 1, .send 2 1 none 2, .accept 1 2 3]) 1 2).status
      = "connected" ∧
    (getConnectionStatus
      (run emptyStore [.send 1 2 none 1, .send 2 1 none 2, .accept 1 2 3]) 2 1).status
      = "connected" ∧
    (getConnectionStatus
      (removeConnection
        (run emptyStore [.send 1 2 none 1, .send 2 1 none 2, .accept 1 2 3]) 1 2).1 1 2).status
      = "pending_received" ∧
    (getConnectionStatus
      (removeConnection
        (run emptyStore [.send 1 2 none 1, .send 2 1 none 2, .accept 1 2 3]) 1 2).1 2 1).status
      = "pending_sent" ∧
    ("pending_received" : String) ≠ "not_connected" ∧
    ("pending_sent" : String) ≠ "not_connected" := by
  decide

/-- C18, amended: in every store with no pending request between A and B in either
direction, so in particular for A and B connected through an accepted request with no
such pending request, after `removeConnection` for A and B `getConnectionStatus` answers
`not_connected` for (A, B) and for (B, A). -/
theorem getConnectionStatus_after_remove (s : Store) (A B : ObjectId)
    (hAB : ¬ hasPending s A B) (hBA : ¬ hasPending s B A) :
    getConnectionStatus (removeConnection s A B).1 A B =
      { code := 200, success := true, status := "not_connected" } ∧
    getConnectionStatus (removeConnection s A B).1 B A =
      { code := 200, success := true, status := "not_connected" } :=
  ⟨getConnectionStatus_not_connected _ A B
     (not_hasConnection_removeConnection s A B A B (Or.inl ⟨rfl, rfl⟩)) hAB hBA,
   getConnectionStatus_not_connected _ B A
     (not_hasConnection_removeConnection s A B B A (Or.inr ⟨rfl, rfl⟩)) hBA hAB⟩

theorem getConnectionStatus_after_remove_witness :
    (getConnectionStatus (run emptyStore [.send 1 2 none 1, .accept 1 2 2]) 1 2).status
      = "connected" ∧
    getConnectionStatus
        (removeConnection (run emptyStore [.send 1 2 none 1, .accept 1 2 2]) 1 2).1 1 2 =
      { code := 200, success := true, status := "not_connected" } ∧
    getConnectionStatus
        (removeConnection (run emptyStore [.send 1 2 none 1, .accept 1 2 2]) 1 2).1 2 1 =
      { code := 200, success := true, status := "not_connected" } :=
  ⟨by decide,
   getConnectionStatus_after_remove (run emptyStore [.send 1 2 none 1, .accept 1 2 2]) 1 2
     (by decide) (by decide)⟩

end BlogBackend

namespace BlogBackend

/-! ## The status against its reference decision -/

theorem getConnectionStatus_pending_self (s : Store) (a : ObjectId)
    (hconn : ¬ hasConnection s a a) (hsent : hasPending s a a) :
    getConnectionStatus s a a = { code := 200, success := true, status := "pending_sent" } := by
  unfold getConnectionStatus
  rw [find_owned_none s a a hconn]
  cases hf : s.requests.find? (fun r =>
      (r.senderId == a && r.receiverId == a && r.status == .pending) ||
      (r.senderId == a && r.receiverId == a && r.status == .pending)) with
  | none =>
    obtain ⟨r, hmem, h1, h2, h3⟩ := hsent
    exact absurd (List.find?_eq_none.mp hf r hmem) (by simp [h1, h2, h3])
  | some r =>
    have hp := List.find?_some hf
    simp only [Bool.or_self, Bool.and_eq_true, beq_iff_eq] at hp
    simp [hp.1.1]

/-! ## Listing the pending requests -/

/-- C20: `getPendingRequests` for R answers 200 with the populated image of a list
`rows` that is a rearrangement of exactly the stored ConnectionRequest rows with
receiver R and status `pending` (a row is in it if and only if it is such a stored row),
ordered by `sentAt` from newest to oldest; the reported count is the number of rows
returned. -/
theorem getPendingRequests_spec (s : Store) (users : List User) (R : ObjectId) :
    ∃ rows : List ConnectionRequest,
      (getPendingRequests s users R).data = rows.map (populateSender users) ∧
      rows.Perm (s.requests.filter (fun r => r.receiverId == R && r.status == .pending)) ∧
      (∀ r, r ∈ rows ↔ r ∈ s.requests ∧ r.receiverId = R ∧ r.status = .pending) ∧
      rows.Pairwise (fun x y => x.sentAt ≥ y.sentAt) ∧
      (getPendingRequests s users R).count = (getPendingRequests s users R).data.length ∧
      (getPendingRequests s users R).count = rows.length ∧
      (getPendingRequests s users R).code = 200 ∧
      (getPendingRequests s users R).success = true := by
  haveI : IsTotal ConnectionRequest (fun x y => x.sentAt ≥ y.sentAt) :=
    ⟨fun x y => Nat.le_total y.sentAt x.sentAt⟩
  haveI : IsTrans ConnectionRequest (fun x y => x.sentAt ≥ y.sentAt) :=
    ⟨fun _ _ _ hxy hyz => Nat.le_trans hyz hxy⟩
  have hperm : (sortBySentAtDesc (s.requests.filter (fun r =>
      r.receiverId == R && r.status == .pending))).Perm
      (s.requests.filter (fun r => r.receiverId == R && r.status == .pending)) :=
    List.perm_insertionSort _ _
  refine ⟨sortBySentAtDesc (s.requests.filter (fun r =>
      r.receiverId == R && r.status == .pending)), rfl, hperm, ?_, ?_, rfl, ?_, rfl, rfl⟩
  · intro r
    rw [hperm.mem_iff, List.mem_filter]
    simp only [Bool.and_eq_true, beq_iff_eq]
  · exact List.sorted_insertionSort _ _
  · simp [getPendingRequests]

end BlogBackend

namespace BlogBackend

/-! ## Available users -/

theorem mem_excludeIds (s : Store) (A x : ObjectId)
    (h : x = A ∨ hasConnection s A x ∨ hasPending s A x ∨ hasPending s x A) :
    x ∈ excludeIds s A := by
  unfold excludeIds
  simp only [List.mem_append, List.mem_singleton, List.mem_map, List.mem_filter]
  rcases h with h | ⟨c, hc, hu, hv⟩ | ⟨r, hr, h1, h2, h3⟩ | ⟨r, hr, h1, h2, h3⟩
  · exact Or.inl (Or.inl h)
  · exact Or.inl (Or.inr ⟨c, ⟨hc, by simp [hu]⟩, hv⟩)
  · exact Or.inr ⟨r, ⟨hr, by simp [h1, h3]⟩, by simp [h1, h2]⟩
  · refine Or.inr ⟨r, ⟨hr, by simp [h2, h3]⟩, ?_⟩
    by_cases hx : r.senderId = A
    · simp only [hx, beq_self_eq_true, if_true]
      rw [h2, ← h1, hx]
    · have hx' : (r.senderId == A) = false := by simpa using hx
      simp only [hx', Bool.false_eq_true, if_false]
      exact h1

theorem getAvailableUsers_data (regex : String → Option (String → Bool)) (s : Store)
    (users : List User) (A : ObjectId) (search userType : Option String) :
    (getAvailableUsers regex s users A search userType).data = [] ∨
    ∃ keep : User → Bool,
      (getAvailableUsers regex s users A search userType).data =
        ((users.filter (fun u => !(excludeIds s A).contains u._id && keep u)).take 20).map
          selectPublic := by
  unfold getAvailableUsers
  by_cases hs : truthy search = true
  · simp only [hs, if_true]
    cases hre : regex (search.getD "") with
    | none => left; rfl
    | some test =>
      right
      exact ⟨fun u => (if truthy userType then u.userType == userType.getD "" else true) &&
        (test u.name || (match u.profession with
          | some profession => test profession
          | none => false)), by simp only [Bool.and_assoc]⟩
  · simp only [hs, Bool.false_eq_true, if_false]
    right
    exact ⟨fun u => (if truthy userType then u.userType == userType.getD "" else true) &&
      true, by simp only [Bool.and_assoc]⟩

/-- C21: for every store, requester A and filters, every identity in the result of
`getAvailableUsers` differs from A, is no peer of a Connection row owned by A, and is not
the other party of a pending ConnectionRequest sent by A or sent to A; the result holds
at most 20 identities and the reported count is its length. -/
theorem getAvailableUsers_excludes (regex : String → Option (String → Bool)) (s : Store)
    (users : List User) (A : ObjectId) (search userType : Option String) :
    (∀ p ∈ (getAvailableUsers regex s users A search userType).data,
      p._id ≠ A ∧ ¬ hasConnection s A p._id ∧
      ¬ hasPending s A p._id ∧ ¬ hasPending s p._id A) ∧
    (getAvailableUsers regex s users A search userType).data.length ≤ 20 ∧
    (getAvailableUsers regex s users A search userType).count =
      (getAvailableUsers regex s users A search userType).data.length := by
  refine ⟨?_, ?_, ?_⟩
  · intro p hp
    rcases getAvailableUsers_data regex s users A search userType with h | ⟨keep, h⟩
    · rw [h] at hp; exact absurd hp (List.not_mem_nil _)
    · rw [h] at hp
      obtain ⟨u, hu, rfl⟩ := List.mem_map.mp hp
      have hfilter := (List.mem_filter.mp (List.mem_of_mem_take hu)).2
      have hnot : u._id ∉ excludeIds s A := by
        intro hin
        simp only [Bool.and_eq_true, Bool.not_eq_true', List.contains_eq_any_beq,
          List.any_eq_false, beq_iff_eq] at hfilter
        exact hfilter.1 _ hin rfl
      refine ⟨fun h => hnot (mem_excludeIds s A _ (Or.inl h)),
        fun h => hnot (mem_excludeIds s A _ (Or.inr (Or.inl h))),
        fun h => hnot (mem_excludeIds s A _ (Or.inr (Or.inr (Or.inl h)))),
        fun h => hnot (mem_excludeIds s A _ (Or.inr (Or.inr (Or.inr h))))⟩
  · rcases getAvailableUsers_data regex s users A search userType with h | ⟨keep, h⟩
    · rw [h]; simp
    · rw [h, List.length_map, List.length_take]
      exact Nat.min_le_left _ _
  · unfold getAvailableUsers
    by_cases hs : truthy search = true
    · simp only [hs, if_true]
      cases regex (search.getD "") <;> rfl
    · simp only [hs, Bool.false_eq_true, if_false]

end BlogBackend

namespace BlogBackend

/-! ## Self-requests, missing receiver, and the non-atomic accept -/

/-- C28: `sendConnectionRequest` applies no self-check. In a store with no Connection
row (owner = A, peer = A) and no pending request from A to A, `sendConnectionRequest`
from A to A answers 201 with `success = true` and appends one pending request whose
sender and receiver are both A. -/
theorem sendConnectionRequest_self (s : Store) (A : ObjectId) (message : Option String)
    (now : Date) (hconn : ¬ hasConnection s A A) (hpend : ¬ hasPending s A A) :
    ∃ r : ConnectionRequest,
      sendConnectionRequest s A A message now =
        ({ requests := s.requests ++ [r], connections := s.connections },
         { code := 201, success := true, message := "Connection request sent successfully",
           data := some r, error := none }) ∧
      r.senderId = A ∧ r.receiverId = A ∧ r.status = .pending ∧
      hasPending (sendConnectionRequest s A A message now).1 A A := by
  have hsend := sendConnectionRequest_of_clear s A A message now
    ((find_connection_none_iff s A A).mpr ⟨hconn, hconn⟩)
    ((find_pending_none_iff s A A).mpr hpend)
  refine ⟨newConnectionRequest (s.requests.map (·._id)) A A message now, hsend,
    rfl, rfl, rfl, ?_⟩
  rw [hsend]
  exact ⟨_, List.mem_append_right _ (List.mem_singleton.mpr rfl), rfl, rfl, rfl⟩

theorem sendConnectionRequest_self_witness :
    ∃ r : ConnectionRequest,
      sendConnectionRequest emptyStore 1 1 none 5 =
        ({ requests := emptyStore.requests ++ [r], connections := emptyStore.connections },
         { code := 201, success := true, message := "Connection request sent successfully",
           data := some r, error := none }) ∧
      r.senderId = 1 ∧ r.receiverId = 1 ∧ r.status = .pending ∧
      hasPending (sendConnectionRequest emptyStore 1 1 none 5).1 1 1 :=
  sendConnectionRequest_self emptyStore 1 none 5 (by decide) (by decide)

/-- C25, as stated, fails on the code: the handler validates nothing itself, so a missing
`receiverId` is only caught by the schema validator inside `save()`, whose error lands in
the `catch` block. On the empty store the answer is the generic 500
"Failed to send connection request", however the store reads an undefined filter value. -/
theorem sendConnectionRequest_missing_receiver_counterexample :
    sendConnectionRequestBody false emptyStore 1 none (some "hi") 5 =
      (emptyStore,
       { code := 500, success := false, message := "Failed to send connection request",
         data := none, error := some .validation }) ∧
    sendConnectionRequestBody true emptyStore 1 none (some "hi") 5 =
      (emptyStore,
       { code := 500, success := false, message := "Failed to send connection request",
         data := none, error := some .validation }) := by
  decide

/-- C25, amended: `sendConnectionRequest` called with `receiverId` missing creates no
ConnectionRequest (the store is returned unchanged) and answers with `success = false`
and no data. The answer is the generic server error of the `catch` block (500,
"Failed to send connection request", carrying the validation error), always so when an
undefined filter value matches no stored identifier; if the store drops undefined filter
values, one of the two existence checks may answer 400 first. There is no failure answer
of its own for the validation error. -/
theorem sendConnectionRequest_missing_receiver (undefinedMatchesAll : Bool) (s : Store)
    (A : ObjectId) (message : Option String) (now : Date) :
    (sendConnectionRequestBody undefinedMatchesAll s A none message now).1 = s ∧
    (sendConnectionRequestBody undefinedMatchesAll s A none message now).2.success = false ∧
    (sendConnectionRequestBody undefinedMatchesAll s A none message now).2.data = none ∧
    ((sendConnectionRequestBody undefinedMatchesAll s A none message now).2 =
        { code := 500, success := false, message := "Failed to send connection request",
          data := none, error := some .validation } ∨
      (undefinedMatchesAll = true ∧
        (sendConnectionRequestBody undefinedMatchesAll s A none message now).2.code = 400)) ∧
    sendConnectionRequestBody false s A none message now =
      (s, { code := 500, success := false, message := "Failed to send connection request",
            data := none, error := some .validation }) := by
  have hfalse : sendConnectionRequestBody false s A none message now =
      (s, { code := 500, success := false, message := "Failed to send connection request",
            data := none, error := some .validation }) := by
    unfold sendConnectionRequestBody
    simp only [Bool.and_false, Bool.false_and, Bool.or_self, List.find?_eq_none.mpr,
      Bool.false_eq_true, not_false_eq_true, implies_true]
    rfl
  cases undefinedMatchesAll with
  | false =>
    rw [hfalse]
    exact ⟨rfl, rfl, rfl, Or.inl rfl, rfl⟩
  | true =>
    refine ⟨?_, ?_, ?_, ?_, hfalse⟩ <;>
    · unfold sendConnectionRequestBody
      dsimp only
      split
      · first | rfl | exact Or.inr ⟨rfl, rfl⟩
      · split
        · first | rfl | exact Or.inr ⟨rfl, rfl⟩
        · first | rfl | exact Or.inl rfl

end BlogBackend

namespace BlogBackend

end BlogBackend

namespace BlogBackend

/-! ## Listing the connections -/

theorem filterThrowing_eq_filter (f : PopulatedConnection → Option Bool)
    (g : PopulatedConnection → Bool) (l : List PopulatedConnection)
    (h : ∀ x ∈ l, f x = some (g x)) :
    filterThrowing f l = some (l.filter g) := by
  induction l with
  | nil => rfl
  | cons x xs ih =>
    unfold filterThrowing
    rw [h x (List.mem_cons_self _ _), ih (fun y hy => h y (List.mem_cons_of_mem _ hy))]
    cases hg : g x <;> simp [List.filter, hg]

/-- The scan of `includes` finds `search` exactly when `search` is an infix of `text`. -/
theorem includes_iff (text search : String) :
    includes text search = true ↔ search.data <:+: text.data := by
  unfold includes
  rw [List.any_eq_true, List.infix_iff_prefix_suffix]
  constructor
  · rintro ⟨rest, hrest, hpre⟩
    exact ⟨rest, List.isPrefixOf_iff_prefix.mp hpre, (List.mem_tails _ _).mp hrest⟩
  · rintro ⟨rest, hpre, hsuf⟩
    exact ⟨rest, (List.mem_tails _ _).mpr hsuf, List.isPrefixOf_iff_prefix.mpr hpre⟩

theorem includes_eq_decide (toLowerCase : String → String) (text search : String) :
    includes (toLowerCase text) (toLowerCase search) =
      decide (caseInsensitiveSubstring toLowerCase search text) := by
  rw [Bool.eq_iff_iff, includes_iff, decide_eq_true_eq]
  rfl

theorem matchesFilters_of_peer (toLowerCase : String → String)
    (search userType : Option String) (conn : PopulatedConnection) (peer : User)
    (h : conn.connectedUserId = some peer) :
    matchesFilters toLowerCase search userType conn =
      some (satisfiesFilters toLowerCase search userType peer) := by
  unfold matchesFilters satisfiesFilters
  rw [h]
  dsimp only
  simp only [includes_eq_decide]
  cases search with
  | none =>
    cases userType with
    | none => simp [truthy]
    | some t => cases ht : (t == "") <;> simp [truthy, bne, ht]
  | some q =>
    cases hprof : peer.profession with
    | none =>
      cases userType with
      | none => cases hq : (q == "") <;> simp [truthy, bne, hq]
      | some t =>
        cases hq : (q == "") <;> cases ht : (t == "") <;> simp [truthy, bne, hq, ht]
    | some p =>
      cases userType with
      | none =>
        cases hq : (q == "") <;> cases hp : (p == "") <;> simp [truthy, bne, hq, hp]
      | some t =>
        cases hq : (q == "") <;> cases hp : (p == "") <;> cases ht : (t == "") <;>
          simp [truthy, bne, hq, hp, ht]

end BlogBackend

namespace BlogBackend

/-- The answer of `getConnections` when every peer of a row owned by the requester
exists. -/
theorem getConnections_of_peers (toLowerCase : String → String) (s : Store)
    (users : List User) (A : ObjectId) (search userType : Option String)
    (hpeers : ∀ c ∈ s.connections, c.userId = A →
      ∃ u, users.find? (fun u => u._id == c.connectedUserId) = some u) :
    getConnections toLowerCase s users A search userType =
      { code := 200, success := true, message := none,
        data := ((sortByConnectedAtDesc
            (s.connections.filter (fun c => c.userId == A))).map (populatePeer users)).filter
          (fun pc => match pc.connectedUserId with
            | some peer => satisfiesFilters toLowerCase search userType peer
            | none => false),
        count := (((sortByConnectedAtDesc
            (s.connections.filter (fun c => c.userId == A))).map (populatePeer users)).filter
          (fun pc => match pc.connectedUserId with
            | some peer => satisfiesFilters toLowerCase search userType peer
            | none => false)).length } := by
  have hall : ∀ x ∈ (sortByConnectedAtDesc
      (s.connections.filter (fun c => c.userId == A))).map (populatePeer users),
      matchesFilters toLowerCase search userType x =
        some (match x.connectedUserId with
          | some peer => satisfiesFilters toLowerCase search userType peer
          | none => false) := by
    intro x hx
    obtain ⟨c, hc, rfl⟩ := List.mem_map.mp hx
    have hc' : c ∈ s.connections.filter (fun c => c.userId == A) :=
      (List.perm_insertionSort _ _).mem_iff.mp hc
    obtain ⟨hmem, hown⟩ := List.mem_filter.mp hc'
    obtain ⟨u, hu⟩ := hpeers c hmem (by simpa using hown)
    have hpop : (populatePeer users c).connectedUserId = some u := hu
    rw [matchesFilters_of_peer toLowerCase search userType _ u hpop, hpop]
  unfold getConnections
  simp only [filterThrowing_eq_filter _ _ _ hall]

/-- C27: in a store where the peer of every Connection row owned by A exists as a user,
`getConnections` for A answers 200 with the populated image of the rows owned by A (a
rearrangement `rows` of exactly those rows, ordered by `connectedAt` from newest to
oldest), keeping the rows whose peer satisfies both filters: `search` absent or empty or a
case-insensitive substring of the peer's name or of its non-empty profession, and
`userType` absent or empty or equal to the peer's `userType`; the reported count is the
length of the returned list. -/
theorem getConnections_spec (toLowerCase : String → String) (s : Store)
    (users : List User) (A : ObjectId) (search userType : Option String)
    (hpeers : ∀ c ∈ s.connections, c.userId = A →
      ∃ u, users.find? (fun u => u._id == c.connectedUserId) = some u) :
    ∃ rows : List Connection,
      rows.Perm (s.connections.filter (fun c => c.userId == A)) ∧
      (∀ c, c ∈ rows ↔ c ∈ s.connections ∧ c.userId = A) ∧
      rows.Pairwise (fun x y => x.connectedAt ≥ y.connectedAt) ∧
      (getConnections toLowerCase s users A search userType).code = 200 ∧
      (getConnections toLowerCase s users A search userType).success = true ∧
      (getConnections toLowerCase s users A search userType).data =
        (rows.map (populatePeer users)).filter (fun pc =>
          match pc.connectedUserId with
          | some peer => satisfiesFilters toLowerCase search userType peer
          | none => false) ∧
      (getConnections toLowerCase s users A search userType).count =
        (getConnections toLowerCase s users A search userType).data.length := by
  haveI : IsTotal Connection (fun x y => x.connectedAt ≥ y.connectedAt) :=
    ⟨fun x y => Nat.le_total y.connectedAt x.connectedAt⟩
  haveI : IsTrans Connection (fun x y => x.connectedAt ≥ y.connectedAt) :=
    ⟨fun _ _ _ hxy hyz => Nat.le_trans hyz hxy⟩
  have hperm : (sortByConnectedAtDesc (s.connections.filter (fun c => c.userId == A))).Perm
      (s.connections.filter (fun c => c.userId == A)) := List.perm_insertionSort _ _
  rw [getConnections_of_peers toLowerCase s users A search userType hpeers]
  refine ⟨_, hperm, ?_, List.sorted_insertionSort _ _, rfl, rfl, rfl, rfl⟩
  intro c
  rw [hperm.mem_iff, List.mem_filter]
  simp only [beq_iff_eq]

end BlogBackend

namespace BlogBackend

theorem getConnections_spec_witness :
    (getConnections asciiLowerCase exampleNetwork exampleUsers 1 (some "AN")
        (some "professional")).data.map (fun pc => pc.connectedUserId.map (·._id)) =
      [some 3] ∧
    (getConnections asciiLowerCase exampleNetwork exampleUsers 1 (some "AN")
        none).data.map (fun pc => pc.connectedUserId.map (·._id)) = [some 3, some 2] ∧
    (getConnections asciiLowerCase exampleNetwork exampleUsers 1 none
        none).data.map (fun pc => pc.connectedUserId.map (·._id)) =
      [some 4, some 3, some 2] ∧
    ∃ rows : List Connection,
      rows.Perm (exampleNetwork.connections.filter (fun c => c.userId == 1)) ∧
      (∀ c, c ∈ rows ↔ c ∈ exampleNetwork.connections ∧ c.userId = 1) ∧
      rows.Pairwise (fun x y => x.connectedAt ≥ y.connectedAt) ∧
      (getConnections asciiLowerCase exampleNetwork exampleUsers 1 (some "AN")
        (some "professional")).code = 200 ∧
      (getConnections asciiLowerCase exampleNetwork exampleUsers 1 (some "AN")
        (some "professional")).success = true ∧
      (getConnections asciiLowerCase exampleNetwork exampleUsers 1 (some "AN")
        (some "professional")).data =
        (rows.map (populatePeer exampleUsers)).filter (fun pc =>
          match pc.connectedUserId with
          | some peer => satisfiesFilters asciiLowerCase (some "AN") (some "professional") peer
          | none => false) ∧
      (getConnections asciiLowerCase exampleNetwork exampleUsers 1 (some "AN")
        (some "professional")).count =
        (getConnections asciiLowerCase exampleNetwork exampleUsers 1 (some "AN")
          (some "professional")).data.length :=
  ⟨by decide, by decide, by decide,
   getConnections_spec asciiLowerCase exampleNetwork exampleUsers 1 (some "AN")
     (some "professional")
     (fun c hc hown => Option.isSome_iff_exists.mp
       ((by decide : ∀ c ∈ exampleNetwork.connections, c.userId = 1 →
          (exampleUsers.find? (fun u => u._id == c.connectedUserId)).isSome = true)
        c hc hown))⟩

/-! ## The end-to-end scenario -/

theorem scenario_stores (A B : ObjectId) (t1 t2 : Date) (hne : A ≠ B) :
    run emptyStore [.send A B (some "let's collaborate") t1] =
      { requests := [{ _id := 1, senderId := A, receiverId := B, status := .pending,
                       message := "let's collaborate", sentAt := t1, respondedAt := none,
                       createdAt := t1, updatedAt := t1 }],
        connections := [] } ∧
    run emptyStore [.send A B (some "let's collaborate") t1, .accept 1 B t2] =
      { requests := [{ _id := 1, senderId := A, receiverId := B, status := .accepted,
                       message := "let's collaborate", sentAt := t1, respondedAt := some t2,
                       createdAt := t1, updatedAt := t2 }],
        connections := [{ _id := 1, userId := A, connectedUserId := B, status := .accepted,
                          connectedAt := t2, createdAt := t2, updatedAt := t2 },
                        { _id := 2, userId := B, connectedUserId := A, status := .accepted,
                          connectedAt := t2, createdAt := t2, updatedAt := t2 }] } ∧
    run emptyStore
        [.send A B (some "let's collaborate") t1, .accept 1 B t2, .remove A B] =
      { requests := [{ _id := 1, senderId := A, receiverId := B, status := .accepted,
                       message := "let's collaborate", sentAt := t1, respondedAt := some t2,
                       createdAt := t1, updatedAt := t2 }],
        connections := [] } := by
  have hne' : B ≠ A := fun h => hne h.symm
  refine ⟨rfl, ?_, ?_⟩ <;>
    simp [run, step, emptyStore, sendConnectionRequest, insertRequest, newConnectionRequest,
      newObjectId, acceptConnectionRequest, findById, saveRequest, updateOne,
      insertConnection, newConnection, removeConnection, hne, hne']

end BlogBackend

namespace BlogBackend

/-- C22: from the empty store, for distinct identities A and B that exist as users: A
sends B a request with the message "let's collaborate" (it gets the `_id` 1); then
`getPendingRequests` for B returns exactly one entry, whose sender is A. After B accepts
it (the accept succeeds), `getConnections` returns for A exactly the connection to B and
for B exactly the connection to A. After `removeConnection` for A and B, `getConnections`
is empty for both. -/
theorem connection_scenario (toLowerCase : String → String) (users : List User)
    (A B : ObjectId) (uA uB : User) (t1 t2 : Date) (hne : A ≠ B)
    (hA : users.find? (fun u => u._id == A) = some uA)
    (hB : users.find? (fun u => u._id == B) = some uB) :
    (sendConnectionRequest emptyStore A B (some "let's collaborate") t1).2.data.map (·._id)
      = some 1 ∧
    (getPendingRequests (run emptyStore [.send A B (some "let's collaborate") t1])
      users B).count = 1 ∧
    (getPendingRequests (run emptyStore [.send A B (some "let's collaborate") t1])
      users B).data.map (·.senderId) = [some (selectPublic uA)] ∧
    (selectPublic uA)._id = A ∧
    (acceptConnectionRequest (run emptyStore [.send A B (some "let's collaborate") t1])
      1 B t2).2.success = true ∧
    (getConnections toLowerCase
      (run emptyStore [.send A B (some "let's collaborate") t1, .accept 1 B t2])
      users A none none).data.map (·.connectedUserId) = [some uB] ∧
    (getConnections toLowerCase
      (run emptyStore [.send A B (some "let's collaborate") t1, .accept 1 B t2])
      users B none none).data.map (·.connectedUserId) = [some uA] ∧
    uA._id = A ∧ uB._id = B ∧
    (getConnections toLowerCase
      (run emptyStore [.send A B (some "let's collaborate") t1, .accept 1 B t2, .remove A B])
      users A none none).data = [] ∧
    (getConnections toLowerCase
      (run emptyStore [.send A B (some "let's collaborate") t1, .accept 1 B t2, .remove A B])
      users B none none).data = [] := by
  have hne' : B ≠ A := fun h => hne h.symm
  obtain ⟨hs1, hs2, hs3⟩ := scenario_stores A B t1 t2 hne
  have hidA : uA._id = A := by simpa using List.find?_some hA
  have hidB : uB._id = B := by simpa using List.find?_some hB
  rw [hs1, hs2, hs3]
  refine ⟨rfl, ?_, ?_, hidA, ?_, ?_, ?_, hidA, hidB, ?_, ?_⟩
  · simp [getPendingRequests, sortBySentAtDesc]
  · simp [getPendingRequests, sortBySentAtDesc, populateSender, hA]
  · simp [acceptConnectionRequest, findById, saveRequest, updateOne, insertConnection,
      newConnection, newObjectId, hne, hne']
  · simp [getConnections, sortByConnectedAtDesc, populatePeer, filterThrowing,
      matchesFilters, truthy, hB, hne']
  · simp [getConnections, sortByConnectedAtDesc, populatePeer, filterThrowing,
      matchesFilters, truthy, hA, hne]
  · simp [getConnections, sortByConnectedAtDesc, filterThrowing]
  · simp [getConnections, sortByConnectedAtDesc, filterThrowing]

theorem connection_scenario_witness :
    (getPendingRequests (run emptyStore [.send 1 2 (some "let's collaborate") 1])
      [exampleUser 1 "ann" "h1", exampleUser 2 "bob" "h2"] 2).count = 1 ∧
    (getConnections id
      (run emptyStore [.send 1 2 (some "let's collaborate") 1, .accept 1 2 2])
      [exampleUser 1 "ann" "h1", exampleUser 2 "bob" "h2"] 1 none none).data.map
      (·.connectedUserId) = [some (exampleUser 2 "bob" "h2")] :=
  ⟨(connection_scenario id [exampleUser 1 "ann" "h1", exampleUser 2 "bob" "h2"] 1 2
      (exampleUser 1 "ann" "h1") (exampleUser 2 "bob" "h2") 1 2
      (by decide) (by decide) (by decide)).2.1,
   (connection_scenario id [exampleUser 1 "ann" "h1", exampleUser 2 "bob" "h2"] 1 2
      (exampleUser 1 "ann" "h1") (exampleUser 2 "bob" "h2") 1 2
      (by decide) (by decide) (by decide)).2.2.2.2.2.1⟩

end BlogBackend

namespace BlogBackend

/-! ## Credentials in the responses -/

theorem find_id_map_password (users : List User) (f : User → String) (x : ObjectId) :
    (users.map (fun u => { u with password := f u })).find? (fun u => u._id == x) =
      (users.find? (fun u => u._id == x)).map (fun u => { u with password := f u }) := by
  induction users with
  | nil => rfl
  | cons u us ih =>
    by_cases hu : u._id = x
    · simp [List.find?, hu]
    · have hu' : (u._id == x) = false := by simpa using hu
      simp only [List.map_cons, List.find?, hu']
      exact ih

/-- The answer of `getPendingRequests` does not depend on the stored passwords. -/
theorem getPendingRequests_password_independent (s : Store) (users : List User)
    (f : User → String) (R : ObjectId) :
    getPendingRequests s (users.map (fun u => { u with password := f u })) R =
      getPendingRequests s users R := by
  have hpop : populateSender (users.map (fun u => { u with password := f u })) =
      populateSender users := by
    funext r
    unfold populateSender
    rw [find_id_map_password]
    cases users.find? (fun u => u._id == r.senderId) <;> rfl
  unfold getPendingRequests
  rw [hpop]

/-- The answer of `getAvailableUsers` does not depend on the stored passwords. -/
theorem getAvailableUsers_password_independent (regex : String → Option (String → Bool))
    (s : Store) (users : List User) (f : User → String) (A : ObjectId)
    (search userType : Option String) :
    getAvailableUsers regex s (users.map (fun u => { u with password := f u })) A
        search userType =
      getAvailableUsers regex s users A search userType := by
  have hkey : ∀ keep : User → Bool,
      (∀ u : User, keep { u with password := f u } = keep u) →
      (((users.map (fun u => { u with password := f u })).filter keep).take 20).map
          selectPublic =
        ((users.filter keep).take 20).map selectPublic := by
    intro keep hkeep
    rw [List.filter_map, ← List.map_take, List.map_map]
    have hfun : (keep ∘ fun u => { u with password := f u }) = keep := funext hkeep
    rw [hfun]
    rfl
  unfold getAvailableUsers
  by_cases hs : truthy search = true
  · simp only [hs, if_true]
    cases regex (search.getD "") with
    | none => rfl
    | some test =>
      dsimp only
      refine congrArg
        (fun d : List PublicProfile => UsersResponse.mk 200 true none d d.length)
        (hkey _ ?_)
      intro u
      rfl
  · simp only [hs, Bool.false_eq_true, if_false]
    refine congrArg
      (fun d : List PublicProfile => UsersResponse.mk 200 true none d d.length)
      (hkey _ ?_)
    intro u
    rfl

/-- C23 fails on the code for `getConnections`: it populates `connectedUserId` without a
field selection, so the peer is embedded with its stored bcrypt hash. After
`send 1 → 2` and the accept by 2, the answer to user 1 carries the password field "h2"
of user 2, and changing only that stored password changes the answer. -/
theorem getConnections_exposes_password :
    (getConnections id (run emptyStore [.send 1 2 none 1, .accept 1 2 2])
      [exampleUser 1 "ann" "h1", exampleUser 2 "bob" "h2"] 1 none none).data.map
      (fun pc => pc.connectedUserId.map (·.password)) = [some "h2"] ∧
    getConnections id (run emptyStore [.send 1 2 none 1, .accept 1 2 2])
        [exampleUser 1 "ann" "h1", exampleUser 2 "bob" "h2"] 1 none none ≠
      getConnections id (run emptyStore [.send 1 2 none 1, .accept 1 2 2])
        [exampleUser 1 "ann" "h1", exampleUser 2 "bob" "other"] 1 none none := by
  decide

end BlogBackend

namespace BlogBackend

/-! ## The authentication gate -/

theorem extractToken_none_of_absent (req : AuthRequest)
    (hheader : ∀ h, req.authorization = some h → h.startsWith "Bearer " = false)
    (hcookie : req.cookieToken = none) : extractToken req = none := by
  unfold extractToken
  rw [hcookie]
  cases hauth : req.authorization with
  | none => rfl
  | some h => simp [hheader h hauth, truthy]

/-- The middleware answers 401 itself, or calls `next()` with an existing user that a
verified token names. -/
theorem authMiddleware_cases (verify : String → Except JwtError JwtPayload)
    (castObjectId : String → Option ObjectId) (users : List User) (req : AuthRequest) :
    (∃ message, authMiddleware verify castObjectId users req = .respond 401 false message) ∨
    (∃ token decoded raw id user,
      extractToken req = some token ∧ verify token = .ok decoded ∧
      (if truthy decoded.id then decoded.id else decoded.userId) = some raw ∧
      castObjectId raw = some id ∧
      users.find? (fun u => u._id == id) = some user ∧
      authMiddleware verify castObjectId users req = .next (withoutPassword user)) := by
  unfold authMiddleware
  cases htok : extractToken req with
  | none => exact Or.inl ⟨_, rfl⟩
  | some token =>
    dsimp only
    cases hver : verify token with
    | error e => cases e <;> exact Or.inl ⟨_, rfl⟩
    | ok decoded =>
      dsimp only
      cases hid : (if truthy decoded.id then decoded.id else decoded.userId) with
      | none => exact Or.inl ⟨_, rfl⟩
      | some raw =>
        dsimp only
        cases hcast : castObjectId raw with
        | none => exact Or.inl ⟨_, rfl⟩
        | some id =>
          dsimp only
          cases hfind : users.find? (fun u => u._id == id) with
          | none => exact Or.inl ⟨_, rfl⟩
          | some user =>
            exact Or.inr ⟨token, decoded, raw, id, user, rfl, hver, hid, hcast, hfind, rfl⟩

end BlogBackend

namespace BlogBackend

theorem connectionRoutes_of_respond {β : Type}
    (verify : String → Except JwtError JwtPayload)
    (castObjectId : String → Option ObjectId) (users : List User) (req : AuthRequest)
    (controller : AuthUser → β) (code : Nat) (success : Bool) (message : String)
    (h : authMiddleware verify castObjectId users req = .respond code success message) :
    connectionRoutes verify castObjectId users req controller =
      .inl (.respond code success message) := by
  unfold connectionRoutes
  rw [h]

/-- C24: every connection route is gated by `authMiddleware`. For every request, either
the middleware answers 401 with `success = false` and the router returns that answer
without running the controller, or `req.user` is an existing user stripped of its
password and the controller runs on it. In particular the router answers 401 when the
request has no bearer token and no token cookie, when the token fails verification, and
when the verified token names no existing user. -/
theorem connectionRoutes_gated {β : Type} (verify : String → Except JwtError JwtPayload)
    (castObjectId : String → Option ObjectId) (users : List User) (req : AuthRequest)
    (controller : AuthUser → β) :
    ((∃ message,
        authMiddleware verify castObjectId users req = .respond 401 false message ∧
        connectionRoutes verify castObjectId users req controller =
          .inl (.respond 401 false message)) ∨
      (∃ user ∈ users,
        authMiddleware verify castObjectId users req = .next (withoutPassword user) ∧
        connectionRoutes verify castObjectId users req controller =
          .inr (controller (withoutPassword user)))) ∧
    ((∀ h, req.authorization = some h → h.startsWith "Bearer " = false) →
      req.cookieToken = none →
      connectionRoutes verify castObjectId users req controller =
        .inl (.respond 401 false "Access denied. No token provided.")) ∧
    (∀ token e, extractToken req = some token → verify token = .error e →
      ∃ message, connectionRoutes verify castObjectId users req controller =
        .inl (.respond 401 false message)) ∧
    (∀ token decoded, extractToken req = some token → verify token = .ok decoded →
      (∀ raw id, (if truthy decoded.id then decoded.id else decoded.userId) = some raw →
        castObjectId raw = some id → ∀ u ∈ users, u._id ≠ id) →
      ∃ message, connectionRoutes verify castObjectId users req controller =
        .inl (.respond 401 false message)) := by
  refine ⟨?_, ?_, ?_, ?_⟩
  · rcases authMiddleware_cases verify castObjectId users req with
      ⟨message, h⟩ | ⟨_, _, _, _, user, _, _, _, _, hfind, h⟩
    · exact Or.inl ⟨message, h, connectionRoutes_of_respond _ _ _ _ _ _ _ _ h⟩
    · refine Or.inr ⟨user, List.mem_of_find?_eq_some hfind, h, ?_⟩
      unfold connectionRoutes
      rw [h]
  · intro hheader hcookie
    apply connectionRoutes_of_respond
    unfold authMiddleware
    rw [extractToken_none_of_absent req hheader hcookie]
  · intro token e htok hver
    rcases authMiddleware_cases verify castObjectId users req with
      ⟨message, h⟩ | ⟨token', _, _, _, _, htok', hver', _⟩
    · exact ⟨message, connectionRoutes_of_respond _ _ _ _ _ _ _ _ h⟩
    · rw [htok] at htok'
      cases htok'
      rw [hver] at hver'
      cases hver'
  · intro token decoded htok hver hnone
    rcases authMiddleware_cases verify castObjectId users req with
      ⟨message, h⟩ | ⟨token', decoded', raw, id, user, htok', hver', hid, hcast, hfind, _⟩
    · exact ⟨message, connectionRoutes_of_respond _ _ _ _ _ _ _ _ h⟩
    · rw [htok] at htok'
      cases htok'
      rw [hver] at hver'
      cases hver'
      exact absurd (by simpa using List.find?_some hfind)
        (hnone raw id hid hcast user (List.mem_of_find?_eq_some hfind))

theorem connectionRoutes_gated_witness :
    connectionRoutes (fun _ => .error .jsonWebTokenError) (fun _ => none)
        [exampleUser 1 "ann" "h1"] { authorization := none, cookieToken := none }
        (fun user => user._id) =
      .inl (.respond 401 false "Access denied. No token provided.") :=
  (connectionRoutes_gated (fun _ => .error .jsonWebTokenError) (fun _ => none)
      [exampleUser 1 "ann" "h1"] { authorization := none, cookieToken := none }
      (fun user => user._id)).2.1
    (by intro h hh; exact absurd hh (by simp)) rfl

end BlogBackend

namespace BlogBackend

/-! ## Liking a blog -/

theorem find_updateBlog (blogs : List Blog) (doc : Blog)
    (h : ∃ x ∈ blogs, x._id = doc._id) :
    (updateBlog blogs doc).find? (fun b => b._id == doc._id) = some doc := by
  induction blogs with
  | nil => simp at h
  | cons x xs ih =>
    unfold updateBlog
    by_cases hx : x._id = doc._id
    · simp [hx]
    · have hx' : (x._id == doc._id) = false := by simpa using hx
      simp only [hx', Bool.false_eq_true, if_false]
      rw [List.find?_cons_of_neg _ (by simpa using hx)]
      apply ih
      obtain ⟨y, hy, hyid⟩ := h
      rcases List.mem_cons.mp hy with rfl | hy'
      · exact absurd hyid hx
      · exact ⟨y, hy', hyid⟩

/-- The toggle of `likeBlog` on a duplicate-free list. -/
theorem toggle_like (likes : List ObjectId) (u : ObjectId) (hnodup : likes.Nodup) :
    (u ∈ (if likes.any (fun like => like == u) then likes.filter (fun like => like != u)
          else likes ++ [u]) ↔ u ∉ likes) ∧
    (∀ v, v ≠ u →
      (v ∈ (if likes.any (fun like => like == u) then likes.filter (fun like => like != u)
            else likes ++ [u]) ↔ v ∈ likes)) ∧
    (if likes.any (fun like => like == u) then likes.filter (fun like => like != u)
     else likes ++ [u]).Nodup ∧
    (if likes.any (fun like => like == u) then likes.filter (fun like => like != u)
     else likes ++ [u]).filter (fun like => like != u) =
      likes.filter (fun like => like != u) ∧
    (likes.any (fun like => like == u) = decide (u ∈ likes)) := by
  have hany : likes.any (fun like => like == u) = decide (u ∈ likes) := by
    rw [Bool.eq_iff_iff]
    simp [List.any_eq_true]
  rw [hany]
  by_cases hu : u ∈ likes
  · simp only [hu, decide_True, if_true, not_true_eq_false, iff_false]
    refine ⟨by simp [List.mem_filter], ?_, hnodup.filter _, by simp [List.filter_filter],
      trivial⟩
    intro v hv
    simp [List.mem_filter, hv]
  · simp only [hu, decide_False, Bool.false_eq_true, if_false, not_false_eq_true, iff_true]
    refine ⟨by simp, ?_, ?_, ?_, trivial⟩
    · intro v hv
      simp [hv]
    · refine List.Nodup.append hnodup (List.nodup_singleton _) ?_
      intro x hx hx'
      rw [List.mem_singleton] at hx'
      exact hu (hx' ▸ hx)
    · simp [List.filter_append, List.filter]

end BlogBackend

namespace BlogBackend

/-- The result of `likeBlog` on a blog that exists. -/
theorem likeBlog_found (blogs : List Blog) (id u : ObjectId) (now : Date) (blog : Blog)
    (hfind : blogs.find? (fun b => b._id == id) = some blog) :
    likeBlog blogs id u now =
      (updateBlog blogs
        { blog with
          likes := if blog.likes.any (fun like => like == u)
            then blog.likes.filter (fun like => like != u) else blog.likes ++ [u]
          updatedAt := now },
       { code := 200, success := true, message := none,
         isLiked := some (!blog.likes.any (fun like => like == u)),
         likesCount := some (if blog.likes.any (fun like => like == u)
            then blog.likes.filter (fun like => like != u)
            else blog.likes ++ [u]).length }) ∧
    (likeBlog blogs id u now).1.find? (fun b => b._id == id) =
      some { blog with
        likes := if blog.likes.any (fun like => like == u)
          then blog.likes.filter (fun like => like != u) else blog.likes ++ [u]
        updatedAt := now } := by
  have hrun : likeBlog blogs id u now =
      (updateBlog blogs
        { blog with
          likes := if blog.likes.any (fun like => like == u)
            then blog.likes.filter (fun like => like != u) else blog.likes ++ [u]
          updatedAt := now },
       { code := 200, success := true, message := none,
         isLiked := some (!blog.likes.any (fun like => like == u)),
         likesCount := some (if blog.likes.any (fun like => like == u)
            then blog.likes.filter (fun like => like != u)
            else blog.likes ++ [u]).length }) := by
    unfold likeBlog
    rw [hfind]
  refine ⟨hrun, ?_⟩
  rw [hrun]
  have hid : blog._id = id := by simpa using List.find?_some hfind
  have := find_updateBlog blogs
    { blog with
      likes := if blog.likes.any (fun like => like == u)
        then blog.likes.filter (fun like => like != u) else blog.likes ++ [u]
      updatedAt := now }
    ⟨blog, List.mem_of_find?_eq_some hfind, rfl⟩
  simpa [hid] using this

/-- C29: `likeBlog` is a toggle on membership. For a blog that exists and whose `likes`
list has no duplicate, a call by user `u` answers 200 and stores the list `likes`: `u` is
in it exactly when it was absent before, every other entry is kept as it was, `isLiked`
is the new membership of `u` and `likesCount` the new length, and the list has no
duplicate. A second call by `u` stores a list `likes2` that is a rearrangement of the
original list, again without duplicate. -/
theorem likeBlog_toggle (blogs : List Blog) (id u : ObjectId) (now now2 : Date)
    (blog : Blog) (hfind : blogs.find? (fun b => b._id == id) = some blog)
    (hnodup : blog.likes.Nodup) :
    ∃ likes likes2 : List ObjectId,
      (likeBlog blogs id u now).2 =
        { code := 200, success := true, message := none,
          isLiked := some (decide (u ∈ likes)), likesCount := some likes.length } ∧
      (likeBlog blogs id u now).1.find? (fun b => b._id == id) =
        some { blog with likes := likes, updatedAt := now } ∧
      (u ∈ likes ↔ u ∉ blog.likes) ∧
      (∀ v, v ≠ u → (v ∈ likes ↔ v ∈ blog.likes)) ∧
      likes.filter (fun like => like != u) = blog.likes.filter (fun like => like != u) ∧
      likes.Nodup ∧
      (likeBlog (likeBlog blogs id u now).1 id u now2).1.find? (fun b => b._id == id) =
        some { blog with likes := likes2, updatedAt := now2 } ∧
      likes2.Perm blog.likes ∧ likes2.Nodup := by
  obtain ⟨hrun, hafter⟩ := likeBlog_found blogs id u now blog hfind
  obtain ⟨hself, hother, hnd, hfilter, hany⟩ := toggle_like blog.likes u hnodup
  obtain ⟨_, hafter2⟩ := likeBlog_found (likeBlog blogs id u now).1 id u now2 _ hafter
  obtain ⟨hself2, hother2, hnd2, _, _⟩ := toggle_like _ u hnd
  refine ⟨_, _, ?_, hafter, hself, hother, hfilter, hnd, hafter2, ?_, hnd2⟩
  · rw [hrun]
    have hb : (!blog.likes.any (fun like => like == u)) =
        decide (u ∈ (if blog.likes.any (fun like => like == u)
          then blog.likes.filter (fun like => like != u) else blog.likes ++ [u])) := by
      rw [Bool.eq_iff_iff, decide_eq_true_eq, hself, hany]
      simp
    simp only [hb]
  · rw [List.perm_ext_iff_of_nodup hnd2 hnodup]
    intro v
    by_cases hv : v = u
    · subst hv
      rw [hself2, hself]
      exact not_not
    · rw [hother2 v hv, hother v hv]

theorem likeBlog_toggle_witness :
    ∃ likes likes2 : List ObjectId,
      (likeBlog [exampleBlog] 1 3 5).2 =
        { code := 200, success := true, message := none,
          isLiked := some (decide (3 ∈ likes)), likesCount := some likes.length } ∧
      (likeBlog [exampleBlog] 1 3 5).1.find? (fun b => b._id == 1) =
        some { exampleBlog with likes := likes, updatedAt := 5 } ∧
      (3 ∈ likes ↔ 3 ∉ exampleBlog.likes) ∧
      (∀ v, v ≠ 3 → (v ∈ likes ↔ v ∈ exampleBlog.likes)) ∧
      likes.filter (fun like => like != 3) =
        exampleBlog.likes.filter (fun like => like != 3) ∧
      likes.Nodup ∧
      (likeBlog (likeBlog [exampleBlog] 1 3 5).1 1 3 6).1.find? (fun b => b._id == 1) =
        some { exampleBlog with likes := likes2, updatedAt := 6 } ∧
      likes2.Perm exampleBlog.likes ∧ likes2.Nodup :=
  likeBlog_toggle [exampleBlog] 1 3 5 6 exampleBlog (by decide) (by decide)

end BlogBackend

namespace BlogBackend

/-! ## Registering for an event -/

theorem find_updateEvent (events : List Event) (doc : Event)
    (h : ∃ x ∈ events, x._id = doc._id) :
    (updateEvent events doc).find? (fun e => e._id == doc._id) = some doc := by
  induction events with
  | nil => simp at h
  | cons x xs ih =>
    unfold updateEvent
    by_cases hx : x._id = doc._id
    · simp [hx]
    · have hx' : (x._id == doc._id) = false := by simpa using hx
      simp only [hx', Bool.false_eq_true, if_false]
      rw [List.find?_cons_of_neg _ (by simpa using hx)]
      apply ih
      obtain ⟨y, hy, hyid⟩ := h
      rcases List.mem_cons.mp hy with rfl | hy'
      · exact absurd hyid hx
      · exact ⟨y, hy', hyid⟩

/-- C30: for an event that exists, with a positive `maxAttendees` and a duplicate-free
`registeredUsers` list of length at most `maxAttendees`, a call of `registerEvent` by user
`u` either answers 400 "Already registered for this event" (when `u` is in the list) or
400 "Event is full" (when the length has reached `maxAttendees`), leaving the events
unchanged, or it answers 200 and saves the event with `u` appended once to
`registeredUsers` and to `attendees`; the saved list is duplicate-free and its length is
at most `maxAttendees`. -/
theorem registerEvent_bounded (events : List Event) (users : List User)
    (id u : ObjectId) (now : Date) (event : Event) (maxAttendees : Nat)
    (hfind : events.find? (fun e => e._id == id) = some event)
    (hmax : event.maxAttendees = some maxAttendees) (hpos : 0 < maxAttendees)
    (hnodup : (event.registeredUsers.map (·.userId)).Nodup)
    (hlen : event.registeredUsers.length ≤ maxAttendees) :
    (u ∈ event.registeredUsers.map (·.userId) ∧
      registerEvent events users id u now =
        (events, { code := 400, success := false,
                   message := "Already registered for this event", event := none })) ∨
    (u ∉ event.registeredUsers.map (·.userId) ∧
      event.registeredUsers.length = maxAttendees ∧
      registerEvent events users id u now =
        (events, { code := 400, success := false, message := "Event is full",
                   event := none })) ∨
    (u ∉ event.registeredUsers.map (·.userId) ∧
      event.registeredUsers.length < maxAttendees ∧
      ∃ saved : Event,
        registerEvent events users id u now =
          (updateEvent events saved,
           { code := 200, success := true, message := "Registered successfully",
             event := some (populateEvent users saved) }) ∧
        (registerEvent events users id u now).1.find? (fun e => e._id == id) = some saved ∧
        saved.registeredUsers =
          event.registeredUsers ++ [{ userId := u, registeredAt := now }] ∧
        saved.attendees = event.attendees ++ [u] ∧
        saved.maxAttendees = some maxAttendees ∧
        (saved.registeredUsers.map (·.userId)).Nodup ∧
        saved.registeredUsers.length ≤ maxAttendees) := by
  have hid : event._id = id := by simpa using List.find?_some hfind
  have hne : (maxAttendees != 0) = true := by
    simpa using Nat.pos_iff_ne_zero.mp hpos
  by_cases hreg : u ∈ event.registeredUsers.map (·.userId)
  · left
    refine ⟨hreg, ?_⟩
    have hany : event.registeredUsers.any (fun reg => reg.userId == u) = true := by
      obtain ⟨reg, hr, hru⟩ := List.mem_map.mp hreg
      rw [List.any_eq_true]
      exact ⟨reg, hr, by simpa using hru⟩
    unfold registerEvent
    simp only [hfind, hany, if_true]
  · right
    have hany : event.registeredUsers.any (fun reg => reg.userId == u) = false := by
      rw [List.any_eq_false]
      intro reg hr
      have : reg.userId ≠ u := fun h => hreg (List.mem_map.mpr ⟨reg, hr, h⟩)
      simpa using this
    by_cases hfull : event.registeredUsers.length = maxAttendees
    · left
      refine ⟨hreg, hfull, ?_⟩
      unfold registerEvent
      simp only [hfind, hany, Bool.false_eq_true, if_false, hmax, hne, Bool.true_and,
        ge_iff_le, hfull, le_refl, decide_True, if_true]
    · right
      have hlt : event.registeredUsers.length < maxAttendees := lt_of_le_of_ne hlen hfull
      have hnot : decide (event.registeredUsers.length ≥ maxAttendees) = false := by
        simpa using hlt
      have hrun : registerEvent events users id u now =
          (updateEvent events
            { event with
              registeredUsers :=
                event.registeredUsers ++ [{ userId := u, registeredAt := now }]
              attendees := event.attendees ++ [u]
              updatedAt := now },
           { code := 200, success := true, message := "Registered successfully",
             event := some (populateEvent users
               { event with
                 registeredUsers :=
                   event.registeredUsers ++ [{ userId := u, registeredAt := now }]
                 attendees := event.attendees ++ [u]
                 updatedAt := now }) }) := by
        unfold registerEvent
        simp only [hfind, hany, Bool.false_eq_true, if_false, hmax, hne, Bool.true_and,
          hnot]
      refine ⟨hreg, hlt, _, hrun, ?_, rfl, rfl, hmax, ?_, ?_⟩
      · rw [hrun]
        have := find_updateEvent events
          { event with
            registeredUsers :=
              event.registeredUsers ++ [{ userId := u, registeredAt := now }]
            attendees := event.attendees ++ [u]
            updatedAt := now }
          ⟨event, List.mem_of_find?_eq_some hfind, rfl⟩
        simpa [hid] using this
      · simp only [List.map_append, List.map_cons, List.map_nil]
        refine List.Nodup.append hnodup (List.nodup_singleton _) ?_
        intro x hx hx'
        rw [List.mem_singleton] at hx'
        exact hreg (hx' ▸ hx)
      · simp only [List.length_append, List.length_singleton]
        omega

theorem registerEvent_bounded_witness :
    (registerEvent [exampleEvent] [] 1 4 7).2.code = 200 ∧
    ((registerEvent [exampleEvent] [] 1 4 7).1.map
      (fun e => e.registeredUsers.map (·.userId))) = [[3, 4]] ∧
    ((3 : ObjectId) ∈ exampleEvent.registeredUsers.map (·.userId) ∧
        registerEvent [exampleEvent] [] 1 3 7 =
          ([exampleEvent], { code := 400, success := false,
                             message := "Already registered for this event",
                             event := none }) ∨
      ((3 : ObjectId) ∉ exampleEvent.registeredUsers.map (·.userId) ∧
        exampleEvent.registeredUsers.length = 2 ∧
        registerEvent [exampleEvent] [] 1 3 7 =
          ([exampleEvent], { code := 400, success := false, message := "Event is full",
                             event := none })) ∨
      ((3 : ObjectId) ∉ exampleEvent.registeredUsers.map (·.userId) ∧
        exampleEvent.registeredUsers.length < 2 ∧
        ∃ saved : Event,
          registerEvent [exampleEvent] [] 1 3 7 =
            (updateEvent [exampleEvent] saved,
             { code := 200, success := true, message := "Registered successfully",
               event := some (populateEvent [] saved) }) ∧
          (registerEvent [exampleEvent] [] 1 3 7).1.find? (fun e => e._id == 1) =
            some saved ∧
          saved.registeredUsers =
            exampleEvent.registeredUsers ++ [{ userId := 3, registeredAt := 7 }] ∧
          saved.attendees = exampleEvent.attendees ++ [3] ∧
          saved.maxAttendees = some 2 ∧
          (saved.registeredUsers.map (·.userId)).Nodup ∧
          saved.registeredUsers.length ≤ 2)) :=
  ⟨by decide, by decide,
   registerEvent_bounded [exampleEvent] [] 1 3 7 exampleEvent 2
     (by decide) rfl (by decide) (by decide) (by decide)⟩

end BlogBackend

namespace BlogBackend

/-! ## Request identifiers that are no ObjectId -/

/-- C7, as stated, fails on the code: the string "abc" identifies no ConnectionRequest,
yet it is no ObjectId, so the cast of `findById` throws and both handlers answer with the
generic 500 of their `catch` block, not with 404. -/
theorem accept_reject_not_found_counterexample :
    parseObjectId "abc" = none ∧
    acceptConnectionRequestBody parseObjectId emptyStore (some "abc") 2 5 =
      (emptyStore,
       { code := 500, success := false, message := "Failed to accept connection request",
         data := none, error := some .cast }) ∧
    rejectConnectionRequestBody parseObjectId emptyStore (some "abc") 2 5 =
      (emptyStore,
       { code := 500, success := false, message := "Failed to reject connection request",
         data := none, error := some .cast }) := by
  decide

/-- C7, amended: for every `requestId` that is missing, or that is a well-formed
ObjectId identifying no stored ConnectionRequest, `acceptConnectionRequest` and
`rejectConnectionRequest` answer 404 with `success = false` for every actor and return
the store unchanged. A `requestId` that is no well-formed ObjectId (and so identifies no
request either) is answered by the generic server error, 500 with `success = false`, the
store again unchanged. -/
theorem accept_reject_not_found_body (castObjectId : String → Option ObjectId)
    (s : Store) (actor : ObjectId) (now : Date) :
    (acceptConnectionRequestBody castObjectId s none actor now =
        (s, { code := 404, success := false, message := "Connection request not found",
              data := none, error := none }) ∧
      rejectConnectionRequestBody castObjectId s none actor now =
        (s, { code := 404, success := false, message := "Connection request not found",
              data := none, error := none })) ∧
    (∀ raw requestId, castObjectId raw = some requestId →
      (∀ r ∈ s.requests, r._id ≠ requestId) →
      acceptConnectionRequestBody castObjectId s (some raw) actor now =
        (s, { code := 404, success := false, message := "Connection request not found",
              data := none, error := none }) ∧
      rejectConnectionRequestBody castObjectId s (some raw) actor now =
        (s, { code := 404, success := false, message := "Connection request not found",
              data := none, error := none })) ∧
    (∀ raw, castObjectId raw = none →
      acceptConnectionRequestBody castObjectId s (some raw) actor now =
        (s, { code := 500, success := false,
              message := "Failed to accept connection request",
              data := none, error := some .cast }) ∧
      rejectConnectionRequestBody castObjectId s (some raw) actor now =
        (s, { code := 500, success := false,
              message := "Failed to reject connection request",
              data := none, error := some .cast })) := by
  refine ⟨⟨rfl, rfl⟩, ?_, ?_⟩
  · intro raw requestId hcast hnone
    unfold acceptConnectionRequestBody rejectConnectionRequestBody
    simp only [hcast]
    exact accept_reject_not_found s requestId actor now hnone
  · intro raw hcast
    unfold acceptConnectionRequestBody rejectConnectionRequestBody
    simp only [hcast]
    exact ⟨rfl, rfl⟩

theorem accept_reject_not_found_body_witness :
    parseObjectId "00000000000000000000000f" = some 15 ∧
    acceptConnectionRequestBody parseObjectId
        (run emptyStore [.send 1 2 none 1]) (some "00000000000000000000000f") 2 4 =
      (run emptyStore [.send 1 2 none 1],
       { code := 404, success := false, message := "Connection request not found",
         data := none, error := none }) ∧
    rejectConnectionRequestBody parseObjectId
        (run emptyStore [.send 1 2 none 1]) (some "00000000000000000000000f") 2 4 =
      (run emptyStore [.send 1 2 none 1],
       { code := 404, success := false, message := "Connection request not found",
         data := none, error := none }) :=
  ⟨by decide,
   (accept_reject_not_found_body parseObjectId (run emptyStore [.send 1 2 none 1]) 2 4).2.1
     "00000000000000000000000f" 15 (by decide) (by decide)⟩

end BlogBackend

namespace BlogBackend

/-! ## The non-atomic accept -/

theorem acceptConnectionRequestFaulty_none (s : Store) (requestId userId : ObjectId)
    (now : Date) :
    acceptConnectionRequestFaulty none none s requestId userId now =
      acceptConnectionRequest s requestId userId now := rfl

/-- C26: `acceptConnectionRequest` is not atomic. For a stored request `r` from A to B
accepted by B, if the insert of the first Connection row (owner = A, peer = B) succeeds
and the insert of the second row fails with `e` (a store failure or a refusal by the
unique index), the handler answers with the generic server error (500,
"Failed to accept connection request"), while the store keeps the request in status
`accepted` and keeps the first row: the Connection collection is the old one plus that
row, which is the one row with owner A and peer B, and a row (owner = B, peer = A) exists
afterwards only if it existed before. Nothing is rolled back. -/
theorem acceptConnectionRequest_not_atomic (fault1 fault2 : Option StoreError)
    (s : Store) (r : ConnectionRequest)
    (A B : ObjectId) (now : Date) (connections1 : List Connection) (e : StoreError)
    (hmem : r ∈ s.requests) (huniq : uniqueRequestIds s)
    (hA : r.senderId = A) (hB : r.receiverId = B)
    (h1 : insertConnectionFaulty fault1 s.connections
      (newConnection (s.connections.map (·._id)) A B now) = .ok connections1)
    (h2 : insertConnectionFaulty fault2 connections1
      (newConnection
        ((newConnection (s.connections.map (·._id)) A B now)._id ::
          s.connections.map (·._id)) B A now) = .error e) :
    (acceptConnectionRequestFaulty fault1 fault2 s r._id B now).2 =
      { code := 500, success := false, message := "Failed to accept connection request",
        data := none, error := some e } ∧
    (∃ r', findById (acceptConnectionRequestFaulty fault1 fault2 s r._id B now).1.requests
        r._id = some r' ∧
      r'.status = .accepted ∧ r'.respondedAt = some now) ∧
    (acceptConnectionRequestFaulty fault1 fault2 s r._id B now).1.connections =
      s.connections ++ [newConnection (s.connections.map (·._id)) A B now] ∧
    ((acceptConnectionRequestFaulty fault1 fault2 s r._id B now).1.connections.filter
      (fun c => c.userId == A && c.connectedUserId == B)).length = 1 ∧
    hasConnection (acceptConnectionRequestFaulty fault1 fault2 s r._id B now).1 A B ∧
    (hasConnection (acceptConnectionRequestFaulty fault1 fault2 s r._id B now).1 B A →
      hasConnection s B A ∨ A = B) := by
  have hfind := findById_of_mem s r hmem huniq
  have h1' : insertConnection s.connections
      (newConnection (s.connections.map (·._id)) A B now) = .ok connections1 := by
    cases fault1 with
    | none => exact h1
    | some f => exact absurd h1 (by simp [insertConnectionFaulty])
  obtain ⟨hc1, hno⟩ := insertConnection_ok _ _ _ h1'
  have hcmp : (r.receiverId != B) = false := by simpa using hB
  have hrun : acceptConnectionRequestFaulty fault1 fault2 s r._id B now =
      ({ requests := (saveRequest s.requests r
           { r with status := .accepted, respondedAt := some now } now).1,
         connections := connections1 },
       serverError "Failed to accept connection request" e) := by
    unfold acceptConnectionRequestFaulty
    simp only [hfind, hcmp, Bool.false_eq_true, if_false, hA, h1, h2]
  have hf := saveRequest_snd_fields s.requests r
    { r with status := .accepted, respondedAt := some now } now
  rw [hrun]
  refine ⟨rfl, ⟨_, findById_saveRequest s.requests r _ now hfind rfl,
    hf.2.2.2.1, hf.2.2.2.2.2.2.1⟩, hc1, ?_, ?_, ?_⟩
  · rw [hc1, List.filter_append]
    have hold : s.connections.filter (fun c =>
        c.userId == A && c.connectedUserId == B) = [] := by
      rw [List.filter_eq_nil_iff]
      intro c hc hp
      simp only [Bool.and_eq_true, beq_iff_eq] at hp
      exact hno c hc hp
    rw [hold]
    simp [List.filter, newConnection]
  · refine ⟨newConnection (s.connections.map (·._id)) A B now, ?_, rfl, rfl⟩
    rw [hc1]
    exact List.mem_append_right _ (List.mem_singleton.mpr rfl)
  · rintro ⟨c, hc, hu, hv⟩
    rw [hc1] at hc
    rcases List.mem_append.mp hc with hold | hnew
    · exact Or.inl ⟨c, hold, hu, hv⟩
    · rw [List.mem_singleton] at hnew
      subst hnew
      exact Or.inr hu

theorem acceptConnectionRequest_not_atomic_witness :
    (acceptConnectionRequestFaulty none (some .unavailable)
        (run emptyStore [.send 1 2 none 1]) 1 2 2).2 =
      { code := 500, success := false, message := "Failed to accept connection request",
        data := none, error := some .unavailable } ∧
    hasConnection (acceptConnectionRequestFaulty none (some .unavailable)
        (run emptyStore [.send 1 2 none 1]) 1 2 2).1 1 2 ∧
    ¬ hasConnection (acceptConnectionRequestFaulty none (some .unavailable)
        (run emptyStore [.send 1 2 none 1]) 1 2 2).1 2 1 ∧
    (findById (acceptConnectionRequestFaulty none (some .unavailable)
        (run emptyStore [.send 1 2 none 1]) 1 2 2).1.requests 1).map (·.status) =
      some .accepted :=
  ⟨(acceptConnectionRequest_not_atomic none (some .unavailable)
      (run emptyStore [.send 1 2 none 1])
      { _id := 1, senderId := 1, receiverId := 2, status := .pending, message := "",
        sentAt := 1, respondedAt := none, createdAt := 1, updatedAt := 1 }
      1 2 2 _ .unavailable (by decide) (by decide) rfl rfl rfl rfl).1,
   by decide, by decide, by decide⟩

end BlogBackend

namespace BlogBackend

/-! ## The status against its reference decision, for every choice of the store -/

theorem getConnectionStatusWith_find (s : Store) (a b : ObjectId) :
    getConnectionStatusWith List.find? s a b = getConnectionStatus s a b := rfl

theorem admissible_find : admissibleFindOne List.find? := by
  intro p l
  refine ⟨fun r h => ⟨List.mem_of_find?_eq_some h, List.find?_some h⟩, fun h r hr => ?_⟩
  have := List.find?_eq_none.mp h r hr
  simpa using this

theorem admissible_findLastInserted : admissibleFindOne findLastInserted := by
  intro p l
  unfold findLastInserted
  refine ⟨fun r h => ⟨List.mem_reverse.mp (List.mem_of_find?_eq_some h), List.find?_some h⟩,
    fun h r hr => ?_⟩
  have := List.find?_eq_none.mp h r (List.mem_reverse.mpr hr)
  simpa using this

end BlogBackend

namespace BlogBackend

/-- C19, as stated, fails on the code: the handler runs one unsorted `findOne` over both
directions and labels the returned request by its sender, so with pending requests in both
directions the answer follows the store's choice, not the reference priority. Both
choices below meet the contract of `findOne`. When the store returns the first inserted
match and the request 2 → 1 was inserted before 1 → 2, the answer for (1, 2) is
`pending_received` where the reference decision is `pending_sent`; when it returns the
last inserted match, the same happens with the two requests inserted in the other
order. -/
theorem getConnectionStatus_decision_counterexample :
    (admissibleFindOne List.find? ∧
      (getConnectionStatusWith List.find?
        (run emptyStore [.send 2 1 none 1, .send 1 2 none 2]) 1 2).status
        = "pending_received" ∧
      statusDecision (run emptyStore [.send 2 1 none 1, .send 1 2 none 2]) 1 2
        = "pending_sent") ∧
    (admissibleFindOne findLastInserted ∧
      (getConnectionStatusWith findLastInserted
        (run emptyStore [.send 1 2 none 1, .send 2 1 none 2]) 1 2).status
        = "pending_received" ∧
      statusDecision (run emptyStore [.send 1 2 none 1, .send 2 1 none 2]) 1 2
        = "pending_sent") ∧
    ("pending_received" : String) ≠ "pending_sent" :=
  ⟨⟨admissible_find, by decide, by decide⟩,
   ⟨admissible_findLastInserted, by decide, by decide⟩, by decide⟩

/-- With pending requests in both directions between distinct a and b and no Connection
row (owner = a, peer = b), some `findOne` that meets the contract makes the handler answer
`pending_received`, against the reference decision `pending_sent`. -/
theorem getConnectionStatusWith_both_pending (s : Store) (a b : ObjectId) (hne : a ≠ b)
    (hconn : ¬ hasConnection s a b) (hsent : hasPending s a b) (hrecv : hasPending s b a) :
    ∃ findOne : FindOne, admissibleFindOne findOne ∧
      (getConnectionStatusWith findOne s a b).status = "pending_received" ∧
      statusDecision s a b = "pending_sent" := by
  refine ⟨fun p l => match l.find? (fun r => p r && r.senderId == b) with
    | some r => some r
    | none => l.find? p, ?_, ?_, ?_⟩
  · intro p l
    constructor
    · intro r h
      cases hf : l.find? (fun r => p r && r.senderId == b) with
      | some x =>
        simp only [hf] at h
        cases h
        have hp := List.find?_some hf
        simp only [Bool.and_eq_true] at hp
        exact ⟨List.mem_of_find?_eq_some hf, hp.1⟩
      | none =>
        simp only [hf] at h
        exact ⟨List.mem_of_find?_eq_some h, List.find?_some h⟩
    · intro h r hr
      cases hf : l.find? (fun r => p r && r.senderId == b) with
      | some x => simp only [hf] at h; cases h
      | none =>
        simp only [hf] at h
        have := List.find?_eq_none.mp h r hr
        simpa using this
  · unfold getConnectionStatusWith
    rw [find_owned_none s a b hconn]
    obtain ⟨x, hx, h1, h2, h3⟩ := hrecv
    cases hf : s.requests.find? (fun r =>
        ((r.senderId == a && r.receiverId == b && r.status == .pending) ||
          (r.senderId == b && r.receiverId == a && r.status == .pending)) &&
        r.senderId == b) with
    | none =>
      exact absurd (List.find?_eq_none.mp hf x hx) (by simp [h1, h2, h3])
    | some r =>
      have hp := List.find?_some hf
      simp only [Bool.and_eq_true, beq_iff_eq] at hp
      have hra : (r.senderId == a) = false := by
        rw [hp.2]
        simpa using fun h => hne h.symm
      simp only [hf, hra, Bool.false_eq_true, if_false]
  · unfold statusDecision
    rw [if_neg hconn, if_pos hsent]

/-- C19, amended: for every store, every `findOne` that meets its contract and all
identities a, b such that a = b or pending requests from a to b and from b to a do not
both exist, `getConnectionStatus` for (a, b) answers 200 with the reference decision:
`connected` if a Connection row (owner = a, peer = b) exists; otherwise `pending_sent` if
a pending request from a to b exists; otherwise `pending_received` if a pending request
from b to a exists; otherwise `not_connected`. (With both directions pending the answer is
`pending_sent` or `pending_received` according to the request the store returns.) -/
theorem getConnectionStatus_decision (findOne : FindOne) (hfindOne : admissibleFindOne findOne)
    (s : Store) (a b : ObjectId)
    (h : a = b ∨ ¬ (hasPending s a b ∧ hasPending s b a)) :
    getConnectionStatusWith findOne s a b =
      { code := 200, success := true, status := statusDecision s a b } := by
  by_cases hconn : hasConnection s a b
  · have hd : statusDecision s a b = "connected" := by
      unfold statusDecision
      rw [if_pos hconn]
    rw [hd]
    unfold getConnectionStatusWith
    cases hc : s.connections.find? (fun c => c.userId == a && c.connectedUserId == b) with
    | some c => rfl
    | none =>
      obtain ⟨c, hmem, h1, h2⟩ := hconn
      exact absurd (List.find?_eq_none.mp hc c hmem) (by simp [h1, h2])
  · unfold getConnectionStatusWith
    rw [find_owned_none s a b hconn]
    obtain ⟨hsome, hnone⟩ := hfindOne (fun r =>
      (r.senderId == a && r.receiverId == b && r.status == .pending) ||
      (r.senderId == b && r.receiverId == a && r.status == .pending)) s.requests
    cases hf : findOne (fun r =>
        (r.senderId == a && r.receiverId == b && r.status == .pending) ||
        (r.senderId == b && r.receiverId == a && r.status == .pending)) s.requests with
    | none =>
      have hall := hnone hf
      have hsent : ¬ hasPending s a b := by
        rintro ⟨r, hr, h1, h2, h3⟩
        have := hall r hr
        simp [h1, h2, h3] at this
      have hrecv : ¬ hasPending s b a := by
        rintro ⟨r, hr, h1, h2, h3⟩
        have := hall r hr
        simp [h1, h2, h3] at this
      have hd : statusDecision s a b = "not_connected" := by
        unfold statusDecision
        rw [if_neg hconn, if_neg hsent, if_neg hrecv]
      rw [hd]
    | some r =>
      obtain ⟨hmem, hp⟩ := hsome r hf
      simp only [Bool.or_eq_true, Bool.and_eq_true, beq_iff_eq] at hp
      dsimp only
      rcases hp with ⟨⟨e1, e2⟩, e3⟩ | ⟨⟨e1, e2⟩, e3⟩
      · have hsent : hasPending s a b := ⟨r, hmem, e1, e2, e3⟩
        have hd : statusDecision s a b = "pending_sent" := by
          unfold statusDecision
          rw [if_neg hconn, if_pos hsent]
        rw [hd]
        simp [e1]
      · have hrecv : hasPending s b a := ⟨r, hmem, e1, e2, e3⟩
        by_cases hab : a = b
        · subst hab
          have hd : statusDecision s a a = "pending_sent" := by
            unfold statusDecision
            rw [if_neg hconn, if_pos hrecv]
          rw [hd]
          simp [e1]
        · have hsent : ¬ hasPending s a b := by
            intro hs
            rcases h with h | h
            · exact hab h
            · exact h ⟨hs, hrecv⟩
          have hd : statusDecision s a b = "pending_received" := by
            unfold statusDecision
            rw [if_neg hconn, if_neg hsent, if_pos hrecv]
          rw [hd]
          have hra : (r.senderId == a) = false := by
            rw [e1]
            simpa using fun h => hab h.symm
          simp [hra]

theorem getConnectionStatus_decision_witness :
    getConnectionStatusWith findLastInserted (run emptyStore [.send 2 1 none 1]) 1 2 =
      { code := 200, success := true, status := "pending_received" } ∧
    statusDecision (run emptyStore [.send 2 1 none 1]) 1 2 = "pending_received" :=
  ⟨getConnectionStatus_decision findLastInserted admissible_findLastInserted
     (run emptyStore [.send 2 1 none 1]) 1 2 (Or.inr (by decide)),
   by decide⟩

end BlogBackend
